import Mathlib

/-!
# Reconciliation core of the mesh-VPN client

A shallow embedding of the DNS reconciler (`client/internal/dns/server.go`) and of the
peer/network-map reconciler exercised by `client/internal/engine_test.go`, together with
the properties the specification states about them.

Conventions of the embedding:

* a Go `map[string]V` is an association list `GoMap V`; assignment overwrites the value of
  an existing key in place and appends a new key at the end, `range` visits the entries in
  list order (Go leaves the order unspecified; no result below depends on it);
* `uint64` serials are natural numbers (they are only compared and copied);
* a Go `error` result is an `Option Error`, a panic is a separate outcome;
* calls issued to collaborators (dispatch table, record store, listener) are returned as a
  list of `Call`s in program order.
-/

namespace Wiretrustee

/-! ## Go maps with string keys -/

/-- A Go `map[string]β`. -/
abbrev GoMap (β : Type) := List (String × β)

namespace GoMap

variable {β : Type}

/-- The keys of the map, in iteration order. -/
def keys (m : GoMap β) : List String := m.map Prod.fst

/-- The comma-ok lookup `v, found := m[k]`. -/
def get? : GoMap β → String → Option β
  | [], _ => none
  | (k', v) :: m, k => if k' = k then some v else get? m k

/-- The `found` half of `_, found := m[k]`. -/
def contains (m : GoMap β) (k : String) : Bool := (m.get? k).isSome

/-- The assignment `m[k] = v`. -/
def set : GoMap β → String → β → GoMap β
  | [], k, v => [(k, v)]
  | (k', v') :: m, k, v => if k' = k then (k, v) :: m else (k', v') :: set m k v

/-- The builtin `delete(m, k)`. -/
def delete (m : GoMap β) (k : String) : GoMap β := m.filter (fun e => decide (e.1 ≠ k))

end GoMap

/-- The type `registrationMap map[string]struct{}`. -/
abbrev registrationMap := GoMap Unit

/-! ## Data model of a DNS update (package `nbdns`) -/

/-- Modelled from the spec: the constant `nbdns.UDPNameServerType`, the one nameserver type
this peer supports; `NameServerType` is an integer enumeration declared outside the sources
at hand. -/
def UDPNameServerType : Nat := 1

/-- Modelled from the spec: the constant `nbdns.RootZone`, the reserved root pattern that
matches any domain not more specifically claimed. -/
def RootZone : String := "."

/-- One nameserver of a group: `nbdns.NameServer`, with `IP` kept in its printed form. -/
structure NameServer where
  IP : String
  NSType : Nat
  Port : Nat
deriving DecidableEq, Repr

/-- The fields of `nbdns.NameServerGroup` the reconciler reads. -/
structure NameServerGroup where
  NameServers : List NameServer
  Primary : Bool
  Domains : List String
deriving DecidableEq, Repr

/-- A locally served record: `nbdns.SimpleRecord`. -/
structure SimpleRecord where
  Name : String
  Type_ : Nat
  Class : String
  TTL : Nat
  RData : String
deriving DecidableEq, Repr

/-- A zone answered from local records: `nbdns.CustomZone`. -/
structure CustomZone where
  Domain : String
  Records : List SimpleRecord
deriving DecidableEq, Repr

/-- The DNS snapshot: `nbdns.Update`. -/
structure Update where
  ServiceEnable : Bool
  CustomZones : List CustomZone
  NameServerGroups : List NameServerGroup
deriving DecidableEq, Repr

/-! ## The DNS server -/

/-- A value of the interface `dns.Handler` as the server creates them: the server's one local
resolver, or an `upstreamResolver` with its list of `host:port` upstream servers. -/
inductive Handler where
  | localResolver
  | upstreamResolver (upstreamServers : List String)
deriving DecidableEq, Repr

/-- The struct `muxUpdate`. -/
structure muxUpdate where
  domain : String
  handler : Handler
deriving DecidableEq, Repr

/-- A Go `error` value. -/
inductive Error where
  | contextCanceled
  | errorf (msg : String)
deriving DecidableEq, Repr

/-- A call issued to a collaborator of the DNS server. -/
inductive Call where
  | handle (pattern : String) (handler : Handler)
  | handleRemove (pattern : String)
  | deleteRecord (key : String)
  | registerRecord (record : SimpleRecord)
  | listenAndServe
  | shutdown
deriving DecidableEq, Repr

/-- The struct `localResolver`: the names the server tracks as registered, and the store of
records the resolver answers from. -/
structure localResolver where
  registeredMap : registrationMap
  records : GoMap SimpleRecord
deriving DecidableEq, Repr

/-- The struct `Server`. `ctxDone` holds when `ctx` has been cancelled, `dnsMux` is the table
of `dns.ServeMux` keyed by the exact pattern string. -/
structure Server where
  ctxDone : Bool
  dnsMux : GoMap Handler
  dnsMuxMap : registrationMap
  localResolver : localResolver
  updateSerial : Nat
  listenerIsRunning : Bool
deriving DecidableEq, Repr

/-- The behaviour of the collaborators during one call: whether `ListenAndServe` returns at
once with an error, whether `ShutdownContext` returns an error, and for which records
`localResolver.registerRecord` returns an error. -/
structure Env where
  listenFails : Bool
  shutdownFails : Bool
  registerRecordFails : SimpleRecord → Bool

/-- The function `NewServer`. -/
def NewServer : Server :=
  { ctxDone := false
    dnsMux := []
    dnsMuxMap := []
    localResolver := { registeredMap := [], records := [] }
    updateSerial := 0
    listenerIsRunning := false }

/-- The method `Server.Start`, with the listener goroutine run synchronously: the flag is
set, and cleared again when `ListenAndServe` returns. -/
def Server.Start (env : Env) (s : Server) : Server × List Call :=
  ({ s with listenerIsRunning := !env.listenFails }, [Call.listenAndServe])

/-- The method `Server.stopListener`. A successful shutdown makes `ListenAndServe` return,
which clears the flag. -/
def Server.stopListener (env : Env) (s : Server) : Server × Option Error × List Call :=
  if !s.listenerIsRunning then (s, none, [])
  else if env.shutdownFails then
    (s, some (Error.errorf "stopping dns server listener returned an error"), [Call.shutdown])
  else ({ s with listenerIsRunning := false }, none, [Call.shutdown])

/-- The method `Server.Stop`. -/
def Server.Stop (env : Env) (s : Server) : Server × List Call :=
  let r := Server.stopListener env { s with ctxDone := true }
  (r.1, r.2.2)

/-- The function `getNSHostPort`. -/
def getNSHostPort (ns : NameServer) : String := ns.IP ++ ":" ++ toString ns.Port

/-- The loop body of `buildLocalHandlerUpdate` over the remaining zones, with the two
accumulators `muxUpdates` and `localRecords`. -/
def buildLocalHandlerUpdate.loop :
    List CustomZone → List muxUpdate → GoMap SimpleRecord →
      Except Error (List muxUpdate × GoMap SimpleRecord)
  | [], muxUpdates, localRecords => .ok (muxUpdates, localRecords)
  | customZone :: rest, muxUpdates, localRecords =>
    if customZone.Records.length = 0 then
      .error (Error.errorf "received an empty list of records")
    else
      buildLocalHandlerUpdate.loop rest
        (muxUpdates ++ [{ domain := customZone.Domain, handler := Handler.localResolver }])
        (customZone.Records.foldl (fun m record => m.set record.Name record) localRecords)

/-- The method `Server.buildLocalHandlerUpdate`. -/
def buildLocalHandlerUpdate (customZones : List CustomZone) :
    Except Error (List muxUpdate × GoMap SimpleRecord) :=
  buildLocalHandlerUpdate.loop customZones [] []

/-- The inner loop of `buildUpstreamHandlerUpdate` that collects `handler.upstreamServers`. -/
def upstreamServers : List NameServer → List String → List String
  | [], acc => acc
  | ns :: rest, acc =>
    if ns.NSType ≠ UDPNameServerType then upstreamServers rest acc
    else upstreamServers rest (acc ++ [getNSHostPort ns])

/-- The inner loop of `buildUpstreamHandlerUpdate` over the domains of one group. -/
def buildUpstreamHandlerUpdate.domains (handler : Handler) :
    List String → List muxUpdate → Except Error (List muxUpdate)
  | [], muxUpdates => .ok muxUpdates
  | domain :: rest, muxUpdates =>
    if domain = "" then
      .error (Error.errorf "received a nameserver group with an empty domain element")
    else
      buildUpstreamHandlerUpdate.domains handler rest
        (muxUpdates ++ [{ domain := domain, handler := handler }])

/-- The outer loop of `buildUpstreamHandlerUpdate` over the remaining groups. -/
def buildUpstreamHandlerUpdate.loop :
    List NameServerGroup → List muxUpdate → Except Error (List muxUpdate)
  | [], muxUpdates => .ok muxUpdates
  | nsGroup :: rest, muxUpdates =>
    if nsGroup.NameServers.length = 0 then
      .error (Error.errorf "received a nameserver group with empty nameserver list")
    else
      let servers := upstreamServers nsGroup.NameServers []
      let handler := Handler.upstreamResolver servers
      if servers.length = 0 then
        buildUpstreamHandlerUpdate.loop rest muxUpdates
      else if nsGroup.Primary then
        buildUpstreamHandlerUpdate.loop rest
          (muxUpdates ++ [{ domain := RootZone, handler := handler }])
      else if nsGroup.Domains.length = 0 then
        .error (Error.errorf
          "received a non primary nameserver group with an empty domain list")
      else
        match buildUpstreamHandlerUpdate.domains handler nsGroup.Domains muxUpdates with
        | .error e => .error e
        | .ok muxUpdates1 => buildUpstreamHandlerUpdate.loop rest muxUpdates1

/-- The method `Server.buildUpstreamHandlerUpdate`. -/
def buildUpstreamHandlerUpdate (nameServerGroups : List NameServerGroup) :
    Except Error (List muxUpdate) :=
  buildUpstreamHandlerUpdate.loop nameServerGroups []

/-- What a step that may panic yields. -/
inductive MayPanic (α : Type) where
  | ok (a : α)
  | panic (msg : String)

/-- The method `Server.registerMux`: `dns.ServeMux.Handle` panics on the empty pattern and
otherwise stores the handler under the pattern, replacing an earlier one. -/
def Server.registerMux (s : Server) (pattern : String) (handler : Handler) :
    MayPanic Server :=
  if pattern = "" then .panic ("dns: invalid pattern " ++ pattern)
  else .ok { s with dnsMux := s.dnsMux.set pattern handler }

/-- The method `Server.deregisterMux`: `dns.ServeMux.HandleRemove` panics on the empty pattern
and otherwise deletes the pattern from the table. -/
def Server.deregisterMux (s : Server) (pattern : String) : MayPanic Server :=
  if pattern = "" then .panic ("dns: invalid pattern " ++ pattern)
  else .ok { s with dnsMux := s.dnsMux.delete pattern }

/-- The first loop of `updateMux`: register every update and note its domain in
`muxUpdateMap`. -/
def updateMux.register :
    List muxUpdate → Server → registrationMap → List Call →
      MayPanic (Server × registrationMap × List Call)
  | [], s, muxUpdateMap, calls => .ok (s, muxUpdateMap, calls)
  | update :: rest, s, muxUpdateMap, calls =>
    match s.registerMux update.domain update.handler with
    | .panic msg => .panic msg
    | .ok s1 =>
      updateMux.register rest s1 (muxUpdateMap.set update.domain ())
        (calls ++ [Call.handle update.domain update.handler])

/-- The second loop of `updateMux`: deregister every tracked key that `muxUpdateMap` lacks. -/
def updateMux.deregister (muxUpdateMap : registrationMap) :
    List String → Server → List Call → MayPanic (Server × List Call)
  | [], s, calls => .ok (s, calls)
  | key :: rest, s, calls =>
    if muxUpdateMap.contains key then updateMux.deregister muxUpdateMap rest s calls
    else
      match s.deregisterMux key with
      | .panic msg => .panic msg
      | .ok s1 => updateMux.deregister muxUpdateMap rest s1 (calls ++ [Call.handleRemove key])

/-- The method `Server.updateMux`. -/
def Server.updateMux (s : Server) (muxUpdates : List muxUpdate) : MayPanic (Server × List Call) :=
  match updateMux.register muxUpdates s [] [] with
  | .panic msg => .panic msg
  | .ok (s1, muxUpdateMap, calls1) =>
    match updateMux.deregister muxUpdateMap s.dnsMuxMap.keys s1 calls1 with
    | .panic msg => .panic msg
    | .ok (s2, calls2) => .ok ({ s2 with dnsMuxMap := muxUpdateMap }, calls2)

/-- Modelled from the spec: the method `localResolver.registerRecord`, declared outside the
sources at hand. The record joins the explicitly registered name-to-record mappings unless
building it fails, in which case the error is returned and nothing is stored. -/
def localResolver.registerRecord (env : Env) (d : localResolver) (record : SimpleRecord) :
    localResolver × Option Error :=
  if env.registerRecordFails record then (d, some (Error.errorf "invalid record"))
  else ({ d with records := d.records.set record.Name record }, none)

/-- Modelled from the spec: the method `localResolver.deleteRecord`, declared outside the
sources at hand. The mapping of the name is removed from the registered set. -/
def localResolver.deleteRecord (d : localResolver) (recordKey : String) : localResolver :=
  { d with records := d.records.delete recordKey }

/-- The first loop of `updateLocalResolver`: delete every tracked key the update lacks. -/
def updateLocalResolver.delete (update : GoMap SimpleRecord) :
    List String → localResolver → List Call → localResolver × List Call
  | [], d, calls => (d, calls)
  | key :: rest, d, calls =>
    if update.contains key then updateLocalResolver.delete update rest d calls
    else updateLocalResolver.delete update rest (d.deleteRecord key)
      (calls ++ [Call.deleteRecord key])

/-- The second loop of `updateLocalResolver`: register every record of the update, an error
being logged only, and note its key in `updatedMap`. -/
def updateLocalResolver.register (env : Env) :
    GoMap SimpleRecord → localResolver → registrationMap → List Call →
      localResolver × registrationMap × List Call
  | [], d, updatedMap, calls => (d, updatedMap, calls)
  | (key, record) :: rest, d, updatedMap, calls =>
    updateLocalResolver.register env rest (d.registerRecord env record).1
      (updatedMap.set key ()) (calls ++ [Call.registerRecord record])

/-- The method `Server.updateLocalResolver`. -/
def Server.updateLocalResolver (env : Env) (s : Server) (update : GoMap SimpleRecord) :
    Server × List Call :=
  let r1 := updateLocalResolver.delete update s.localResolver.registeredMap.keys
    s.localResolver []
  let r2 := updateLocalResolver.register env update r1.1 [] r1.2
  ({ s with localResolver := { r2.1 with registeredMap := r2.2.1 } }, r2.2.2)

/-- How a call of `UpdateDNSServer` ends: it returns, leaving the server in state `s` with
`err` as its result, or it panics. -/
inductive Outcome where
  | returned (s : Server) (err : Option Error) (calls : List Call)
  | panicked (msg : String)
deriving DecidableEq, Repr

/-- The state a call left behind, if it returned. -/
def Outcome.server? : Outcome → Option Server
  | .returned s _ _ => some s
  | .panicked _ => none

/-- Whether the call returned `nil`. -/
def Outcome.isNil : Outcome → Bool
  | .returned _ none _ => true
  | _ => false

/-- Whether the call returned a non-nil error. -/
def Outcome.isErr : Outcome → Bool
  | .returned _ (some _) _ => true
  | _ => false

/-- The calls issued during a call that returned. -/
def Outcome.calls : Outcome → List Call
  | .returned _ _ calls => calls
  | .panicked _ => []

/-- The text of an error, as `%v` prints it. -/
def Error.text : Error → String
  | .contextCanceled => "context canceled"
  | .errorf msg => msg

/-- The listener step of `UpdateDNSServer`: stop it when the service is disabled (an error is
logged only), start it when it is enabled and not running. -/
def Server.applyServiceEnable (env : Env) (s : Server) (serviceEnable : Bool) :
    Server × List Call :=
  if !serviceEnable then
    let r := s.stopListener env
    (r.1, r.2.2)
  else if !s.listenerIsRunning then s.Start env
  else (s, [])

/-- The method `Server.UpdateDNSServer`. -/
def Server.UpdateDNSServer (env : Env) (s : Server) (serial : Nat) (update : Update) :
    Outcome :=
  if s.ctxDone then .returned s (some Error.contextCanceled) []
  else if serial < s.updateSerial then
    .returned s (some (Error.errorf ("not applying dns update, error: network update is " ++
      toString (s.updateSerial - serial) ++ " behind the last applied update"))) []
  else
    let r0 := s.applyServiceEnable env update.ServiceEnable
    match buildLocalHandlerUpdate update.CustomZones with
    | .error err =>
      .returned r0.1 (some (Error.errorf ("not applying dns update, error: " ++ err.text))) r0.2
    | .ok (localMuxUpdates, localRecords) =>
      match buildUpstreamHandlerUpdate update.NameServerGroups with
      | .error err =>
        .returned r0.1 (some (Error.errorf ("not applying dns update, error: " ++ err.text)))
          r0.2
      | .ok upstreamMuxUpdates =>
        let muxUpdates := localMuxUpdates ++ upstreamMuxUpdates
        match r0.1.updateMux muxUpdates with
        | .panic msg => .panicked msg
        | .ok (s1, calls1) =>
          let r2 := s1.updateLocalResolver env localRecords
          .returned { r2.1 with updateSerial := serial } none (r0.2 ++ calls1 ++ r2.2)

/-! ## The peer/network-map reconciler

`client/internal/engine.go` is not among the sources at hand; its tests in
`client/internal/engine_test.go` are. The data carried by a network map follows the
literals of those tests, the reconciler follows section 4.1 of the specification. -/

/-- The message `mgmtProto.SSHConfig`; an empty `SshPubKey` stands for no key. -/
structure SSHConfig where
  SshEnabled : Bool
  SshPubKey : String
deriving DecidableEq, Repr

/-- The message `mgmtProto.RemotePeerConfig`. -/
structure RemotePeerConfig where
  WgPubKey : String
  AllowedIps : List String
  SshConfig : Option SSHConfig
deriving DecidableEq, Repr

/-- The message `mgmtProto.PeerConfig`, the node's own configuration. -/
structure PeerConfig where
  Address : String
  SshConfig : Option SSHConfig
deriving DecidableEq, Repr

/-- The message `mgmtProto.Route`, which `route.Route` mirrors field by field. -/
structure Route where
  ID : String
  Network : String
  NetID : String
  Peer : String
  NetworkType : Nat
  Masquerade : Bool
deriving DecidableEq, Repr

/-- The message `mgmtProto.NetworkMap`; `Routes` is `none` for a nil list. -/
structure NetworkMap where
  Serial : Nat
  PeerConfig : Option PeerConfig
  RemotePeers : List RemotePeerConfig
  RemotePeersIsEmpty : Bool
  Routes : Option (List Route)
deriving DecidableEq, Repr

/-- A peer connection, reduced to the configuration the tests read back:
`conn.GetConf().ProxyConfig.AllowedIps`. -/
structure PeerConn where
  AllowedIps : String
deriving DecidableEq, Repr

/-- A running SSH server with the keys it authorizes, by peer. -/
structure SSHServer where
  authorizedKeys : GoMap String
deriving DecidableEq, Repr

/-- The fields of `Engine` the reconciler maintains. `ctxDone` holds when the lifecycle
context has been cancelled, `sshServer` is `none` when no SSH server runs. -/
structure Engine where
  ctxDone : Bool
  peerConns : GoMap PeerConn
  networkSerial : Nat
  sshServer : Option SSHServer
deriving DecidableEq, Repr

/-- A call issued to a collaborator of the engine. -/
inductive EngineCall where
  | createConn (peerKey : String) (allowedIps : String)
  | updateConfig (peerKey : String) (allowedIps : String)
  | closeConn (peerKey : String)
  | updateRoutes (serial : Nat) (routes : List Route)
  | sshStart (addr : String)
  | sshStop
  | addAuthorizedKey (peer : String) (newKey : String)
  | removeAuthorizedKey (peer : String)
deriving DecidableEq, Repr

/-- The behaviour of the engine's collaborators during one call: for which peer keys the
creation of a connection fails, whether the route manager returns an error, and whether the
SSH server fails to start. -/
structure EngineEnv where
  createFails : String → Bool
  updateRoutesFails : Bool
  sshStartFails : Bool

/-- The engine as `NewEngine` returns it. -/
def NewEngine : Engine :=
  { ctxDone := false, peerConns := [], networkSerial := 0, sshServer := none }

/-- The allowed IPs of a descriptor as a connection stores them:
`strings.Join(p.AllowedIps, ",")`. -/
def RemotePeerConfig.allowedIps (p : RemotePeerConfig) : String :=
  String.intercalate "," p.AllowedIps

/-- The SSH public key a descriptor carries, if any. -/
def RemotePeerConfig.sshPubKey? (p : RemotePeerConfig) : Option String :=
  match p.SshConfig with
  | none => none
  | some c => if c.SshPubKey = "" then none else some c.SshPubKey

/-- Modelled from the spec: the first half of the peer diff of `Engine.updateNetworkMap`
(engine.go is not among the sources). In the order of the snapshot, a key that is absent
locally gets a new connection, unless its creation fails, which is skipped without aborting
the rest; a key that is present with other allowed IPs has its connection updated in
place. -/
def updateNetworkMap.addOrModify (env : EngineEnv) :
    List RemotePeerConfig → GoMap PeerConn → List EngineCall →
      GoMap PeerConn × List EngineCall
  | [], peerConns, calls => (peerConns, calls)
  | p :: rest, peerConns, calls =>
    match peerConns.get? p.WgPubKey with
    | none =>
      if env.createFails p.WgPubKey then
        updateNetworkMap.addOrModify env rest peerConns
          (calls ++ [EngineCall.createConn p.WgPubKey p.allowedIps])
      else
        updateNetworkMap.addOrModify env rest
          (peerConns.set p.WgPubKey { AllowedIps := p.allowedIps })
          (calls ++ [EngineCall.createConn p.WgPubKey p.allowedIps])
    | some conn =>
      if conn.AllowedIps = p.allowedIps then
        updateNetworkMap.addOrModify env rest peerConns calls
      else
        updateNetworkMap.addOrModify env rest
          (peerConns.set p.WgPubKey { AllowedIps := p.allowedIps })
          (calls ++ [EngineCall.updateConfig p.WgPubKey p.allowedIps])

/-- Modelled from the spec: the revocation of one peer's SSH authorization, which is asked of
the SSH server only if one is active. -/
def updateNetworkMap.revoke (key : String) :
    Option SSHServer → Option SSHServer × List EngineCall
  | none => (none, [])
  | some srv =>
    (some { authorizedKeys := srv.authorizedKeys.delete key },
      [EngineCall.removeAuthorizedKey key])

/-- Modelled from the spec: the second half of the peer diff of `Engine.updateNetworkMap`
(engine.go is not among the sources). Every connection whose key the desired set lacks is
torn down and removed, and its SSH authorization is revoked if an SSH server is active. -/
def updateNetworkMap.remove (desired : List String) :
    List String → GoMap PeerConn → Option SSHServer → List EngineCall →
      GoMap PeerConn × Option SSHServer × List EngineCall
  | [], peerConns, sshServer, calls => (peerConns, sshServer, calls)
  | key :: rest, peerConns, sshServer, calls =>
    if key ∈ desired then updateNetworkMap.remove desired rest peerConns sshServer calls
    else
      let r := updateNetworkMap.revoke key sshServer
      updateNetworkMap.remove desired rest (peerConns.delete key) r.1
        (calls ++ [EngineCall.closeConn key] ++ r.2)

/-- Modelled from the spec: the evaluation of the node's own SSH setting in
`Engine.updateNetworkMap` (engine.go is not among the sources). Enabled with no server
running starts one, bound to the node's tunnel address; disabled with a server running stops
it; a server in the desired state is left alone, as it is when the map carries no own
configuration. -/
def updateNetworkMap.updateSSH (env : EngineEnv) (self : Option PeerConfig)
    (sshServer : Option SSHServer) : Option SSHServer × List EngineCall :=
  match self with
  | none => (sshServer, [])
  | some conf =>
    let enabled := match conf.SshConfig with
      | none => false
      | some c => c.SshEnabled
    match enabled, sshServer with
    | true, none =>
      if env.sshStartFails then (none, [EngineCall.sshStart conf.Address])
      else (some { authorizedKeys := [] }, [EngineCall.sshStart conf.Address])
    | true, some srv => (some srv, [])
    | false, some _ => (none, [EngineCall.sshStop])
    | false, none => (none, [])

/-- Modelled from the spec: the authorization of the snapshot's peers in
`Engine.updateNetworkMap` (engine.go is not among the sources). Every remote peer of the
snapshot that carries an SSH public key is authorized; a descriptor without a key causes no
call. -/
def updateNetworkMap.authorize :
    List RemotePeerConfig → SSHServer → List EngineCall → SSHServer × List EngineCall
  | [], srv, calls => (srv, calls)
  | p :: rest, srv, calls =>
    match p.sshPubKey? with
    | none => updateNetworkMap.authorize rest srv calls
    | some key =>
      updateNetworkMap.authorize rest
        { authorizedKeys := srv.authorizedKeys.set p.WgPubKey key }
        (calls ++ [EngineCall.addAuthorizedKey p.WgPubKey key])

/-- Modelled from the spec: the method `Engine.updateNetworkMap` (engine.go is not among the
sources), after section 4.1: a cancelled context gives a shutdown error and touches nothing;
a snapshot whose serial is below the current one changes nothing; otherwise the peer
connections are diffed against `RemotePeers`, the routes are forwarded under the snapshot's
serial (an error of the route manager is logged only), the SSH setting is evaluated and the
serial is advanced. The stale branch returns nil, which is what `TestEngine_UpdateNetworkMap`
demands of its third case (any error there is fatal to the test). -/
def Engine.updateNetworkMap (env : EngineEnv) (e : Engine) (networkMap : NetworkMap) :
    Engine × Option Error × List EngineCall :=
  if e.ctxDone then (e, some Error.contextCanceled, [])
  else if networkMap.Serial < e.networkSerial then (e, none, [])
  else
    let desired := networkMap.RemotePeers.map (fun p => p.WgPubKey)
    let r1 := updateNetworkMap.addOrModify env networkMap.RemotePeers e.peerConns []
    let r2 := updateNetworkMap.remove desired r1.1.keys r1.1 e.sshServer r1.2
    let routes := match networkMap.Routes with
      | none => []
      | some rs => rs
    let calls3 := r2.2.2 ++ [EngineCall.updateRoutes networkMap.Serial routes]
    let r4 := updateNetworkMap.updateSSH env networkMap.PeerConfig r2.2.1
    let r5 : Option SSHServer × List EngineCall := match r4.1 with
      | none => (none, calls3 ++ r4.2)
      | some srv =>
        let a := updateNetworkMap.authorize networkMap.RemotePeers srv (calls3 ++ r4.2)
        (some a.1, a.2)
    ({ e with peerConns := r2.1, networkSerial := networkMap.Serial, sshServer := r5.1 },
      none, r5.2)

/-! ### The engine tests, as checks on a reconciler -/

/-- One `testCase` of `TestEngine_UpdateNetworkMap`. -/
structure testCase where
  name : String
  networkMap : NetworkMap
  expectedLen : Nat
  expectedPeers : List RemotePeerConfig
  expectedSerial : Nat
deriving DecidableEq, Repr

namespace TestEngine_UpdateNetworkMap

/-- The descriptor `peer1` of the test. -/
def peer1 : RemotePeerConfig :=
  { WgPubKey := "RRHf3Ma6z6mdLbriAJbqhX7+nM/B71lgw2+91q3LfhU="
    AllowedIps := ["100.64.0.10/24"], SshConfig := none }

/-- The descriptor `peer2` of the test. -/
def peer2 : RemotePeerConfig :=
  { WgPubKey := "LLHf3Ma6z6mdLbriAJbqhX7+nM/B71lgw2+91q3LfhU="
    AllowedIps := ["100.64.0.11/24"], SshConfig := none }

/-- The descriptor `peer3` of the test. -/
def peer3 : RemotePeerConfig :=
  { WgPubKey := "GGHf3Ma6z6mdLbriAJbqhX7+nM/B71lgw2+91q3LfhU="
    AllowedIps := ["100.64.0.12/24"], SshConfig := none }

/-- The descriptor `modifiedPeer3` of the test. -/
def modifiedPeer3 : RemotePeerConfig :=
  { WgPubKey := "GGHf3Ma6z6mdLbriAJbqhX7+nM/B71lgw2+91q3LfhU="
    AllowedIps := ["100.64.0.20/24"], SshConfig := none }

/-- The case "input with a new peer to add". -/
def case1 : testCase :=
  { name := "input with a new peer to add"
    networkMap := { Serial := 1, PeerConfig := none, RemotePeers := [peer1],
                    RemotePeersIsEmpty := false, Routes := none }
    expectedLen := 1, expectedPeers := [peer1], expectedSerial := 1 }

/-- The case "input with an old peer and a new peer to add". -/
def case2 : testCase :=
  { name := "input with an old peer and a new peer to add"
    networkMap := { Serial := 2, PeerConfig := none, RemotePeers := [peer1, peer2],
                    RemotePeersIsEmpty := false, Routes := none }
    expectedLen := 2, expectedPeers := [peer1, peer2], expectedSerial := 2 }

/-- The case "input with outdated (old) update to ignore". -/
def case3 : testCase :=
  { name := "input with outdated (old) update to ignore"
    networkMap := { Serial := 0, PeerConfig := none, RemotePeers := [peer1, peer2, peer3],
                    RemotePeersIsEmpty := false, Routes := none }
    expectedLen := 2, expectedPeers := [peer1, peer2], expectedSerial := 2 }

/-- The case "input with one peer to remove and one new to add". -/
def case4 : testCase :=
  { name := "input with one peer to remove and one new to add"
    networkMap := { Serial := 4, PeerConfig := none, RemotePeers := [peer2, peer3],
                    RemotePeersIsEmpty := false, Routes := none }
    expectedLen := 2, expectedPeers := [peer2, peer3], expectedSerial := 4 }

/-- The case "input with one peer to modify". -/
def case5 : testCase :=
  { name := "input with one peer to modify"
    networkMap := { Serial := 4, PeerConfig := none, RemotePeers := [modifiedPeer3, peer2],
                    RemotePeersIsEmpty := false, Routes := none }
    expectedLen := 2, expectedPeers := [peer2, modifiedPeer3], expectedSerial := 4 }

/-- The case "input with all peers to remove". -/
def case6 : testCase :=
  { name := "input with all peers to remove"
    networkMap := { Serial := 5, PeerConfig := none, RemotePeers := [],
                    RemotePeersIsEmpty := true, Routes := none }
    expectedLen := 0, expectedPeers := [], expectedSerial := 5 }

/-- The checks the test makes once `updateNetworkMap` has returned `err` and left the engine
in state `e`: a non-nil error is fatal, then the size of `peerConns`, the serial, and the
presence and allowed IPs of every expected peer are compared. -/
def check (c : testCase) (e : Engine) (err : Option Error) : Bool :=
  err.isNone && decide (e.peerConns.length = c.expectedLen) &&
    decide (e.networkSerial = c.expectedSerial) &&
    c.expectedPeers.all (fun p =>
      match e.peerConns.get? p.WgPubKey with
      | none => false
      | some conn => decide (conn.AllowedIps = p.allowedIps))

/-- The loop of the test over its cases, for a reconciler `upd`: the engine is carried from
one case to the next, and the test passes when every case passes its checks. -/
def run (upd : Engine → NetworkMap → Engine × Option Error) : List testCase → Engine → Bool
  | [], _ => true
  | c :: rest, e =>
    let r := upd e c.networkMap
    check c r.1 r.2 && run upd rest r.1

/-- The engine before case `n` (counted from 0) of the test, all collaborators succeeding. -/
def engineBefore (env : EngineEnv) (n : Nat) : Engine :=
  ([case1, case2, case3, case4, case5, case6].take n).foldl
    (fun e c => (e.updateNetworkMap env c.networkMap).1) NewEngine

end TestEngine_UpdateNetworkMap

/-- The collaborators of the engine when none of them fails. -/
def EngineEnv.allSucceed : EngineEnv :=
  { createFails := fun _ => false, updateRoutesFails := false, sshStartFails := false }

/-- The test `TestEngine_UpdateNetworkMap`, run on the reconciler `upd`. -/
def TestEngine_UpdateNetworkMap (upd : Engine → NetworkMap → Engine × Option Error) : Bool :=
  open TestEngine_UpdateNetworkMap in
  run upd [case1, case2, case3, case4, case5, case6] NewEngine

end Wiretrustee

namespace Wiretrustee

/-! ## Notions the properties are stated with -/

/-- A nameserver is usable when its type is the supported one. -/
def NameServer.usable (ns : NameServer) : Bool := decide (ns.NSType = UDPNameServerType)

/-- A group has a usable nameserver when at least one of its nameservers is of UDP type. -/
def NameServerGroup.hasUDP (g : NameServerGroup) : Bool := g.NameServers.any NameServer.usable

/-- The registration set a snapshot implies: the domains of all custom zones, every domain of
every non-primary group with a usable nameserver, and the root pattern if some primary group
has a usable nameserver. -/
def Update.implies (update : Update) (d : String) : Prop :=
  (∃ z ∈ update.CustomZones, z.Domain = d) ∨
  (∃ g ∈ update.NameServerGroups, g.Primary = false ∧ g.hasUDP = true ∧ d ∈ g.Domains) ∨
  (d = RootZone ∧ ∃ g ∈ update.NameServerGroups, g.Primary = true ∧ g.hasUDP = true)

/-- The handler the build step makes for a group: an upstream resolver over the group's
usable nameservers, in their order. -/
def NameServerGroup.handler (g : NameServerGroup) : Handler :=
  Handler.upstreamResolver ((g.NameServers.filter NameServer.usable).map getNSHostPort)

/-- What one group adds to the registrations under construction, or the error it raises. -/
def NameServerGroup.updates (g : NameServerGroup) : Except Error (List muxUpdate) :=
  if g.NameServers = [] then
    .error (Error.errorf "received a nameserver group with empty nameserver list")
  else if g.hasUDP = false then .ok []
  else if g.Primary then .ok [{ domain := RootZone, handler := g.handler }]
  else if g.Domains = [] then
    .error (Error.errorf "received a non primary nameserver group with an empty domain list")
  else if "" ∈ g.Domains then
    .error (Error.errorf "received a nameserver group with an empty domain element")
  else .ok (g.Domains.map (fun d => { domain := d, handler := g.handler }))

/-- The map `muxUpdateMap` that `updateMux` builds from its argument. -/
def targetMap (muxUpdates : List muxUpdate) : registrationMap :=
  muxUpdates.foldl (fun m u => m.set u.domain ()) []

/-- The tracked patterns that `updateMux` deregisters: those the target map lacks. -/
def staleKeys (s : Server) (muxUpdates : List muxUpdate) : List String :=
  (GoMap.keys s.dnsMuxMap).filter (fun k => !(targetMap muxUpdates).contains k)

/-- The tracked record names that `updateLocalResolver` deletes: those the update lacks. -/
def staleRecords (s : Server) (update : GoMap SimpleRecord) : List String :=
  (GoMap.keys s.localResolver.registeredMap).filter (fun k => !update.contains k)

/-- The map `localRecords` that `buildLocalHandlerUpdate` fills from zones that all have
records. -/
def localRecordsOf (zs : List CustomZone) : GoMap SimpleRecord :=
  zs.foldl (fun m z => z.Records.foldl (fun m record => GoMap.set m record.Name record) m) []

/-- The record names occurring in any custom zone of a snapshot. -/
def Update.recordNames (update : Update) : List String :=
  update.CustomZones.flatMap (fun z => z.Records.map (fun r => r.Name))

/-! ## Sample snapshots -/

/-- Collaborators of the DNS server that never fail. -/
def Env.allSucceed : Env :=
  { listenFails := false, shutdownFails := false, registerRecordFails := fun _ => false }

/-- The record of the scenario in section 8 of the specification. -/
def sampleRecord : SimpleRecord :=
  { Name := "db.corp.internal", Type_ := 1, Class := "IN", TTL := 300, RData := "10.0.0.5" }

/-- A second record, in another zone. -/
def sampleRecord2 : SimpleRecord :=
  { Name := "git.lab.internal", Type_ := 1, Class := "IN", TTL := 300, RData := "10.0.1.7" }

/-- A first snapshot: two custom zones and a non-primary group over two domains. -/
def sampleUpdate1 : Update :=
  { ServiceEnable := true
    CustomZones := [{ Domain := "corp.internal", Records := [sampleRecord] },
                    { Domain := "lab.internal", Records := [sampleRecord2] }]
    NameServerGroups :=
      [{ NameServers := [{ IP := "1.1.1.1", NSType := 1, Port := 53 }], Primary := false,
         Domains := ["a.example", "b.example"] }] }

/-- A second snapshot: one custom zone, a primary group, a non-primary group over one domain
and a group without a usable nameserver (type 2 is not UDP). -/
def sampleUpdate2 : Update :=
  { ServiceEnable := true
    CustomZones := [{ Domain := "corp.internal", Records := [sampleRecord] }]
    NameServerGroups :=
      [{ NameServers := [{ IP := "8.8.8.8", NSType := 1, Port := 53 }], Primary := true,
         Domains := ["ignored.example"] },
       { NameServers := [{ IP := "9.9.9.9", NSType := 2, Port := 53 }], Primary := false,
         Domains := ["dropped.example"] },
       { NameServers := [{ IP := "1.1.1.1", NSType := 2, Port := 53 },
                         { IP := "1.0.0.1", NSType := 1, Port := 5353 }], Primary := false,
         Domains := ["a.example"] }] }

/-- The server after `sampleUpdate1` has been applied to a new server under serial 1. -/
def sampleServer1 : Server :=
  { ctxDone := false
    dnsMux := [("corp.internal", Handler.localResolver), ("lab.internal", Handler.localResolver),
               ("a.example", Handler.upstreamResolver ["1.1.1.1:53"]),
               ("b.example", Handler.upstreamResolver ["1.1.1.1:53"])]
    dnsMuxMap := [("corp.internal", ()), ("lab.internal", ()), ("a.example", ()),
                  ("b.example", ())]
    localResolver :=
      { registeredMap := [("db.corp.internal", ()), ("git.lab.internal", ())]
        records := [("db.corp.internal", sampleRecord), ("git.lab.internal", sampleRecord2)] }
    updateSerial := 1
    listenerIsRunning := true }

/-- The server after `sampleUpdate2` has then been applied under serial 2. -/
def sampleServer2 : Server :=
  { ctxDone := false
    dnsMux := [("corp.internal", Handler.localResolver),
               ("a.example", Handler.upstreamResolver ["1.0.0.1:5353"]),
               (".", Handler.upstreamResolver ["8.8.8.8:53"])]
    dnsMuxMap := [("corp.internal", ()), (".", ()), ("a.example", ())]
    localResolver :=
      { registeredMap := [("db.corp.internal", ())]
        records := [("db.corp.internal", sampleRecord)] }
    updateSerial := 2
    listenerIsRunning := true }

/-- A malformed snapshot: its second custom zone has no records. -/
def malformedUpdate : Update :=
  { ServiceEnable := true
    CustomZones := [{ Domain := "corp.internal", Records := [sampleRecord] },
                    { Domain := "empty.internal", Records := [] }]
    NameServerGroups := [] }

/-- A snapshot whose one custom zone has records but the empty string as its domain. -/
def emptyDomainUpdate : Update :=
  { ServiceEnable := true
    CustomZones := [{ Domain := "", Records := [sampleRecord] }]
    NameServerGroups := [] }

/-- A group with an empty nameserver list. -/
def emptyListGroup : NameServerGroup :=
  { NameServers := [], Primary := false, Domains := ["x.example"] }

/-- A group whose nameservers are all of a type other than UDP. -/
def noUDPGroup : NameServerGroup :=
  { NameServers := [{ IP := "9.9.9.9", NSType := 2, Port := 53 }], Primary := false,
    Domains := ["dropped.example"] }

/-- Collaborators of the engine among which the creation of the connection to one peer
fails and nothing else does. -/
def EngineEnv.createFailsFor (peerKey : String) : EngineEnv :=
  { createFails := fun k => decide (k = peerKey), updateRoutesFails := false,
    sshStartFails := false }

/-- The calls issued while `sampleUpdate2` is applied to `sampleServer1`. -/
def sampleCalls2 : List Call :=
  [Call.handle "corp.internal" Handler.localResolver,
   Call.handle "." (Handler.upstreamResolver ["8.8.8.8:53"]),
   Call.handle "a.example" (Handler.upstreamResolver ["1.0.0.1:5353"]),
   Call.handleRemove "lab.internal", Call.handleRemove "b.example",
   Call.deleteRecord "git.lab.internal", Call.registerRecord sampleRecord]

end Wiretrustee

namespace Wiretrustee

/-! ## Further notions: the writer that wins -/

/-- The last element of a list that `f` sends to the key `k`: in a loop that assigns
`m[f a] = ...` for every `a` of the list in order, the assignment that stays. -/
def lastWith {α : Type} (f : α → String) : List α → String → Option α
  | [], _ => none
  | a :: rest, k =>
    match lastWith f rest k with
    | some b => some b
    | none => if f a = k then some a else none

/-- All records of a list of custom zones, zone after zone and in the order within a zone. -/
def allRecords (zs : List CustomZone) : List SimpleRecord := zs.flatMap (fun z => z.Records)

/-- A pattern is claimed by a nameserver group of the update when it is a domain of a
non-primary group with a usable nameserver, or the root pattern while some primary group has
a usable nameserver. -/
def Update.upstreamClaims (update : Update) (d : String) : Prop :=
  (∃ g ∈ update.NameServerGroups, g.Primary = false ∧ g.hasUDP = true ∧ d ∈ g.Domains) ∨
  (d = RootZone ∧ ∃ g ∈ update.NameServerGroups, g.Primary = true ∧ g.hasUDP = true)

/-- A sequence of `UpdateDNSServer` calls, each with the behaviour of the collaborators during
it, run from a state; `none` if one of them panics. -/
def Server.updates : Server → List (Env × Nat × Update) → Option Server
  | s, [] => some s
  | s, (env, serial, update) :: rest =>
    match (s.UpdateDNSServer env serial update).server? with
    | none => none
    | some s' => s'.updates rest

/-! ## Further sample snapshots -/

/-- Collaborators of the DNS server among which the registration of every record fails and
nothing else does. -/
def Env.noRecordRegisters : Env :=
  { listenFails := false, shutdownFails := false, registerRecordFails := fun _ => true }

/-- Two zones that carry a record of the same name, the second zone last. -/
def duplicateNameZones : List CustomZone :=
  [{ Domain := "corp.internal",
     Records := [sampleRecord, { sampleRecord with RData := "10.0.0.6" }] },
   { Domain := "lab.internal",
     Records := [sampleRecord2, { sampleRecord with RData := "10.0.0.7" }] }]

/-- A snapshot in which the domain of the first custom zone is also a domain of a non-primary
group, and the domain of the second is the root pattern a primary group claims. -/
def shadowedZoneUpdate : Update :=
  { ServiceEnable := true
    CustomZones := [{ Domain := "corp.internal", Records := [sampleRecord] },
                    { Domain := ".", Records := [sampleRecord2] }]
    NameServerGroups :=
      [{ NameServers := [{ IP := "1.1.1.1", NSType := 1, Port := 53 }], Primary := false,
         Domains := ["corp.internal"] },
       { NameServers := [{ IP := "8.8.8.8", NSType := 1, Port := 53 }], Primary := true,
         Domains := [] }] }

/-- A non-primary group with an empty domain list whose nameservers are all of a type other
than UDP. -/
def noUDPNoDomainsGroup : NameServerGroup :=
  { NameServers := [{ IP := "9.9.9.9", NSType := 2, Port := 53 }], Primary := false,
    Domains := [] }

/-- A snapshot whose one nameserver group is `noUDPNoDomainsGroup`. -/
def noUDPNoDomainsUpdate : Update :=
  { ServiceEnable := true, CustomZones := [], NameServerGroups := [noUDPNoDomainsGroup] }

/-- A primary group with a UDP nameserver and the empty string among its domains. -/
def primaryEmptyDomainGroup : NameServerGroup :=
  { NameServers := [{ IP := "8.8.8.8", NSType := 1, Port := 53 }], Primary := true,
    Domains := ["", "ignored.example"] }

/-- A snapshot whose one nameserver group is `primaryEmptyDomainGroup`. -/
def primaryEmptyDomainUpdate : Update :=
  { ServiceEnable := true, CustomZones := [], NameServerGroups := [primaryEmptyDomainGroup] }

/-- A non-primary group with a UDP nameserver and an empty domain list. -/
def udpNoDomainsGroup : NameServerGroup :=
  { NameServers := [{ IP := "1.1.1.1", NSType := 1, Port := 53 }], Primary := false,
    Domains := [] }

/-- A non-primary group with a UDP nameserver and the empty string among its domains. -/
def udpEmptyDomainGroup : NameServerGroup :=
  { NameServers := [{ IP := "1.1.1.1", NSType := 1, Port := 53 }], Primary := false,
    Domains := ["a.example", ""] }

end Wiretrustee

namespace Wiretrustee

/-! ## Reachable states of the DNS server -/

/-- The states of a server that `NewServer` and any number of `UpdateDNSServer` calls that
return, with or without an error, lead to. -/
inductive Reachable : Server → Prop where
  | init : Reachable NewServer
  | step {s s' : Server} {env : Env} {serial : Nat} {update : Update} {err : Option Error}
      {calls : List Call} :
      Reachable s → s.UpdateDNSServer env serial update = .returned s' err calls →
      Reachable s'

/-! ## The management command (`management/cmd/management.go`) -/

/-- The function `strings.HasPrefix`, on the characters of the two strings. -/
def HasPrefix (s pre : String) : Bool := pre.data.isPrefixOf s.data

/-- What `handlerFunc` reads of a request: the major protocol version and the value
`request.Header.Get("Content-Type")`, empty when the header is absent. -/
structure HttpRequest where
  ProtoMajor : Int
  ContentType : String
deriving DecidableEq, Repr

/-- The handler whose `ServeHTTP` a request is passed to. -/
inductive Served where
  | gRPCHandler
  | httpHandler
deriving DecidableEq, Repr

/-- The function `handlerFunc`, as the choice of the handler that serves the request. -/
def handlerFunc (request : HttpRequest) : Served :=
  let grpcHeader := HasPrefix request.ContentType "application/grpc" ||
    HasPrefix request.ContentType "application/grpc+proto"
  if request.ProtoMajor = 2 && grpcHeader then Served.gRPCHandler else Served.httpHandler

/-- The struct `server.ProviderConfig`, with the fields `loadMgmtConfig` writes. -/
structure ProviderConfig where
  TokenEndpoint : String
  DeviceAuthEndpoint : String
  Domain : String
deriving DecidableEq, Repr

/-- The struct `server.DeviceAuthorizationFlow`. -/
structure DeviceAuthorizationFlow where
  Provider : String
  ProviderConfig : ProviderConfig
deriving DecidableEq, Repr

/-- The struct `server.HttpServerConfig`, with the fields the command reads or writes. -/
structure HttpServerConfig where
  LetsEncryptDomain : String
  CertFile : String
  CertKey : String
  AuthIssuer : String
  AuthKeysLocation : String
  OIDCConfigEndpoint : String
deriving DecidableEq, Repr

/-- The struct `server.Config`, with the fields the command reads or writes. -/
structure Config where
  Datadir : String
  HttpConfig : HttpServerConfig
  DeviceAuthorizationFlow : Option DeviceAuthorizationFlow
deriving DecidableEq, Repr

/-- The struct `OIDCConfigResponse`. -/
structure OIDCConfigResponse where
  Issuer : String
  TokenEndpoint : String
  DeviceAuthEndpoint : String
  JwksURI : String
deriving DecidableEq, Repr

/-- The package variables the flags of the command are bound to, and whether the user set
the port flag (`cmd.Flag("port").Changed`). -/
structure Flags where
  mgmtPort : Int
  mgmtLetsencryptDomain : String
  mgmtDataDir : String
  certFile : String
  certKey : String
  userPort : Bool
deriving DecidableEq, Repr

/-- What the command finds outside itself: the configuration `util.ReadJson` reads at a path,
the answer of `fetchOIDCConfig` for an endpoint, the host `url.Parse` finds in it, and whether
the certificate manager or the TLS credentials fail to load. -/
structure MgmtEnv where
  ReadJson : String → Except Error Config
  fetchOIDCConfig : String → Except Error OIDCConfigResponse
  urlHost : String → Except Error String
  createCertManagerFails : Bool
  loadTLSConfigFails : Bool

/-- Modelled from the spec: the constant `server.NONE`, the provider name that stands for no
device authorization flow; package `server` is not among the sources. -/
def NONE : String := "none"

/-- The function `loadMgmtConfig`. -/
def loadMgmtConfig (env : MgmtEnv) (flags : Flags) (mgmtConfigPath : String) :
    Except Error Config :=
  match env.ReadJson mgmtConfigPath with
  | .error err => .error err
  | .ok config0 =>
    let config1 : Config :=
      if flags.mgmtLetsencryptDomain ≠ "" then
        { config0 with HttpConfig :=
            { config0.HttpConfig with LetsEncryptDomain := flags.mgmtLetsencryptDomain } }
      else config0
    let config2 : Config :=
      if flags.mgmtDataDir ≠ "" then { config1 with Datadir := flags.mgmtDataDir }
      else config1
    let config3 : Config :=
      if flags.certKey ≠ "" ∧ flags.certFile ≠ "" then
        { config2 with HttpConfig :=
            { config2.HttpConfig with CertFile := flags.certFile, CertKey := flags.certKey } }
      else config2
    let oidcEndpoint := config3.HttpConfig.OIDCConfigEndpoint
    if oidcEndpoint ≠ "" then
      match env.fetchOIDCConfig oidcEndpoint with
      | .error err => .error err
      | .ok oidcConfig =>
        let config4 : Config :=
          { config3 with HttpConfig :=
              { config3.HttpConfig with
                AuthIssuer := oidcConfig.Issuer, AuthKeysLocation := oidcConfig.JwksURI } }
        match config4.DeviceAuthorizationFlow with
        | none => .ok config4
        | some flow =>
          if flow.Provider.toLower = NONE then .ok config4
          else
            match env.urlHost oidcEndpoint with
            | .error err => .error err
            | .ok host =>
              let flow1 : DeviceAuthorizationFlow :=
                { flow with ProviderConfig :=
                    { TokenEndpoint := oidcConfig.TokenEndpoint,
                      DeviceAuthEndpoint := oidcConfig.DeviceAuthEndpoint,
                      Domain := host } }
              .ok { config4 with DeviceAuthorizationFlow := some flow1 }
    else .ok config3

/-- What `PreRunE` leaves behind when it returns nil: the package variables `config` and
`mgmtPort`, and its local `tlsEnabled`. -/
structure PreRun where
  config : Config
  mgmtPort : Int
  tlsEnabled : Bool
deriving DecidableEq, Repr

/-- The function `PreRunE` of `mgmtCmd`. -/
def PreRunE (env : MgmtEnv) (flags : Flags) (mgmtConfig : String) : Except Error PreRun :=
  match loadMgmtConfig env flags mgmtConfig with
  | .error err =>
    .error (Error.errorf ("failed reading provided config file: " ++ mgmtConfig ++ ": " ++
      err.text))
  | .ok config =>
    let tlsEnabled : Bool :=
      if flags.mgmtLetsencryptDomain ≠ "" ∨
          (config.HttpConfig.CertFile ≠ "" ∧ config.HttpConfig.CertKey ≠ "") then true
      else false
    let mgmtPort : Int :=
      if !flags.userPort then (if tlsEnabled then 443 else 80) else flags.mgmtPort
    .ok { config := config, mgmtPort := mgmtPort, tlsEnabled := tlsEnabled }

/-- Where the transport credentials of `RunE` come from. -/
inductive Credentials where
  | none
  | certManager (domain : String)
  | tlsConfig (certFile certKey : String)
deriving DecidableEq, Repr

/-- The TLS decision of `RunE` of `mgmtCmd` (lines 146 to 167): the credentials it sets up
from the loaded configuration and its local `tlsEnabled`, or the error it returns. -/
def RunE.tls (env : MgmtEnv) (config : Config) : Except Error (Credentials × Bool) :=
  if config.HttpConfig.LetsEncryptDomain ≠ "" then
    if env.createCertManagerFails then
      .error (Error.errorf "failed creating LetsEncrypt cert manager")
    else .ok (Credentials.certManager config.HttpConfig.LetsEncryptDomain, true)
  else if config.HttpConfig.CertFile ≠ "" ∧ config.HttpConfig.CertKey ≠ "" then
    if env.loadTLSConfigFails then .error (Error.errorf "cannot load TLS credentials")
    else .ok (Credentials.tlsConfig config.HttpConfig.CertFile config.HttpConfig.CertKey, true)
  else .ok (Credentials.none, false)

/-- A configuration file that sets nothing. -/
def emptyConfig : Config :=
  { Datadir := ""
    HttpConfig := { LetsEncryptDomain := "", CertFile := "", CertKey := "", AuthIssuer := "",
                    AuthKeysLocation := "", OIDCConfigEndpoint := "" }
    DeviceAuthorizationFlow := none }

/-- A configuration file that names a Let's Encrypt domain and nothing else. -/
def letsEncryptFileConfig : Config :=
  { emptyConfig with HttpConfig :=
      { emptyConfig.HttpConfig with LetsEncryptDomain := "mgmt.example.com" } }

/-- The flags of a command started without any of them. -/
def noFlags : Flags :=
  { mgmtPort := 80, mgmtLetsencryptDomain := "", mgmtDataDir := "", certFile := "",
    certKey := "", userPort := false }

/-- An environment in which the configuration file holds `file` and nothing fails. -/
def MgmtEnv.withFile (file : Config) : MgmtEnv :=
  { ReadJson := fun _ => .ok file
    fetchOIDCConfig := fun _ =>
      .ok { Issuer := "", TokenEndpoint := "", DeviceAuthEndpoint := "", JwksURI := "" }
    urlHost := fun _ => .ok ""
    createCertManagerFails := false
    loadTLSConfigFails := false }

/-! ## The name server group patch handler (management/server/http/nameservers.go) -/

/-- Modelled from the spec: the constant `api.NameserverGroupPatchOperationOpReplace` of the
generated api package, the one patch operation the handler accepts. -/
def NameserverGroupPatchOperationOpReplace : String := "replace"

/-- Modelled from the spec: the constant `api.NameserverGroupPatchOperationPathName`. -/
def NameserverGroupPatchOperationPathName : String := "name"

/-- Modelled from the spec: the constant `api.NameserverGroupPatchOperationPathDescription`. -/
def NameserverGroupPatchOperationPathDescription : String := "description"

/-- Modelled from the spec: the constant `api.NameserverGroupPatchOperationPathNameservers`. -/
def NameserverGroupPatchOperationPathNameservers : String := "nameservers"

/-- Modelled from the spec: the constant `api.NameserverGroupPatchOperationPathGroups`. -/
def NameserverGroupPatchOperationPathGroups : String := "groups"

/-- Modelled from the spec: the constant `api.NameserverGroupPatchOperationPathEnabled`. -/
def NameserverGroupPatchOperationPathEnabled : String := "enabled"

/-- One element of the request body: `api.NameserverGroupPatchOperation`, with the fields the
handler reads. -/
structure NameserverGroupPatchOperation where
  Op : String
  Path : String
  Value : List String
deriving DecidableEq, Repr

/-- The operation types `server.UpdateNameServerGroupName` ... the handler chooses from. -/
inductive NameServerGroupUpdateOperationType where
  | UpdateNameServerGroupName
  | UpdateNameServerGroupDescription
  | UpdateNameServerGroupNameServers
  | UpdateNameServerGroupGroups
  | UpdateNameServerGroupEnabled
deriving DecidableEq, Repr

/-- The struct `server.NameServerGroupUpdateOperation`. -/
structure NameServerGroupUpdateOperation where
  Type_ : NameServerGroupUpdateOperationType
  Values : List String
deriving DecidableEq, Repr

/-- What the handler reads from the request: the outcome of `getJWTAccount` (the account's
`Id`), the route variable `id`, and the outcome of decoding the body. -/
structure PatchRequest where
  account : Except Error String
  id : String
  body : Except Error (List NameserverGroupPatchOperation)

/-- What the handler writes to the response writer. -/
inductive HttpResponse where
  | redirect (url : String) (code : Nat)
  | error (msg : String) (code : Nat)
  | toHTTPError (err : Error)
  | writeJSONObject (group : NameServerGroup)

/-- A call issued to the account manager. -/
inductive AccountCall where
  | UpdateNameServerGroup (accountID nsGroupID : String)
      (operations : List NameServerGroupUpdateOperation)
deriving DecidableEq, Repr

/-- The account manager the handler talks to: the result `UpdateNameServerGroup` gives. -/
structure AccountManager where
  UpdateNameServerGroup : String → String → List NameServerGroupUpdateOperation →
    Except Error NameServerGroup

/-- The constant `http.StatusBadRequest`. -/
def StatusBadRequest : Nat := 400

/-- The constant `http.StatusInternalServerError`. -/
def StatusInternalServerError : Nat := 500

/-- The loop of `PatchNameserverGroupHandler` over the patches of the request: it appends one
operation per patch, and leaves with the written error response at the first patch whose
operation is not replace or whose path is none of the five. -/
def PatchNameserverGroupHandler.loop :
    List NameserverGroupPatchOperation → List NameServerGroupUpdateOperation →
      Except HttpResponse (List NameServerGroupUpdateOperation)
  | [], operations => .ok operations
  | patch :: rest, operations =>
    if patch.Op ≠ NameserverGroupPatchOperationOpReplace then
      .error (HttpResponse.error
        ("nameserver groups only accepts replace operations, got " ++ patch.Op)
        StatusBadRequest)
    else if patch.Path = NameserverGroupPatchOperationPathName then
      PatchNameserverGroupHandler.loop rest (operations ++
        [{ Type_ := .UpdateNameServerGroupName, Values := patch.Value }])
    else if patch.Path = NameserverGroupPatchOperationPathDescription then
      PatchNameserverGroupHandler.loop rest (operations ++
        [{ Type_ := .UpdateNameServerGroupDescription, Values := patch.Value }])
    else if patch.Path = NameserverGroupPatchOperationPathNameservers then
      PatchNameserverGroupHandler.loop rest (operations ++
        [{ Type_ := .UpdateNameServerGroupNameServers, Values := patch.Value }])
    else if patch.Path = NameserverGroupPatchOperationPathGroups then
      PatchNameserverGroupHandler.loop rest (operations ++
        [{ Type_ := .UpdateNameServerGroupGroups, Values := patch.Value }])
    else if patch.Path = NameserverGroupPatchOperationPathEnabled then
      PatchNameserverGroupHandler.loop rest (operations ++
        [{ Type_ := .UpdateNameServerGroupEnabled, Values := patch.Value }])
    else .error (HttpResponse.error "invalid patch path" StatusBadRequest)

/-- The method `Nameservers.PatchNameserverGroupHandler`: the response it writes and the calls
it issues to the account manager. -/
def PatchNameserverGroupHandler (accountManager : AccountManager) (r : PatchRequest) :
    HttpResponse × List AccountCall :=
  match r.account with
  | .error _ => (HttpResponse.redirect "/" StatusInternalServerError, [])
  | .ok accountId =>
    let nsGroupID := r.id
    if nsGroupID.length = 0 then
      (HttpResponse.error "invalid nameserver group ID" StatusBadRequest, [])
    else
      match r.body with
      | .error err => (HttpResponse.error err.text StatusBadRequest, [])
      | .ok req =>
        match PatchNameserverGroupHandler.loop req [] with
        | .error resp => (resp, [])
        | .ok operations =>
          let calls := [AccountCall.UpdateNameServerGroup accountId nsGroupID operations]
          match accountManager.UpdateNameServerGroup accountId nsGroupID operations with
          | .error err => (HttpResponse.toHTTPError err, calls)
          | .ok updatedNSGroup => (HttpResponse.writeJSONObject updatedNSGroup, calls)

/-- The operation type that corresponds to a patch path, if the path is one of the five. -/
def pathType (path : String) : Option NameServerGroupUpdateOperationType :=
  if path = "name" then some .UpdateNameServerGroupName
  else if path = "description" then some .UpdateNameServerGroupDescription
  else if path = "nameservers" then some .UpdateNameServerGroupNameServers
  else if path = "groups" then some .UpdateNameServerGroupGroups
  else if path = "enabled" then some .UpdateNameServerGroupEnabled
  else none

/-- A valid patch: its op is replace and its path is one of name, description, nameservers,
groups, enabled. -/
def NameserverGroupPatchOperation.valid (p : NameserverGroupPatchOperation) : Prop :=
  p.Op = "replace" ∧
    (p.Path = "name" ∨ p.Path = "description" ∨ p.Path = "nameservers" ∨ p.Path = "groups" ∨
      p.Path = "enabled")

/-- Validity of a patch is decidable. -/
instance NameserverGroupPatchOperation.decidableValid (p : NameserverGroupPatchOperation) :
    Decidable p.valid := by
  unfold NameserverGroupPatchOperation.valid; infer_instance

/-- An account manager that accepts every update and returns an empty group. -/
def AccountManager.accepting : AccountManager :=
  { UpdateNameServerGroup := fun _ _ _ => .ok { NameServers := [], Primary := false, Domains := [] } }

/-- A request body of three valid patches. -/
def samplePatches : List NameserverGroupPatchOperation :=
  [ { Op := "replace", Path := "name", Value := ["office"] },
    { Op := "replace", Path := "nameservers", Value := ["udp://1.1.1.1:53", "udp://8.8.8.8:53"] },
    { Op := "replace", Path := "enabled", Value := ["true"] } ]

/-- A request body whose second patch is not a replace, after a valid first one. -/
def samplePatchesBadOp : List NameserverGroupPatchOperation :=
  [ { Op := "replace", Path := "name", Value := ["office"] },
    { Op := "add", Path := "groups", Value := ["g1"] } ]

/-! ## Routes and SSH in the network-map reconciler -/

/-- Whether a call is the route manager's `UpdateRoutes`. -/
def EngineCall.isUpdateRoutes : EngineCall → Bool
  | .updateRoutes _ _ => true
  | _ => false

/-- Whether a call starts or stops the SSH server. -/
def EngineCall.isSSHLifecycle : EngineCall → Bool
  | .sshStart _ => true
  | .sshStop => true
  | _ => false

/-- Whether a call is the SSH server's `AddAuthorizedKey`. -/
def EngineCall.isAddAuthorizedKey : EngineCall → Bool
  | .addAuthorizedKey _ _ => true
  | _ => false

/-- Whether a call creates or reconfigures a peer connection. -/
def EngineCall.isConn : EngineCall → Bool
  | .createConn _ _ => true
  | .updateConfig _ _ => true
  | _ => false

/-- The node's own SSH setting: the `SshEnabled` flag of its configuration, false when the
configuration carries no SSH part. -/
def PeerConfig.sshEnabled (conf : PeerConfig) : Bool :=
  match conf.SshConfig with
  | none => false
  | some c => c.SshEnabled

/-- Whether an SSH server runs after the SSH setting of a map has been evaluated, given
whether one ran before. -/
def sshRunningAfter (env : EngineEnv) (self : Option PeerConfig) (running : Bool) : Bool :=
  match self with
  | none => running
  | some conf => if conf.sshEnabled then running || !env.sshStartFails else false

/-- The start and stop calls the SSH setting of a map gives rise to, given whether a server
ran before: a start when SSH is enabled and none ran, a stop when SSH is disabled and one
ran, nothing otherwise. -/
def sshLifecycleCalls (self : Option PeerConfig) (running : Bool) : List EngineCall :=
  match self with
  | none => []
  | some conf =>
    if conf.sshEnabled then (if running then [] else [EngineCall.sshStart conf.Address])
    else (if running then [EngineCall.sshStop] else [])

/-- The authorization calls a list of peer descriptors gives rise to: one per descriptor that
carries an SSH public key, in order. -/
def authorizeCalls (peers : List RemotePeerConfig) : List EngineCall :=
  peers.filterMap (fun p => p.sshPubKey?.map (fun key => EngineCall.addAuthorizedKey p.WgPubKey key))

/-- The calls the removal of connections gives rise to: for every key the desired set lacks,
the connection is closed and, when an SSH server is active, the key's authorization is
revoked. -/
def removeCalls (desired : List String) (active : Bool) : List String → List EngineCall
  | [] => []
  | key :: rest =>
    if key ∈ desired then removeCalls desired active rest
    else
      (EngineCall.closeConn key ::
        (if active then [EngineCall.removeAuthorizedKey key] else [])) ++
        removeCalls desired active rest

/-- One case of `TestEngine_UpdateNetworkMapWithRoutes`; `inputErr` is the error the mocked
route manager returns. -/
structure routesTestCase where
  name : String
  inputErr : Option Error
  networkMap : NetworkMap
  expectedLen : Nat
  expectedRoutes : List Route
  expectedSerial : Nat
deriving DecidableEq, Repr

namespace TestEngine_UpdateNetworkMapWithRoutes

/-- The route "a" of the test. -/
def routeA : Route :=
  { ID := "a", Network := "192.168.0.0/24", NetID := "n1", Peer := "p1", NetworkType := 1,
    Masquerade := false }

/-- The route "b" of the test. -/
def routeB : Route :=
  { ID := "b", Network := "192.168.1.0/24", NetID := "n2", Peer := "p1", NetworkType := 1,
    Masquerade := false }

/-- The case "Routes Update Should Be Passed To Manager". -/
def case1 : routesTestCase :=
  { name := "Routes Update Should Be Passed To Manager", inputErr := none
    networkMap := { Serial := 1, PeerConfig := none, RemotePeers := [],
                    RemotePeersIsEmpty := false, Routes := some [routeA, routeB] }
    expectedLen := 2, expectedRoutes := [routeA, routeB], expectedSerial := 1 }

/-- The case "Empty Routes Update Should Be Passed". -/
def case2 : routesTestCase :=
  { name := "Empty Routes Update Should Be Passed", inputErr := none
    networkMap := { Serial := 1, PeerConfig := none, RemotePeers := [],
                    RemotePeersIsEmpty := false, Routes := none }
    expectedLen := 0, expectedRoutes := [], expectedSerial := 1 }

/-- The case "Error Shouldn't Break Engine". -/
def case3 : routesTestCase :=
  { name := "Error Shouldn't Break Engine", inputErr := some (Error.errorf "mocking error")
    networkMap := { Serial := 1, PeerConfig := none, RemotePeers := [],
                    RemotePeersIsEmpty := false, Routes := none }
    expectedLen := 0, expectedRoutes := [], expectedSerial := 1 }

/-- The collaborators of a case: the mocked route manager returns the case's `inputErr`,
nothing else fails. -/
def env (c : routesTestCase) : EngineEnv :=
  { createFails := fun _ => false, updateRoutesFails := c.inputErr.isSome,
    sshStartFails := false }

/-- What the mocked route manager has recorded in `input` after a trace of calls: the serial
and routes of the last `UpdateRoutes`, zero values if there was none. -/
def input : List EngineCall → Nat × List Route
  | [] => (0, [])
  | .updateRoutes serial routes :: rest =>
    if rest.any EngineCall.isUpdateRoutes then input rest else (serial, routes)
  | _ :: rest => input rest

/-- The checks of one case on a reconciler `upd`, which starts from a new engine: no error,
and the serial and the routes the route manager received are the expected ones. -/
def check (upd : EngineEnv → Engine → NetworkMap → Engine × Option Error × List EngineCall)
    (c : routesTestCase) : Bool :=
  let r := upd (env c) NewEngine c.networkMap
  r.2.1.isNone && decide ((input r.2.2).1 = c.expectedSerial) &&
    decide ((input r.2.2).2.length = c.expectedLen) &&
    decide ((input r.2.2).2 = c.expectedRoutes)

end TestEngine_UpdateNetworkMapWithRoutes

/-- The test `TestEngine_UpdateNetworkMapWithRoutes`, run on the reconciler `upd`. -/
def TestEngine_UpdateNetworkMapWithRoutes
    (upd : EngineEnv → Engine → NetworkMap → Engine × Option Error × List EngineCall) : Bool :=
  open TestEngine_UpdateNetworkMapWithRoutes in
  [case1, case2, case3].all (check upd)

namespace TestEngine_SSH

/-- The descriptor `peerWithSSH` of the test. -/
def peerWithSSH : RemotePeerConfig :=
  { WgPubKey := "MNHf3Ma6z6mdLbriAJbqhX7+nM/B71lgw2+91q3LfhU="
    AllowedIps := ["100.64.0.21/24"]
    SshConfig := some
      { SshEnabled := false
        SshPubKey :=
          "ssh-ed25519 AAAAC3NzaC1lZDI1NTE5AAAAIFATYCqaQw/9id1Qkq3n16JYhDhXraI6Pc1fgB8ynEfQ" } }

/-- The first map of the test: serial 6, no own configuration, `peerWithSSH`. -/
def networkMap6 : NetworkMap :=
  { Serial := 6, PeerConfig := none, RemotePeers := [peerWithSSH],
    RemotePeersIsEmpty := false, Routes := none }

/-- The second map of the test: serial 7, SSH enabled, `peerWithSSH`. -/
def networkMap7 : NetworkMap :=
  { Serial := 7
    PeerConfig := some { Address := "100.64.0.1/24",
                         SshConfig := some { SshEnabled := true, SshPubKey := "" } }
    RemotePeers := [peerWithSSH], RemotePeersIsEmpty := false, Routes := none }

/-- The third map of the test: serial 8, no own configuration, no peers. -/
def networkMap8 : NetworkMap :=
  { Serial := 8, PeerConfig := none, RemotePeers := [], RemotePeersIsEmpty := false,
    Routes := none }

/-- The fourth map of the test: serial 9, SSH disabled, `peerWithSSH`. -/
def networkMap9 : NetworkMap :=
  { Serial := 9
    PeerConfig := some { Address := "100.64.0.1/24",
                         SshConfig := some { SshEnabled := false, SshPubKey := "" } }
    RemotePeers := [peerWithSSH], RemotePeersIsEmpty := false, Routes := none }

/-- The slice `sshKeysAdded` of the test after a trace of calls. -/
def sshKeysAdded (calls : List EngineCall) : List String :=
  calls.filterMap (fun c => match c with
    | .addAuthorizedKey _ newKey => some newKey
    | _ => none)

/-- The slice `sshPeersRemoved` of the test after a trace of calls. -/
def sshPeersRemoved (calls : List EngineCall) : List String :=
  calls.filterMap (fun c => match c with
    | .removeAuthorizedKey peer => some peer
    | _ => none)

/-- The engine after the first `n` maps of the test, all collaborators succeeding. -/
def engineAfter (n : Nat) : Engine :=
  ([networkMap6, networkMap7, networkMap8, networkMap9].take n).foldl
    (fun e m => (e.updateNetworkMap EngineEnv.allSucceed m).1) NewEngine

end TestEngine_SSH

/-- The test `TestEngine_SSH`, run on the reconciler `upd`: after each map a non-nil error
is fatal; the server is nil after the first map, non-nil after the second with the peer's key
among the keys added, non-nil after the third with the peer among the peers removed, and nil
after the fourth. -/
def TestEngine_SSH (upd : Engine → NetworkMap → Engine × Option Error × List EngineCall) :
    Bool :=
  open TestEngine_SSH in
  let r1 := upd NewEngine networkMap6
  let r2 := upd r1.1 networkMap7
  let r3 := upd r2.1 networkMap8
  let r4 := upd r3.1 networkMap9
  r1.2.1.isNone && r1.1.sshServer.isNone &&
  r2.2.1.isNone && r2.1.sshServer.isSome &&
    decide ("ssh-ed25519 AAAAC3NzaC1lZDI1NTE5AAAAIFATYCqaQw/9id1Qkq3n16JYhDhXraI6Pc1fgB8ynEfQ" ∈
      sshKeysAdded (r1.2.2 ++ r2.2.2)) &&
  r3.2.1.isNone && r3.1.sshServer.isSome &&
    decide ("MNHf3Ma6z6mdLbriAJbqhX7+nM/B71lgw2+91q3LfhU=" ∈
      sshPeersRemoved (r1.2.2 ++ r2.2.2 ++ r3.2.2)) &&
  r4.2.1.isNone && r4.1.sshServer.isNone

/-- A peer descriptor with an SSH public key. -/
def samplePeerWithKey : RemotePeerConfig :=
  { WgPubKey := "peerA", AllowedIps := ["100.64.0.30/24"]
    SshConfig := some { SshEnabled := false, SshPubKey := "ssh-ed25519 AAAA-peerA" } }

/-- A peer descriptor without an SSH public key. -/
def samplePeerWithoutKey : RemotePeerConfig :=
  { WgPubKey := "peerB", AllowedIps := ["100.64.0.31/24"], SshConfig := none }

/-- A map with routes, SSH enabled and two peers, one with and one without an SSH key. -/
def sampleMapSSH : NetworkMap :=
  { Serial := 3
    PeerConfig := some { Address := "100.64.0.1/24",
                         SshConfig := some { SshEnabled := true, SshPubKey := "" } }
    RemotePeers := [samplePeerWithKey, samplePeerWithoutKey], RemotePeersIsEmpty := false
    Routes := some [TestEngine_UpdateNetworkMapWithRoutes.routeA] }

/-- Collaborators whose route manager returns an error. -/
def EngineEnv.routesFail : EngineEnv :=
  { createFails := fun _ => false, updateRoutesFails := true, sshStartFails := false }

/-! ## Further collaborators of the DNS server -/

/-- Collaborators whose `ListenAndServe` returns at once with an error, nothing else failing. -/
def Env.listenFailing : Env :=
  { listenFails := true, shutdownFails := false, registerRecordFails := fun _ => false }

/-! ## The dispatch table under the keying of the library

`dns.ServeMux` does not key its table by the pattern as given but by a name derived from it.
The table below takes that derivation as a parameter `canon`; `CanonicalName` is the one of
the library. -/

/-- The function `dns.IsFqdn` of the library: the name ends in a dot that is not escaped, that
is, one preceded by an even number of backslashes. -/
def IsFqdn (s : String) : Bool :=
  match s.data.reverse with
  | [] => false
  | c :: rest =>
    c == '.' && (rest.takeWhile (fun r => r == Char.ofNat 92)).length % 2 == 0

/-- The function `dns.Fqdn` of the library: the name itself if it is fully qualified, the name
with a dot appended otherwise. -/
def Fqdn (s : String) : String := if IsFqdn s then s else s ++ "."

/-- The function `dns.CanonicalName` of the library: the fully qualified name with the letters
A to Z in lower case. -/
def CanonicalName (s : String) : String :=
  String.mk ((Fqdn s).data.map
    (fun r => if 'A' ≤ r ∧ r ≤ 'Z' then Char.ofNat (r.toNat + 32) else r))

/-- The table of `dns.ServeMux` after one call of the trace, when the table keys a pattern by
`canon`: `Handle` stores the handler under the key of the pattern, `HandleRemove` deletes the
key of the pattern, any other call leaves the table alone. -/
def ServeMux.step (canon : String → String) (z : GoMap Handler) : Call → GoMap Handler
  | .handle pattern handler => z.set (canon pattern) handler
  | .handleRemove pattern => z.delete (canon pattern)
  | _ => z

/-- The table of `dns.ServeMux` after a trace of calls, from the table `z`. -/
def ServeMux.after (canon : String → String) (calls : List Call) (z : GoMap Handler) :
    GoMap Handler :=
  calls.foldl (ServeMux.step canon) z

/-- A custom zone and a group with a UDP nameserver over the same name, written with other
case and a trailing dot. -/
def canonicalClashUpdate : Update :=
  { ServiceEnable := true
    CustomZones := [{ Domain := "corp.internal", Records := [sampleRecord] }]
    NameServerGroups :=
      [{ NameServers := [{ IP := "1.1.1.1", NSType := 1, Port := 53 }], Primary := false,
         Domains := ["Corp.Internal."] }] }

/-- A snapshot with one custom zone, its domain written in upper case with a trailing dot. -/
def upperZoneUpdate : Update :=
  { ServiceEnable := true
    CustomZones := [{ Domain := "Corp.Internal.", Records := [sampleRecord] }]
    NameServerGroups := [] }

/-- The same snapshot with the domain of the zone in lower case and without the dot. -/
def lowerZoneUpdate : Update :=
  { ServiceEnable := true
    CustomZones := [{ Domain := "corp.internal", Records := [sampleRecord] }]
    NameServerGroups := [] }

end Wiretrustee
namespace Wiretrustee

namespace GoMap
variable {β : Type}

theorem keys_nil : GoMap.keys ([] : GoMap β) = [] := rfl

theorem keys_cons (e : String × β) (m : GoMap β) : keys (e :: m) = e.1 :: keys m := rfl

theorem get?_isSome_iff (m : GoMap β) (k : String) : (m.get? k).isSome = true ↔ k ∈ m.keys := by
  induction m with
  | nil => simp [get?, keys]
  | cons e m ih =>
    obtain ⟨k', v⟩ := e
    by_cases h : k' = k
    · simp [get?, keys, h]
    · have h' : ¬ k = k' := fun h1 => h h1.symm
      simpa [get?, keys, h, h'] using ih

theorem contains_iff (m : GoMap β) (k : String) : m.contains k = true ↔ k ∈ m.keys :=
  get?_isSome_iff m k

theorem get?_eq_none_iff (m : GoMap β) (k : String) : m.get? k = none ↔ k ∉ m.keys := by
  rw [← get?_isSome_iff]
  cases m.get? k <;> simp

theorem mem_keys_set (m : GoMap β) (k : String) (v : β) (x : String) :
    x ∈ (m.set k v).keys ↔ x = k ∨ x ∈ m.keys := by
  induction m with
  | nil => simp [set, keys]
  | cons e m ih =>
    obtain ⟨k', v'⟩ := e
    by_cases h : k' = k
    · subst h
      simp [set, keys]
    · simp only [set, h, if_false, keys_cons, List.mem_cons, ih]
      tauto

theorem get?_set_self (m : GoMap β) (k : String) (v : β) : (m.set k v).get? k = some v := by
  induction m with
  | nil => simp [set, get?]
  | cons e m ih =>
    obtain ⟨k', v'⟩ := e
    by_cases h : k' = k
    · simp [set, get?, h]
    · simp [set, get?, h, ih]

theorem get?_set_of_ne (m : GoMap β) (k : String) (v : β) (x : String) (hx : x ≠ k) :
    (m.set k v).get? x = m.get? x := by
  induction m with
  | nil =>
    have : ¬ k = x := fun h => hx h.symm
    simp [set, get?, this]
  | cons e m ih =>
    obtain ⟨k', v'⟩ := e
    by_cases h : k' = k
    · subst h
      have : ¬ k' = x := fun h => hx h.symm
      simp [set, get?, this]
    · by_cases h2 : k' = x
      · subst h2
        simp [set, get?, h]
      · simp [set, get?, h, h2, ih]

theorem mem_keys_delete (m : GoMap β) (k x : String) :
    x ∈ (m.delete k).keys ↔ x ≠ k ∧ x ∈ m.keys := by
  induction m with
  | nil => simp [delete, keys]
  | cons e m ih =>
    obtain ⟨k', v'⟩ := e
    simp only [delete, keys] at ih ⊢
    by_cases h : k' = k
    · subst h
      simp only [List.filter_cons, ne_eq, not_true_eq_false, decide_False, Bool.false_eq_true,
        if_false, ih, List.map_cons, List.mem_cons]
      constructor
      · rintro ⟨h1, h2⟩; exact ⟨h1, Or.inr h2⟩
      · rintro ⟨h1, h2 | h2⟩
        · exact absurd h2 h1
        · exact ⟨h1, h2⟩
    · simp only [List.filter_cons, ne_eq, h, not_false_eq_true, decide_True, if_true,
        List.map_cons, List.mem_cons, ih]
      constructor
      · rintro (h1 | ⟨h1, h2⟩)
        · subst h1; exact ⟨h, Or.inl rfl⟩
        · exact ⟨h1, Or.inr h2⟩
      · rintro ⟨h1, h2 | h2⟩
        · exact Or.inl h2
        · exact Or.inr ⟨h1, h2⟩

theorem nodup_keys_set (m : GoMap β) (k : String) (v : β) (h : m.keys.Nodup) :
    (m.set k v).keys.Nodup := by
  induction m with
  | nil => simp [set, keys]
  | cons e m ih =>
    obtain ⟨k', v'⟩ := e
    rw [keys_cons, List.nodup_cons] at h
    by_cases hk : k' = k
    · subst hk
      simp only [set, if_true, keys_cons, List.nodup_cons]
      exact h
    · rw [set, if_neg hk, keys_cons, List.nodup_cons]
      refine ⟨?_, ih h.2⟩
      intro hmem
      rcases (mem_keys_set m k v k').1 hmem with h1 | h1
      · exact hk h1
      · exact h.1 h1

end GoMap
end Wiretrustee
namespace Wiretrustee

/-! ## The build steps -/

theorem upstreamServers_eq (nss : List NameServer) (acc : List String) :
    upstreamServers nss acc = acc ++ (nss.filter NameServer.usable).map getNSHostPort := by
  induction nss generalizing acc with
  | nil => simp [upstreamServers]
  | cons ns rest ih =>
    by_cases h : ns.NSType = UDPNameServerType
    · simp [upstreamServers, h, ih, NameServer.usable]
    · simp [upstreamServers, h, ih, NameServer.usable]

theorem upstreamServers_length_eq_zero (g : NameServerGroup) :
    (upstreamServers g.NameServers []).length = 0 ↔ g.hasUDP = false := by
  rw [upstreamServers_eq]
  simp [NameServerGroup.hasUDP, List.filter_eq_nil_iff]

theorem buildLocalHandlerUpdate.loop_ok (zs : List CustomZone) (mu : List muxUpdate)
    (lr : GoMap SimpleRecord) (h : ∀ z ∈ zs, z.Records ≠ []) :
    buildLocalHandlerUpdate.loop zs mu lr =
      .ok (mu ++ zs.map (fun z => { domain := z.Domain, handler := Handler.localResolver }),
        zs.foldl (fun m z => z.Records.foldl (fun m record => m.set record.Name record) m) lr) := by
  induction zs generalizing mu lr with
  | nil => simp [buildLocalHandlerUpdate.loop]
  | cons z rest ih =>
    have hz : z.Records ≠ [] := h z (List.mem_cons_self _ _)
    have hrest : ∀ z ∈ rest, z.Records ≠ [] := fun z' hz' => h z' (List.mem_cons_of_mem _ hz')
    simp [buildLocalHandlerUpdate.loop, hz, ih _ _ hrest]

theorem buildLocalHandlerUpdate.loop_error (zs : List CustomZone) (mu : List muxUpdate)
    (lr : GoMap SimpleRecord) (h : ∃ z ∈ zs, z.Records = []) :
    buildLocalHandlerUpdate.loop zs mu lr =
      .error (Error.errorf "received an empty list of records") := by
  induction zs generalizing mu lr with
  | nil => simp at h
  | cons z rest ih =>
    by_cases hz : z.Records = []
    · simp [buildLocalHandlerUpdate.loop, hz]
    · have hrest : ∃ z ∈ rest, z.Records = [] := by
        obtain ⟨z', hz', hz''⟩ := h
        rcases List.mem_cons.1 hz' with h1 | h1
        · subst h1; exact absurd hz'' hz
        · exact ⟨z', h1, hz''⟩
      simp [buildLocalHandlerUpdate.loop, hz, ih _ _ hrest]

theorem buildLocalHandlerUpdate_ok_iff (zs : List CustomZone) :
    (∃ r, buildLocalHandlerUpdate zs = .ok r) ↔ ∀ z ∈ zs, z.Records ≠ [] := by
  constructor
  · rintro ⟨r, hr⟩
    by_contra hne
    push_neg at hne
    rw [buildLocalHandlerUpdate, buildLocalHandlerUpdate.loop_error zs [] [] hne] at hr
    cases hr
  · intro h
    exact ⟨_, buildLocalHandlerUpdate.loop_ok zs [] [] h⟩

end Wiretrustee
namespace Wiretrustee

theorem buildUpstreamHandlerUpdate.domains_eq (h : Handler) (ds : List String)
    (mu : List muxUpdate) :
    buildUpstreamHandlerUpdate.domains h ds mu =
      if "" ∈ ds then
        .error (Error.errorf "received a nameserver group with an empty domain element")
      else .ok (mu ++ ds.map (fun d => { domain := d, handler := h })) := by
  induction ds generalizing mu with
  | nil => simp [buildUpstreamHandlerUpdate.domains]
  | cons d rest ih =>
    by_cases hd : d = ""
    · simp [buildUpstreamHandlerUpdate.domains, hd]
    · have hd' : ¬ "" = d := fun h => hd h.symm
      by_cases hr : "" ∈ rest
      · simp [buildUpstreamHandlerUpdate.domains, hd, ih, hr]
      · simp [buildUpstreamHandlerUpdate.domains, hd, hd', ih, hr]

theorem buildUpstreamHandlerUpdate.loop_cons (g : NameServerGroup) (rest : List NameServerGroup)
    (mu : List muxUpdate) :
    buildUpstreamHandlerUpdate.loop (g :: rest) mu =
      match g.updates with
      | .error e => .error e
      | .ok us => buildUpstreamHandlerUpdate.loop rest (mu ++ us) := by
  have hlen := upstreamServers_length_eq_zero g
  have heq := upstreamServers_eq g.NameServers []
  simp only [List.nil_append] at heq
  by_cases h1 : g.NameServers = []
  · simp [buildUpstreamHandlerUpdate.loop, NameServerGroup.updates, h1]
  · by_cases h2 : g.hasUDP = false
    · simp [buildUpstreamHandlerUpdate.loop, NameServerGroup.updates, h1, h2, hlen.2 h2]
    · have h3 : ¬ (upstreamServers g.NameServers []).length = 0 := fun h => h2 (hlen.1 h)
      have h7 : ¬ ∀ a ∈ g.NameServers, a.usable = false := by
        intro h
        apply h2
        simpa [NameServerGroup.hasUDP] using h
      by_cases h4 : g.Primary = true
      · simp [buildUpstreamHandlerUpdate.loop, NameServerGroup.updates, h1, h2, h3, h4,
          NameServerGroup.handler, heq, h7]
      · by_cases h5 : g.Domains = []
        · simp [buildUpstreamHandlerUpdate.loop, NameServerGroup.updates, h1, h2, h3, h4, h5]
        · by_cases h6 : "" ∈ g.Domains
          · simp [buildUpstreamHandlerUpdate.loop, NameServerGroup.updates, h1, h2, h3, h4, h5,
              h6, buildUpstreamHandlerUpdate.domains_eq]
          · simp [buildUpstreamHandlerUpdate.loop, NameServerGroup.updates, h1, h2, h3, h4, h5,
              h6, buildUpstreamHandlerUpdate.domains_eq, NameServerGroup.handler, heq, h7]

end Wiretrustee
namespace Wiretrustee

theorem NameServerGroup.updates_domains (g : NameServerGroup) (us : List muxUpdate)
    (h : g.updates = .ok us) (d : String) :
    d ∈ us.map (fun u => u.domain) ↔
      (g.Primary = false ∧ g.hasUDP = true ∧ d ∈ g.Domains) ∨
      (d = RootZone ∧ g.Primary = true ∧ g.hasUDP = true) := by
  unfold NameServerGroup.updates at h
  split_ifs at h with h1 h2 h3 h4 h5
  · cases h; simp [h2]
  · cases h
    have h2' : g.hasUDP = true := by simpa using h2
    simp [h3, h2']
  · cases h
    have h2' : g.hasUDP = true := by simpa using h2
    have h3' : g.Primary = false := by simpa using h3
    simp [h3', h2', List.map_map, Function.comp_def]

theorem buildUpstreamHandlerUpdate.loop_domains (gs : List NameServerGroup)
    (mu r : List muxUpdate) (h : buildUpstreamHandlerUpdate.loop gs mu = .ok r) (d : String) :
    d ∈ r.map (fun u => u.domain) ↔
      d ∈ mu.map (fun u => u.domain) ∨
      (∃ g ∈ gs, g.Primary = false ∧ g.hasUDP = true ∧ d ∈ g.Domains) ∨
      (d = RootZone ∧ ∃ g ∈ gs, g.Primary = true ∧ g.hasUDP = true) := by
  induction gs generalizing mu with
  | nil =>
    simp only [buildUpstreamHandlerUpdate.loop, Except.ok.injEq] at h
    subst h
    simp
  | cons g rest ih =>
    rw [buildUpstreamHandlerUpdate.loop_cons] at h
    cases hg : g.updates with
    | error e => rw [hg] at h; cases h
    | ok us =>
      rw [hg] at h
      have h1 := ih (mu ++ us) h
      have h2 := g.updates_domains us hg d
      rw [h1, List.map_append, List.mem_append, h2]
      simp only [List.mem_cons, exists_eq_or_imp]
      constructor
      · rintro ((h3 | h3 | h3) | h3 | h3)
        · exact Or.inl h3
        · exact Or.inr (Or.inl (Or.inl h3))
        · exact Or.inr (Or.inr ⟨h3.1, Or.inl h3.2⟩)
        · exact Or.inr (Or.inl (Or.inr h3))
        · exact Or.inr (Or.inr ⟨h3.1, Or.inr h3.2⟩)
      · rintro (h3 | (h3 | h3) | ⟨h3, h4 | h4⟩)
        · exact Or.inl (Or.inl h3)
        · exact Or.inl (Or.inr (Or.inl h3))
        · exact Or.inr (Or.inl h3)
        · exact Or.inl (Or.inr (Or.inr ⟨h3, h4⟩))
        · exact Or.inr (Or.inr ⟨h3, h4⟩)

theorem buildUpstreamHandlerUpdate.loop_drop (pre post : List NameServerGroup)
    (g : NameServerGroup) (mu : List muxUpdate) (hg : g.updates = .ok []) :
    buildUpstreamHandlerUpdate.loop (pre ++ g :: post) mu =
      buildUpstreamHandlerUpdate.loop (pre ++ post) mu := by
  induction pre generalizing mu with
  | nil => simp [buildUpstreamHandlerUpdate.loop_cons, hg]
  | cons p pre ih =>
    simp only [List.cons_append, buildUpstreamHandlerUpdate.loop_cons]
    cases p.updates with
    | error e => rfl
    | ok us => exact ih _

end Wiretrustee
namespace Wiretrustee

/-! ## The two diffs -/

theorem GoMap.mem_keys_foldl_set {α β : Type} (f : α → String) (g : α → β) (l : List α)
    (m : GoMap β) (x : String) :
    x ∈ GoMap.keys (l.foldl (fun m a => m.set (f a) (g a)) m) ↔
      x ∈ GoMap.keys m ∨ x ∈ l.map f := by
  induction l generalizing m with
  | nil => simp
  | cons a rest ih =>
    rw [List.foldl_cons, ih, GoMap.mem_keys_set, List.map_cons, List.mem_cons]
    constructor
    · rintro ((h | h) | h)
      · exact Or.inr (Or.inl h)
      · exact Or.inl h
      · exact Or.inr (Or.inr h)
    · rintro (h | h | h)
      · exact Or.inl (Or.inr h)
      · exact Or.inl (Or.inl h)
      · exact Or.inr h

theorem GoMap.nodup_keys_foldl_set {α β : Type} (f : α → String) (g : α → β) (l : List α)
    (m : GoMap β) (h : (GoMap.keys m).Nodup) :
    (GoMap.keys (l.foldl (fun m a => m.set (f a) (g a)) m)).Nodup := by
  induction l generalizing m with
  | nil => simpa using h
  | cons a rest ih =>
    rw [List.foldl_cons]
    exact ih _ (GoMap.nodup_keys_set m _ _ h)

/-- The message of the panic raised for an empty pattern. -/
theorem updateMux.register_eq (us : List muxUpdate) (s : Server) (m : registrationMap)
    (c : List Call) :
    updateMux.register us s m c =
      if "" ∈ us.map (fun u => u.domain) then .panic ("dns: invalid pattern " ++ "")
      else .ok ({ s with dnsMux := us.foldl (fun t u => t.set u.domain u.handler) s.dnsMux },
        us.foldl (fun m u => m.set u.domain ()) m,
        c ++ us.map (fun u => Call.handle u.domain u.handler)) := by
  induction us generalizing s m c with
  | nil => simp [updateMux.register]
  | cons u rest ih =>
    by_cases hu : u.domain = ""
    · simp [updateMux.register, Server.registerMux, hu]
    · have hu' : ¬ "" = u.domain := fun h => hu h.symm
      simp only [updateMux.register, Server.registerMux, hu, if_false, ih, List.map_cons,
        List.mem_cons, hu', false_or, List.foldl_cons, List.append_assoc, List.singleton_append]

theorem updateMux.deregister_eq (M : registrationMap) (keys : List String) (s : Server)
    (c : List Call) :
    updateMux.deregister M keys s c =
      if "" ∈ keys.filter (fun k => !M.contains k) then .panic ("dns: invalid pattern " ++ "")
      else .ok ({ s with dnsMux :=
            (keys.filter (fun k => !M.contains k)).foldl (fun t k => t.delete k) s.dnsMux },
        c ++ (keys.filter (fun k => !M.contains k)).map Call.handleRemove) := by
  induction keys generalizing s c with
  | nil => simp [updateMux.deregister]
  | cons k rest ih =>
    by_cases hk : M.contains k = true
    · simp [updateMux.deregister, hk, ih]
    · by_cases hk2 : k = ""
      · subst hk2
        have hk3 : GoMap.contains M "" = false := by simpa using hk
        simp [updateMux.deregister, Server.deregisterMux, hk3]
      · have hk2' : ¬ "" = k := fun h => hk2 h.symm
        simp [updateMux.deregister, Server.deregisterMux, hk, hk2, hk2', ih]

end Wiretrustee
namespace Wiretrustee

theorem Server.updateMux_eq (s : Server) (us : List muxUpdate) :
    s.updateMux us =
      if "" ∈ us.map (fun u => u.domain) ∨ "" ∈ staleKeys s us then
        .panic ("dns: invalid pattern " ++ "")
      else .ok ({ s with
          dnsMux := (staleKeys s us).foldl (fun t k => t.delete k)
            (us.foldl (fun t u => t.set u.domain u.handler) s.dnsMux)
          dnsMuxMap := targetMap us },
        us.map (fun u => Call.handle u.domain u.handler) ++
          (staleKeys s us).map Call.handleRemove) := by
  unfold Server.updateMux
  rw [updateMux.register_eq]
  by_cases h1 : "" ∈ us.map (fun u => u.domain)
  · simp [h1]
  · rw [if_neg h1]
    simp only [updateMux.deregister_eq, List.nil_append]
    by_cases h2 : "" ∈ staleKeys s us
    · have h2' := h2
      unfold staleKeys targetMap at h2'
      rw [if_pos h2', if_pos (Or.inr h2)]
    · have h2' := h2
      unfold staleKeys targetMap at h2'
      rw [if_neg h2', if_neg (not_or.2 ⟨h1, h2⟩)]
      rfl

theorem mem_keys_targetMap (us : List muxUpdate) (x : String) :
    x ∈ GoMap.keys (targetMap us) ↔ x ∈ us.map (fun u => u.domain) := by
  unfold targetMap
  rw [GoMap.mem_keys_foldl_set (fun u : muxUpdate => u.domain) (fun _ => ())]
  simp [GoMap.keys]

theorem nodup_keys_targetMap (us : List muxUpdate) : (GoMap.keys (targetMap us)).Nodup := by
  unfold targetMap
  exact GoMap.nodup_keys_foldl_set (fun u : muxUpdate => u.domain) (fun _ => ()) us []
    (by simp [GoMap.keys])

theorem updateLocalResolver.delete_records_eq (U : GoMap SimpleRecord) (keys : List String)
    (d : localResolver) (c : List Call) :
    updateLocalResolver.delete U keys d c =
      ((keys.filter (fun k => !U.contains k)).foldl (fun d k => d.deleteRecord k) d,
        c ++ (keys.filter (fun k => !U.contains k)).map Call.deleteRecord) := by
  induction keys generalizing d c with
  | nil => simp [updateLocalResolver.delete]
  | cons k rest ih =>
    by_cases hk : U.contains k = true
    · simp [updateLocalResolver.delete, hk, ih]
    · simp [updateLocalResolver.delete, hk, ih]

theorem updateLocalResolver.register_records_eq (env : Env) (U : GoMap SimpleRecord)
    (d : localResolver) (m : registrationMap) (c : List Call) :
    updateLocalResolver.register env U d m c =
      (U.foldl (fun d e => (d.registerRecord env e.2).1) d,
        U.foldl (fun m e => m.set e.1 ()) m,
        c ++ U.map (fun e => Call.registerRecord e.2)) := by
  induction U generalizing d m c with
  | nil => simp [updateLocalResolver.register]
  | cons e rest ih =>
    obtain ⟨k, r⟩ := e
    simp [updateLocalResolver.register, ih]

theorem Server.updateLocalResolver_registeredMap (env : Env) (s : Server)
    (U : GoMap SimpleRecord) :
    (s.updateLocalResolver env U).1.localResolver.registeredMap =
      U.foldl (fun m e => GoMap.set m e.1 ()) ([] : registrationMap) := by
  simp [Server.updateLocalResolver, updateLocalResolver.register_records_eq]

theorem Server.updateLocalResolver_calls (env : Env) (s : Server) (U : GoMap SimpleRecord) :
    (s.updateLocalResolver env U).2 =
      (staleRecords s U).map Call.deleteRecord ++ U.map (fun e => Call.registerRecord e.2) := by
  simp [Server.updateLocalResolver, updateLocalResolver.register_records_eq,
    updateLocalResolver.delete_records_eq, staleRecords]

theorem Server.updateLocalResolver_frame (env : Env) (s : Server) (U : GoMap SimpleRecord) :
    (s.updateLocalResolver env U).1.ctxDone = s.ctxDone ∧
    (s.updateLocalResolver env U).1.dnsMux = s.dnsMux ∧
    (s.updateLocalResolver env U).1.dnsMuxMap = s.dnsMuxMap ∧
    (s.updateLocalResolver env U).1.updateSerial = s.updateSerial ∧
    (s.updateLocalResolver env U).1.listenerIsRunning = s.listenerIsRunning := by
  simp [Server.updateLocalResolver]

end Wiretrustee
namespace Wiretrustee

/-! ## The whole update -/

theorem Server.applyServiceEnable_frame (env : Env) (s : Server) (b : Bool) :
    (s.applyServiceEnable env b).1.ctxDone = s.ctxDone ∧
    (s.applyServiceEnable env b).1.dnsMux = s.dnsMux ∧
    (s.applyServiceEnable env b).1.dnsMuxMap = s.dnsMuxMap ∧
    (s.applyServiceEnable env b).1.localResolver = s.localResolver ∧
    (s.applyServiceEnable env b).1.updateSerial = s.updateSerial := by
  unfold Server.applyServiceEnable Server.stopListener Server.Start
  cases b <;> cases s.listenerIsRunning <;> cases env.shutdownFails <;> simp

/-- What a call that returned nil went through. -/
theorem Server.UpdateDNSServer_nil (env : Env) (s s' : Server) (serial : Nat) (update : Update)
    (calls : List Call) (h : s.UpdateDNSServer env serial update = .returned s' none calls) :
    s.ctxDone = false ∧ s.updateSerial ≤ serial ∧
    ∃ lmu lrec umu s1 calls1,
      buildLocalHandlerUpdate update.CustomZones = .ok (lmu, lrec) ∧
      buildUpstreamHandlerUpdate update.NameServerGroups = .ok umu ∧
      (s.applyServiceEnable env update.ServiceEnable).1.updateMux (lmu ++ umu) =
        .ok (s1, calls1) ∧
      s' = { (s1.updateLocalResolver env lrec).1 with updateSerial := serial } ∧
      calls = (s.applyServiceEnable env update.ServiceEnable).2 ++ calls1 ++
        (s1.updateLocalResolver env lrec).2 := by
  unfold Server.UpdateDNSServer at h
  by_cases h1 : s.ctxDone = true
  · rw [if_pos h1] at h
    simp at h
  rw [if_neg h1] at h
  by_cases h2 : serial < s.updateSerial
  · rw [if_pos h2] at h
    simp at h
  rw [if_neg h2] at h
  have h1' : s.ctxDone = false := by simpa using h1
  refine ⟨h1', Nat.le_of_not_lt h2, ?_⟩
  revert h
  dsimp only
  cases hl : buildLocalHandlerUpdate update.CustomZones with
  | error e => intro h; simp at h
  | ok lr =>
    obtain ⟨lmu, lrec⟩ := lr
    cases hu : buildUpstreamHandlerUpdate update.NameServerGroups with
    | error e => intro h; simp at h
    | ok umu =>
      dsimp only
      cases hm : (s.applyServiceEnable env update.ServiceEnable).1.updateMux (lmu ++ umu) with
      | panic msg => intro h; simp at h
      | ok r =>
        obtain ⟨s1, calls1⟩ := r
        intro h
        simp only [Outcome.returned.injEq, true_and] at h
        exact ⟨lmu, lrec, umu, s1, calls1, rfl, rfl, hm, h.1.symm, h.2.symm⟩

end Wiretrustee
namespace Wiretrustee

/-! ## Exact reconciliation of the DNS registrations -/

theorem buildLocalHandlerUpdate_domains (zs : List CustomZone) (lmu : List muxUpdate)
    (lrec : GoMap SimpleRecord) (h : buildLocalHandlerUpdate zs = .ok (lmu, lrec)) :
    lmu = zs.map (fun z => { domain := z.Domain, handler := Handler.localResolver }) ∧
    lrec = localRecordsOf zs := by
  have hne : ∀ z ∈ zs, z.Records ≠ [] := (buildLocalHandlerUpdate_ok_iff zs).1 ⟨_, h⟩
  rw [buildLocalHandlerUpdate, buildLocalHandlerUpdate.loop_ok zs [] [] hne] at h
  simp only [List.nil_append, Except.ok.injEq, Prod.mk.injEq] at h
  exact ⟨h.1.symm, h.2.symm⟩

theorem Server.UpdateDNSServer_nil_dnsMuxMap (env : Env) (s s' : Server) (serial : Nat)
    (update : Update) (calls : List Call)
    (h : s.UpdateDNSServer env serial update = .returned s' none calls) :
    ∃ lmu lrec umu,
      buildLocalHandlerUpdate update.CustomZones = .ok (lmu, lrec) ∧
      buildUpstreamHandlerUpdate update.NameServerGroups = .ok umu ∧
      s'.dnsMuxMap = targetMap (lmu ++ umu) := by
  obtain ⟨-, -, lmu, lrec, umu, s1, calls1, hl, hu, hm, hs, -⟩ :=
    Server.UpdateDNSServer_nil env s s' serial update calls h
  refine ⟨lmu, lrec, umu, hl, hu, ?_⟩
  rw [Server.updateMux_eq] at hm
  split_ifs at hm with hp
  simp only [MayPanic.ok.injEq, Prod.mk.injEq] at hm
  rw [hs]
  show (s1.updateLocalResolver env lrec).1.dnsMuxMap = _
  rw [(Server.updateLocalResolver_frame env s1 lrec).2.2.1, ← hm.1]

/-- C1: after every successful `UpdateDNSServer`, the tracked registration set `dnsMuxMap`
holds exactly the patterns the update implies (the domains of all custom zones, the domains
of every non-primary group with a UDP nameserver, and the root pattern when some primary
group has a UDP nameserver), each once; a pattern tracked before that the update does not
imply is gone. -/
theorem UpdateDNSServer_registrations_exact (env : Env) (s s' : Server) (serial : Nat)
    (update : Update) (calls : List Call)
    (h : s.UpdateDNSServer env serial update = .returned s' none calls) :
    (∀ d, d ∈ GoMap.keys s'.dnsMuxMap ↔ update.implies d) ∧
    (GoMap.keys s'.dnsMuxMap).Nodup ∧
    (∀ d ∈ GoMap.keys s.dnsMuxMap, ¬ update.implies d → d ∉ GoMap.keys s'.dnsMuxMap) := by
  obtain ⟨lmu, lrec, umu, hl, hu, hmap⟩ :=
    Server.UpdateDNSServer_nil_dnsMuxMap env s s' serial update calls h
  have hiff : ∀ d, d ∈ GoMap.keys s'.dnsMuxMap ↔ update.implies d := by
    intro d
    rw [hmap, mem_keys_targetMap, List.map_append, List.mem_append,
      (buildLocalHandlerUpdate_domains _ _ _ hl).1,
      buildUpstreamHandlerUpdate.loop_domains update.NameServerGroups [] umu hu d]
    unfold Update.implies
    simp only [List.map_map, List.mem_map, Function.comp_apply, List.map_nil,
      List.not_mem_nil, false_or]
  refine ⟨hiff, ?_, ?_⟩
  · rw [hmap]
    exact nodup_keys_targetMap _
  · intro d _ hd hmem
    exact hd ((hiff d).1 hmem)

/-- C1, on the sample snapshots: the second one applied after the first. -/
theorem UpdateDNSServer_registrations_exact_witness :
    (∀ d, d ∈ GoMap.keys sampleServer2.dnsMuxMap ↔ sampleUpdate2.implies d) ∧
    (GoMap.keys sampleServer2.dnsMuxMap).Nodup ∧
    (∀ d ∈ GoMap.keys sampleServer1.dnsMuxMap, ¬ sampleUpdate2.implies d →
      d ∉ GoMap.keys sampleServer2.dnsMuxMap) :=
  UpdateDNSServer_registrations_exact Env.allSucceed sampleServer1 sampleServer2 2
    sampleUpdate2 sampleCalls2 (by decide)

end Wiretrustee
namespace Wiretrustee

/-! ## Rejected updates -/

/-- C2: on a server whose context is not cancelled, an update whose serial is below
`updateSerial` is answered with an error, issues no call and leaves the server exactly as it
was: registrations, dispatch table, local records, serial and listener flag. -/
theorem UpdateDNSServer_stale_unchanged (env : Env) (s : Server) (serial : Nat)
    (update : Update) (hctx : s.ctxDone = false) (hlt : serial < s.updateSerial) :
    ∃ e, s.UpdateDNSServer env serial update = .returned s (some e) [] := by
  unfold Server.UpdateDNSServer
  rw [if_neg (by simp [hctx]), if_pos hlt]
  exact ⟨_, rfl⟩

/-- C2, on the sample server: serial 1 after serial 2 has been applied. -/
theorem UpdateDNSServer_stale_unchanged_witness :
    ∃ e, sampleServer2.UpdateDNSServer Env.allSucceed 1 sampleUpdate1 =
      .returned sampleServer2 (some e) [] :=
  UpdateDNSServer_stale_unchanged Env.allSucceed sampleServer2 1 sampleUpdate1
    (by decide) (by decide)

/-- C3: an update on which a build step fails is answered with an error, whatever the state
of the server, and the registrations, the dispatch table, the local resolver and the serial
are what they were; the only calls issued concern the listener. -/
theorem UpdateDNSServer_build_failure_atomic (env : Env) (s : Server) (serial : Nat)
    (update : Update)
    (hfail : (∃ e, buildLocalHandlerUpdate update.CustomZones = .error e) ∨
      (∃ e, buildUpstreamHandlerUpdate update.NameServerGroups = .error e)) :
    ∃ s' e calls, s.UpdateDNSServer env serial update = .returned s' (some e) calls ∧
      s'.dnsMuxMap = s.dnsMuxMap ∧ s'.dnsMux = s.dnsMux ∧
      s'.localResolver = s.localResolver ∧ s'.updateSerial = s.updateSerial ∧
      ∀ c ∈ calls, c = Call.listenAndServe ∨ c = Call.shutdown := by
  have hcalls : ∀ c ∈ (s.applyServiceEnable env update.ServiceEnable).2,
      c = Call.listenAndServe ∨ c = Call.shutdown := by
    unfold Server.applyServiceEnable Server.stopListener Server.Start
    cases update.ServiceEnable <;> cases s.listenerIsRunning <;> cases env.shutdownFails <;>
      simp
  obtain ⟨-, f2, f3, f4, f5⟩ := Server.applyServiceEnable_frame env s update.ServiceEnable
  unfold Server.UpdateDNSServer
  by_cases h1 : s.ctxDone = true
  · rw [if_pos h1]
    exact ⟨s, _, [], rfl, rfl, rfl, rfl, rfl, by simp⟩
  rw [if_neg h1]
  by_cases h2 : serial < s.updateSerial
  · rw [if_pos h2]
    exact ⟨s, _, [], rfl, rfl, rfl, rfl, rfl, by simp⟩
  rw [if_neg h2]
  dsimp only
  cases hl : buildLocalHandlerUpdate update.CustomZones with
  | error e => exact ⟨_, _, _, rfl, f3, f2, f4, f5, hcalls⟩
  | ok lr =>
    obtain ⟨lmu, lrec⟩ := lr
    dsimp only
    cases hu : buildUpstreamHandlerUpdate update.NameServerGroups with
    | error e => exact ⟨_, _, _, rfl, f3, f2, f4, f5, hcalls⟩
    | ok umu =>
      rcases hfail with ⟨e, he⟩ | ⟨e, he⟩
      · rw [hl] at he; cases he
      · rw [hu] at he; cases he

/-- C3, on a snapshot with a zero-record custom zone, applied to the sample server. -/
theorem UpdateDNSServer_build_failure_atomic_witness :
    ∃ s' e calls, sampleServer2.UpdateDNSServer Env.allSucceed 3 malformedUpdate =
        .returned s' (some e) calls ∧
      s'.dnsMuxMap = sampleServer2.dnsMuxMap ∧ s'.dnsMux = sampleServer2.dnsMux ∧
      s'.localResolver = sampleServer2.localResolver ∧
      s'.updateSerial = sampleServer2.updateSerial ∧
      ∀ c ∈ calls, c = Call.listenAndServe ∨ c = Call.shutdown :=
  UpdateDNSServer_build_failure_atomic Env.allSucceed sampleServer2 3 malformedUpdate
    (Or.inl ⟨Error.errorf "received an empty list of records", rfl⟩)

end Wiretrustee
namespace Wiretrustee

/-! ## When an update is accepted -/

theorem NameServerGroup.updates_nonempty (g : NameServerGroup) (us : List muxUpdate)
    (h : g.updates = .ok us) : "" ∉ us.map (fun u => u.domain) := by
  unfold NameServerGroup.updates at h
  split_ifs at h with h1 h2 h3 h4 h5
  · cases h; simp
  · cases h; simp [RootZone]
  · cases h
    simpa [List.map_map, Function.comp_def] using h5

theorem buildUpstreamHandlerUpdate.loop_nonempty (gs : List NameServerGroup)
    (mu r : List muxUpdate) (h : buildUpstreamHandlerUpdate.loop gs mu = .ok r)
    (hmu : "" ∉ mu.map (fun u => u.domain)) : "" ∉ r.map (fun u => u.domain) := by
  induction gs generalizing mu with
  | nil =>
    simp only [buildUpstreamHandlerUpdate.loop, Except.ok.injEq] at h
    subst h
    exact hmu
  | cons g rest ih =>
    rw [buildUpstreamHandlerUpdate.loop_cons] at h
    cases hg : g.updates with
    | error e => rw [hg] at h; cases h
    | ok us =>
      rw [hg] at h
      apply ih (mu ++ us) h
      rw [List.map_append, List.mem_append]
      rintro (h1 | h1)
      · exact hmu h1
      · exact g.updates_nonempty us hg h1

theorem mem_staleKeys (s : Server) (us : List muxUpdate) (k : String) :
    k ∈ staleKeys s us ↔ k ∈ GoMap.keys s.dnsMuxMap ∧ k ∉ us.map (fun u => u.domain) := by
  unfold staleKeys
  rw [List.mem_filter, ← mem_keys_targetMap]
  have hc := GoMap.contains_iff (targetMap us) k
  cases hk : (targetMap us).contains k
  · rw [hk] at hc
    simp only [Bool.not_false, true_iff, and_true]
    exact ⟨fun h => ⟨h, fun h' => by simpa using hc.2 h'⟩, fun h => h.1⟩
  · rw [hk] at hc
    simp only [Bool.not_true, Bool.false_eq_true, and_false, false_iff, not_and, not_not]
    exact fun _ => hc.1 rfl

/-- The acceptance conditions of `UpdateDNSServer`, for updates that hand no empty pattern to
the dispatch table: on a server that tracks no empty pattern and for custom zones with
non-empty domains, the call returns nil exactly when the context is live, the serial is not
below `updateSerial` and both build steps succeed; it then advances the serial, and in every
other case it returns an error. -/
theorem UpdateDNSServer_nil_iff (env : Env) (s : Server) (serial : Nat) (update : Update)
    (hwf : "" ∉ GoMap.keys s.dnsMuxMap) (hz : ∀ z ∈ update.CustomZones, z.Domain ≠ "") :
    ((s.UpdateDNSServer env serial update).isNil = true ↔
      (s.ctxDone = false ∧ s.updateSerial ≤ serial ∧
        (∃ r, buildLocalHandlerUpdate update.CustomZones = .ok r) ∧
        (∃ r, buildUpstreamHandlerUpdate update.NameServerGroups = .ok r))) ∧
    ((s.UpdateDNSServer env serial update).isNil = true →
      (s.UpdateDNSServer env serial update).server?.map (fun t => t.updateSerial) =
        some serial) ∧
    ((s.UpdateDNSServer env serial update).isNil = false →
      (s.UpdateDNSServer env serial update).isErr = true) := by
  unfold Server.UpdateDNSServer
  by_cases h1 : s.ctxDone = true
  · simp [h1, Outcome.isNil, Outcome.isErr]
  rw [if_neg h1]
  have h1' : s.ctxDone = false := by simpa using h1
  by_cases h2 : serial < s.updateSerial
  · simp [h2, Outcome.isNil, Outcome.isErr, Nat.not_le.2 h2]
  rw [if_neg h2]
  have h2' : s.updateSerial ≤ serial := Nat.le_of_not_lt h2
  dsimp only
  cases hl : buildLocalHandlerUpdate update.CustomZones with
  | error e => simp [Outcome.isNil, Outcome.isErr]
  | ok lr =>
    obtain ⟨lmu, lrec⟩ := lr
    dsimp only
    cases hu : buildUpstreamHandlerUpdate update.NameServerGroups with
    | error e => simp [Outcome.isNil, Outcome.isErr]
    | ok umu =>
      dsimp only
      have hd1 : "" ∉ lmu.map (fun u => u.domain) := by
        rw [(buildLocalHandlerUpdate_domains _ _ _ hl).1]
        simp only [List.map_map, List.mem_map, Function.comp_apply, not_exists, not_and]
        intro z hzmem heq
        exact hz z hzmem heq
      have hd2 : "" ∉ umu.map (fun u => u.domain) :=
        buildUpstreamHandlerUpdate.loop_nonempty _ [] umu hu (by simp)
      have hd : "" ∉ (lmu ++ umu).map (fun u => u.domain) := by
        rw [List.map_append, List.mem_append]
        rintro (h | h)
        · exact hd1 h
        · exact hd2 h
      have hst : "" ∉ staleKeys (s.applyServiceEnable env update.ServiceEnable).1
          (lmu ++ umu) := by
        rw [mem_staleKeys, (Server.applyServiceEnable_frame env s _).2.2.1]
        exact fun h => hwf h.1
      rw [Server.updateMux_eq, if_neg (not_or.2 ⟨hd, hst⟩)]
      simp [Outcome.isNil, Outcome.isErr, Outcome.server?, h1', h2']

/-- C4 at its failing input: a custom zone with records and the empty domain passes both
build steps on a new server, under a serial that is not stale, and the call panics in the
dispatch table instead of returning. -/
theorem UpdateDNSServer_empty_zone_domain_panics :
    NewServer.ctxDone = false ∧ NewServer.updateSerial ≤ 1 ∧
    (∃ r, buildLocalHandlerUpdate emptyDomainUpdate.CustomZones = .ok r) ∧
    (∃ r, buildUpstreamHandlerUpdate emptyDomainUpdate.NameServerGroups = .ok r) ∧
    NewServer.UpdateDNSServer Env.allSucceed 1 emptyDomainUpdate =
      .panicked "dns: invalid pattern " ∧
    (NewServer.UpdateDNSServer Env.allSucceed 1 emptyDomainUpdate).isNil = false :=
  ⟨rfl, by decide, ⟨_, rfl⟩, ⟨_, rfl⟩, by decide, by decide⟩

end Wiretrustee
namespace Wiretrustee

/-! ## Exact reconciliation of the local records -/

theorem mem_keys_localRecordsOf (zs : List CustomZone) (n : String) :
    n ∈ GoMap.keys (localRecordsOf zs) ↔
      n ∈ zs.flatMap (fun z => z.Records.map (fun r => r.Name)) := by
  have key : ∀ (m : GoMap SimpleRecord),
      n ∈ GoMap.keys (zs.foldl
        (fun m z => z.Records.foldl (fun m record => GoMap.set m record.Name record) m) m) ↔
      n ∈ GoMap.keys m ∨ n ∈ zs.flatMap (fun z => z.Records.map (fun r => r.Name)) := by
    induction zs with
    | nil => intro m; simp
    | cons z rest ih =>
      intro m
      rw [List.foldl_cons, ih,
        GoMap.mem_keys_foldl_set (fun r : SimpleRecord => r.Name) (fun r => r),
        List.flatMap_cons, List.mem_append, or_assoc]
  rw [localRecordsOf, key]
  simp [GoMap.keys]

theorem mem_keys_registered (U : GoMap SimpleRecord) (n : String) :
    n ∈ GoMap.keys (U.foldl (fun m e => GoMap.set m e.1 ()) ([] : registrationMap)) ↔
      n ∈ GoMap.keys U := by
  rw [GoMap.mem_keys_foldl_set (fun e : String × SimpleRecord => e.1) (fun _ => ())]
  simp [GoMap.keys]

theorem Server.applyServiceEnable_calls (env : Env) (s : Server) (b : Bool) :
    ∀ c ∈ (s.applyServiceEnable env b).2, c = Call.listenAndServe ∨ c = Call.shutdown := by
  unfold Server.applyServiceEnable Server.stopListener Server.Start
  cases b <;> cases s.listenerIsRunning <;> cases env.shutdownFails <;> simp

/-- C5: after every successful `UpdateDNSServer`, the names the local resolver tracks are
exactly the record names occurring in the custom zones of the update; `deleteRecord` has been
called on every name tracked before that the update lacks, and on no name of the update. -/
theorem UpdateDNSServer_records_exact (env : Env) (s s' : Server) (serial : Nat)
    (update : Update) (calls : List Call)
    (h : s.UpdateDNSServer env serial update = .returned s' none calls) :
    (∀ n, n ∈ GoMap.keys s'.localResolver.registeredMap ↔ n ∈ update.recordNames) ∧
    (∀ n ∈ GoMap.keys s.localResolver.registeredMap, n ∉ update.recordNames →
      Call.deleteRecord n ∈ calls) ∧
    (∀ n ∈ update.recordNames, Call.deleteRecord n ∉ calls) := by
  obtain ⟨-, -, lmu, lrec, umu, s1, calls1, hl, hu, hm, hs, hc⟩ :=
    Server.UpdateDNSServer_nil env s s' serial update calls h
  have hrec : lrec = localRecordsOf update.CustomZones :=
    (buildLocalHandlerUpdate_domains _ _ _ hl).2
  have hkeys : ∀ n, n ∈ GoMap.keys lrec ↔ n ∈ update.recordNames := by
    intro n
    rw [hrec, mem_keys_localRecordsOf]
    rfl
  rw [Server.updateMux_eq] at hm
  split_ifs at hm with hp
  simp only [MayPanic.ok.injEq, Prod.mk.injEq] at hm
  obtain ⟨hs1, hc1⟩ := hm
  have hres : s1.localResolver = s.localResolver := by
    rw [← hs1]
    exact (Server.applyServiceEnable_frame env s update.ServiceEnable).2.2.2.1
  have hdel : ∀ n, Call.deleteRecord n ∈ calls ↔
      n ∈ GoMap.keys s.localResolver.registeredMap ∧ n ∉ update.recordNames := by
    intro n
    rw [hc, Server.updateLocalResolver_calls, ← hc1]
    simp only [List.mem_append, List.mem_map, staleRecords, List.mem_filter, hres]
    constructor
    · rintro ((h1 | h1 | h1) | h1 | h1)
      · rcases Server.applyServiceEnable_calls env s _ _ h1 with h2 | h2 <;> cases h2
      · obtain ⟨u, -, hu'⟩ := h1; cases hu'
      · obtain ⟨k, -, hk'⟩ := h1; cases hk'
      · obtain ⟨k, ⟨hk1, hk2⟩, hk3⟩ := h1
        cases hk3
        refine ⟨hk1, fun hmem => ?_⟩
        have := (GoMap.contains_iff lrec n).2 ((hkeys n).2 hmem)
        simp [this] at hk2
      · obtain ⟨e, -, he'⟩ := h1; cases he'
    · rintro ⟨h1, h2⟩
      refine Or.inr (Or.inl ⟨n, ⟨h1, ?_⟩, rfl⟩)
      cases hcn : lrec.contains n
      · rfl
      · exact absurd ((hkeys n).1 ((GoMap.contains_iff lrec n).1 hcn)) h2
  refine ⟨?_, ?_, ?_⟩
  · intro n
    rw [hs]
    show n ∈ GoMap.keys (s1.updateLocalResolver env lrec).1.localResolver.registeredMap ↔ _
    rw [Server.updateLocalResolver_registeredMap, mem_keys_registered, hkeys]
  · intro n hn hnot
    exact (hdel n).2 ⟨hn, hnot⟩
  · intro n hn hmem
    exact ((hdel n).1 hmem).2 hn

/-- C5, on the sample snapshots: the second one drops the record of the zone it drops. -/
theorem UpdateDNSServer_records_exact_witness :
    (∀ n, n ∈ GoMap.keys sampleServer2.localResolver.registeredMap ↔
      n ∈ sampleUpdate2.recordNames) ∧
    (∀ n ∈ GoMap.keys sampleServer1.localResolver.registeredMap,
      n ∉ sampleUpdate2.recordNames → Call.deleteRecord n ∈ sampleCalls2) ∧
    (∀ n ∈ sampleUpdate2.recordNames, Call.deleteRecord n ∉ sampleCalls2) :=
  UpdateDNSServer_records_exact Env.allSucceed sampleServer1 sampleServer2 2 sampleUpdate2
    sampleCalls2 (by decide)

end Wiretrustee
namespace Wiretrustee

/-! ## Idempotence of the DNS reconciler -/

theorem Server.applyServiceEnable_listener_idem (env1 env2 : Env) (s t : Server) (b : Bool)
    (hl : env2.listenFails = env1.listenFails) (hs : env2.shutdownFails = env1.shutdownFails)
    (ht : t.listenerIsRunning = (s.applyServiceEnable env1 b).1.listenerIsRunning) :
    (t.applyServiceEnable env2 b).1.listenerIsRunning = t.listenerIsRunning := by
  obtain ⟨l1, sh1, r1⟩ := env1
  obtain ⟨l2, sh2, r2⟩ := env2
  obtain ⟨a1, a2, a3, a4, a5, sr⟩ := s
  obtain ⟨b1, b2, b3, b4, b5, tr⟩ := t
  simp only at hl hs
  subst hl hs
  cases b <;> cases sr <;> cases tr <;> cases l2 <;> cases sh2 <;>
    simp_all [Server.applyServiceEnable, Server.stopListener, Server.Start]

/-- What an accepted call leaves behind, from the state it starts in. -/
theorem Server.UpdateDNSServer_of_ok (env : Env) (s : Server) (serial : Nat) (update : Update)
    (lmu umu : List muxUpdate) (lrec : GoMap SimpleRecord)
    (hctx : s.ctxDone = false) (hser : s.updateSerial ≤ serial)
    (hbl : buildLocalHandlerUpdate update.CustomZones = .ok (lmu, lrec))
    (hbu : buildUpstreamHandlerUpdate update.NameServerGroups = .ok umu)
    (hd : "" ∉ (lmu ++ umu).map (fun u => u.domain))
    (hst : ∀ k ∈ GoMap.keys s.dnsMuxMap, k = "" → k ∈ (lmu ++ umu).map (fun u => u.domain)) :
    ∃ s' calls, s.UpdateDNSServer env serial update = .returned s' none calls ∧
      s'.dnsMuxMap = targetMap (lmu ++ umu) ∧
      s'.localResolver.registeredMap =
        lrec.foldl (fun m e => GoMap.set m e.1 ()) ([] : registrationMap) ∧
      s'.updateSerial = serial ∧
      s'.listenerIsRunning =
        (s.applyServiceEnable env update.ServiceEnable).1.listenerIsRunning := by
  have hst' : "" ∉ staleKeys (s.applyServiceEnable env update.ServiceEnable).1
      (lmu ++ umu) := by
    rw [mem_staleKeys, (Server.applyServiceEnable_frame env s _).2.2.1]
    exact fun h => h.2 (hst _ h.1 rfl)
  unfold Server.UpdateDNSServer
  rw [if_neg (by simp [hctx]), if_neg (Nat.not_lt.2 hser)]
  simp only [hbl, hbu]
  rw [Server.updateMux_eq, if_neg (not_or.2 ⟨hd, hst'⟩)]
  refine ⟨_, _, rfl, ?_, ?_, rfl, ?_⟩
  · exact (Server.updateLocalResolver_frame env _ lrec).2.2.1
  · exact Server.updateLocalResolver_registeredMap env _ lrec
  · exact (Server.updateLocalResolver_frame env _ lrec).2.2.2.2

/-- The listener step on a listener that is already in the state asked for changes nothing,
whatever the collaborators would do. -/
theorem Server.applyServiceEnable_of_reached (env : Env) (t : Server) (b : Bool)
    (h : t.listenerIsRunning = b) :
    (t.applyServiceEnable env b).1.listenerIsRunning = t.listenerIsRunning := by
  obtain ⟨l, sh, r⟩ := env
  obtain ⟨b1, b2, b3, b4, b5, tr⟩ := t
  simp only at h
  subst h
  cases tr <;> simp [Server.applyServiceEnable, Server.stopListener, Server.Start]

/-- C9 as the code has it, a counterexample to the claim as stated: a first call during which
`ListenAndServe` fails at once returns nil and leaves the listener flag false (the failure is
only logged); the same call made immediately afterwards, with the listener now able to
start, returns nil too and leaves the flag true. -/
theorem UpdateDNSServer_second_call_starts_listener :
    ∃ s' calls s'' calls',
      NewServer.UpdateDNSServer Env.listenFailing 1 sampleUpdate1 = .returned s' none calls ∧
      s'.UpdateDNSServer Env.allSucceed 1 sampleUpdate1 = .returned s'' none calls' ∧
      s'.listenerIsRunning = false ∧ s''.listenerIsRunning = true :=
  ⟨_, _, _, _, rfl, rfl, rfl, rfl⟩

/-- C9, amended: when `UpdateDNSServer` succeeds, the same call made once more succeeds as
well and leaves the same registration set, the same tracked record names and the same
serial; it leaves the same listener flag whenever the first call left the listener in the
state the update asks for, or the listener behaves in the second call as it did in the
first. -/
theorem UpdateDNSServer_idempotent (env1 env2 : Env) (s s' : Server) (serial : Nat)
    (update : Update) (calls : List Call)
    (h : s.UpdateDNSServer env1 serial update = .returned s' none calls) :
    ∃ s'' calls', s'.UpdateDNSServer env2 serial update = .returned s'' none calls' ∧
      s''.dnsMuxMap = s'.dnsMuxMap ∧
      s''.localResolver.registeredMap = s'.localResolver.registeredMap ∧
      s''.updateSerial = s'.updateSerial ∧
      (s'.listenerIsRunning = update.ServiceEnable ∨
        (env2.listenFails = env1.listenFails ∧ env2.shutdownFails = env1.shutdownFails) →
        s''.listenerIsRunning = s'.listenerIsRunning) := by
  obtain ⟨hctx, -, lmu, lrec, umu, s1, calls1, hbl, hbu, hm, hs', -⟩ :=
    Server.UpdateDNSServer_nil env1 s s' serial update calls h
  rw [Server.updateMux_eq] at hm
  split_ifs at hm with hp
  simp only [MayPanic.ok.injEq, Prod.mk.injEq] at hm
  obtain ⟨hs1, -⟩ := hm
  obtain ⟨g1, -, g3, -, g5⟩ := Server.updateLocalResolver_frame env1 s1 lrec
  obtain ⟨f1, -, -, -, -⟩ := Server.applyServiceEnable_frame env1 s update.ServiceEnable
  -- the fields of the state the first call left
  have e1 : s'.ctxDone = false := by
    rw [hs']; show (s1.updateLocalResolver env1 lrec).1.ctxDone = false
    rw [g1, ← hs1]; exact f1.trans hctx
  have e2 : s'.updateSerial = serial := by rw [hs']
  have e3 : s'.dnsMuxMap = targetMap (lmu ++ umu) := by
    rw [hs']; show (s1.updateLocalResolver env1 lrec).1.dnsMuxMap = _
    rw [g3, ← hs1]
  have e4 : s'.listenerIsRunning =
      (s.applyServiceEnable env1 update.ServiceEnable).1.listenerIsRunning := by
    rw [hs']; show (s1.updateLocalResolver env1 lrec).1.listenerIsRunning = _
    rw [g5, ← hs1]
  have e5 : s'.localResolver.registeredMap =
      lrec.foldl (fun m e => GoMap.set m e.1 ()) ([] : registrationMap) := by
    rw [hs']
    exact Server.updateLocalResolver_registeredMap env1 s1 lrec
  -- the second call
  have hd : "" ∉ (lmu ++ umu).map (fun u => u.domain) := fun h => hp (Or.inl h)
  have hst : ∀ k ∈ GoMap.keys s'.dnsMuxMap, k = "" →
      k ∈ (lmu ++ umu).map (fun u => u.domain) := by
    intro k hk _
    rw [e3, mem_keys_targetMap] at hk
    exact hk
  obtain ⟨s'', calls', hcall, d1, d2, d3, d4⟩ :=
    Server.UpdateDNSServer_of_ok env2 s' serial update lmu umu lrec e1 (le_of_eq e2) hbl hbu
      hd hst
  refine ⟨s'', calls', hcall, d1.trans e3.symm, d2.trans e5.symm, d3.trans e2.symm, ?_⟩
  intro hcase
  rw [d4]
  rcases hcase with hreached | ⟨hl, hs⟩
  · exact Server.applyServiceEnable_of_reached env2 s' update.ServiceEnable hreached
  · exact Server.applyServiceEnable_listener_idem env1 env2 s s' update.ServiceEnable hl hs e4

/-- C9, amended, on the sample snapshots: the second one applied again to the state it
produced, during a call in which the listener could not be restarted; the listener, which
runs as the update asks, is left alone. -/
theorem UpdateDNSServer_idempotent_witness :
    sampleServer1.UpdateDNSServer Env.allSucceed 2 sampleUpdate2 =
      .returned sampleServer2 none sampleCalls2 ∧
    sampleServer2.listenerIsRunning = sampleUpdate2.ServiceEnable ∧
    ∃ s'' calls', sampleServer2.UpdateDNSServer Env.listenFailing 2 sampleUpdate2 =
        .returned s'' none calls' ∧
      s''.dnsMuxMap = sampleServer2.dnsMuxMap ∧
      s''.localResolver.registeredMap = sampleServer2.localResolver.registeredMap ∧
      s''.updateSerial = sampleServer2.updateSerial ∧
      s''.listenerIsRunning = sampleServer2.listenerIsRunning :=
  ⟨by decide, by decide,
    (UpdateDNSServer_idempotent Env.allSucceed Env.listenFailing sampleServer1 sampleServer2 2
      sampleUpdate2 sampleCalls2 (by decide)).imp fun _ hx => hx.imp fun _ hy =>
        ⟨hy.1, hy.2.1, hy.2.2.1, hy.2.2.2.1, hy.2.2.2.2 (Or.inl (by decide))⟩⟩

end Wiretrustee
namespace Wiretrustee

/-! ## Groups without a usable nameserver -/

theorem buildUpstreamHandlerUpdate.loop_append (pre post : List NameServerGroup)
    (mu : List muxUpdate) :
    buildUpstreamHandlerUpdate.loop (pre ++ post) mu =
      match buildUpstreamHandlerUpdate.loop pre mu with
      | .error e => .error e
      | .ok r => buildUpstreamHandlerUpdate.loop post r := by
  induction pre generalizing mu with
  | nil => simp [buildUpstreamHandlerUpdate.loop]
  | cons p pre ih =>
    simp only [List.cons_append, buildUpstreamHandlerUpdate.loop_cons]
    cases p.updates with
    | error e => rfl
    | ok us => exact ih _

theorem NameServerGroup.updates_of_no_udp (g : NameServerGroup) (hne : g.NameServers ≠ [])
    (hnu : ∀ ns ∈ g.NameServers, ns.NSType ≠ UDPNameServerType) : g.updates = .ok [] := by
  have h : g.hasUDP = false := by
    simp only [NameServerGroup.hasUDP, List.any_eq_false, NameServer.usable,
      decide_eq_true_eq]
    exact hnu
  simp [NameServerGroup.updates, hne, h]

/-- C10 as the code has it, a counterexample to the claim as stated: a group whose nameserver
list is empty has no usable nameserver, yet it makes `buildUpstreamHandlerUpdate` return an
error, and with it `UpdateDNSServer`, where the same update without the group is accepted. -/
theorem buildUpstreamHandlerUpdate_empty_list_rejected :
    emptyListGroup.NameServers = [] ∧ emptyListGroup.hasUDP = false ∧
    buildUpstreamHandlerUpdate [emptyListGroup] =
      .error (Error.errorf "received a nameserver group with empty nameserver list") ∧
    buildUpstreamHandlerUpdate [] = .ok [] ∧
    (NewServer.UpdateDNSServer Env.allSucceed 1
      { ServiceEnable := true, CustomZones := [],
        NameServerGroups := [emptyListGroup] }).isErr = true ∧
    (NewServer.UpdateDNSServer Env.allSucceed 1
      { ServiceEnable := true, CustomZones := [], NameServerGroups := [] }).isNil = true :=
  ⟨rfl, rfl, rfl, rfl, by decide, by decide⟩

/-- C10, amended: a group whose nameserver list is not empty and holds no nameserver of UDP
type is dropped, in that the build step and the whole update give what they give without the
group; a group whose nameserver list is empty makes the build step return an error as soon as
the groups before it have passed. -/
theorem buildUpstreamHandlerUpdate_drops_unusable (pre post : List NameServerGroup)
    (g : NameServerGroup) :
    (g.NameServers ≠ [] → (∀ ns ∈ g.NameServers, ns.NSType ≠ UDPNameServerType) →
      buildUpstreamHandlerUpdate (pre ++ g :: post) = buildUpstreamHandlerUpdate (pre ++ post) ∧
      ∀ (env : Env) (s : Server) (serial : Nat) (enable : Bool) (zones : List CustomZone),
        s.UpdateDNSServer env serial
            { ServiceEnable := enable, CustomZones := zones,
              NameServerGroups := pre ++ g :: post } =
          s.UpdateDNSServer env serial
            { ServiceEnable := enable, CustomZones := zones,
              NameServerGroups := pre ++ post }) ∧
    (g.NameServers = [] → (∃ r, buildUpstreamHandlerUpdate pre = .ok r) →
      buildUpstreamHandlerUpdate (pre ++ g :: post) =
        .error (Error.errorf "received a nameserver group with empty nameserver list")) := by
  constructor
  · intro hne hnu
    have hb : buildUpstreamHandlerUpdate (pre ++ g :: post) =
        buildUpstreamHandlerUpdate (pre ++ post) :=
      buildUpstreamHandlerUpdate.loop_drop pre post g [] (g.updates_of_no_udp hne hnu)
    refine ⟨hb, ?_⟩
    intro env s serial enable zones
    unfold Server.UpdateDNSServer
    simp only [hb]
  · rintro hempty ⟨r, hr⟩
    unfold buildUpstreamHandlerUpdate at hr ⊢
    rw [buildUpstreamHandlerUpdate.loop_append, hr]
    simp [buildUpstreamHandlerUpdate.loop, hempty]

/-- C10, amended, on the sample groups: the group with a type-2 nameserver only is dropped
from between two others, and an empty nameserver list after a passing group is an error. -/
theorem buildUpstreamHandlerUpdate_drops_unusable_witness :
    buildUpstreamHandlerUpdate
        ([{ NameServers := [{ IP := "8.8.8.8", NSType := 1, Port := 53 }], Primary := true,
            Domains := [] }] ++ noUDPGroup :: []) =
      buildUpstreamHandlerUpdate
        ([{ NameServers := [{ IP := "8.8.8.8", NSType := 1, Port := 53 }], Primary := true,
            Domains := [] }] ++ []) ∧
    buildUpstreamHandlerUpdate ([noUDPGroup] ++ emptyListGroup :: []) =
      .error (Error.errorf "received a nameserver group with empty nameserver list") :=
  ⟨((buildUpstreamHandlerUpdate_drops_unusable _ [] noUDPGroup).1 (by decide)
      (by decide)).1,
    (buildUpstreamHandlerUpdate_drops_unusable [noUDPGroup] [] emptyListGroup).2 rfl
      ⟨_, rfl⟩⟩

end Wiretrustee
namespace Wiretrustee

/-! ## The peer diff -/

theorem updateNetworkMap.addOrModify_keys (env : EngineEnv) (ps : List RemotePeerConfig)
    (m : GoMap PeerConn) (c : List EngineCall) (k : String) :
    k ∈ GoMap.keys (updateNetworkMap.addOrModify env ps m c).1 ↔
      k ∈ GoMap.keys m ∨
        (k ∈ ps.map (fun p => p.WgPubKey) ∧ env.createFails k = false) := by
  induction ps generalizing m c with
  | nil => simp [updateNetworkMap.addOrModify]
  | cons p rest ih =>
    unfold updateNetworkMap.addOrModify
    cases hg : GoMap.get? m p.WgPubKey with
    | none =>
      have hnot : p.WgPubKey ∉ GoMap.keys m := (GoMap.get?_eq_none_iff m _).1 hg
      by_cases hf : env.createFails p.WgPubKey = true
      · simp only [hf, if_true, ih, List.map_cons, List.mem_cons]
        constructor
        · rintro (h | ⟨h1, h2⟩)
          · exact Or.inl h
          · exact Or.inr ⟨Or.inr h1, h2⟩
        · rintro (h | ⟨h1 | h1, h2⟩)
          · exact Or.inl h
          · rw [h1, hf] at h2; cases h2
          · exact Or.inr ⟨h1, h2⟩
      · have hf' : env.createFails p.WgPubKey = false := by simpa using hf
        simp only [hf', Bool.false_eq_true, if_false, ih, GoMap.mem_keys_set, List.map_cons,
          List.mem_cons]
        constructor
        · rintro ((h | h) | ⟨h1, h2⟩)
          · exact Or.inr ⟨Or.inl h, by rw [h]; exact hf'⟩
          · exact Or.inl h
          · exact Or.inr ⟨Or.inr h1, h2⟩
        · rintro (h | ⟨h1 | h1, h2⟩)
          · exact Or.inl (Or.inr h)
          · exact Or.inl (Or.inl h1)
          · exact Or.inr ⟨h1, h2⟩
    | some conn =>
      have hmem : p.WgPubKey ∈ GoMap.keys m := by
        rw [← GoMap.get?_isSome_iff, hg]; rfl
      have hset : ∀ v, k ∈ GoMap.keys (GoMap.set m p.WgPubKey v) ↔ k ∈ GoMap.keys m := by
        intro v
        rw [GoMap.mem_keys_set]
        constructor
        · rintro (h | h)
          · rw [h]; exact hmem
          · exact h
        · exact Or.inr
      have hgoal : (k ∈ GoMap.keys m ∨ k ∈ rest.map (fun p => p.WgPubKey) ∧
            env.createFails k = false) ↔
          (k ∈ GoMap.keys m ∨ k ∈ (p :: rest).map (fun p => p.WgPubKey) ∧
            env.createFails k = false) := by
        simp only [List.map_cons, List.mem_cons]
        constructor
        · rintro (h | ⟨h1, h2⟩)
          · exact Or.inl h
          · exact Or.inr ⟨Or.inr h1, h2⟩
        · rintro (h | ⟨h1 | h1, h2⟩)
          · exact Or.inl h
          · rw [h1]; exact Or.inl hmem
          · exact Or.inr ⟨h1, h2⟩
      by_cases hc : conn.AllowedIps = p.allowedIps
      · simp only [hc, if_true, ih]
        exact hgoal
      · simp only [hc, if_false, ih, hset]
        exact hgoal

theorem updateNetworkMap.remove_keys (desired L : List String) (m : GoMap PeerConn)
    (srv : Option SSHServer) (c : List EngineCall) (k : String) :
    k ∈ GoMap.keys (updateNetworkMap.remove desired L m srv c).1 ↔
      k ∈ GoMap.keys m ∧ (k ∈ desired ∨ k ∉ L) := by
  induction L generalizing m srv c with
  | nil => simp [updateNetworkMap.remove]
  | cons key rest ih =>
    unfold updateNetworkMap.remove
    by_cases hk : key ∈ desired
    · simp only [hk, if_true, ih, List.mem_cons, not_or]
      constructor
      · rintro ⟨h1, h2 | h2⟩
        · exact ⟨h1, Or.inl h2⟩
        · by_cases hkk : k = key
          · exact ⟨h1, Or.inl (hkk ▸ hk)⟩
          · exact ⟨h1, Or.inr ⟨hkk, h2⟩⟩
      · rintro ⟨h1, h2 | ⟨_, h2⟩⟩
        · exact ⟨h1, Or.inl h2⟩
        · exact ⟨h1, Or.inr h2⟩
    · simp only [hk, if_false, ih, GoMap.mem_keys_delete, List.mem_cons, not_or]
      constructor
      · rintro ⟨⟨h0, h1⟩, h2 | h2⟩
        · exact ⟨h1, Or.inl h2⟩
        · exact ⟨h1, Or.inr ⟨h0, h2⟩⟩
      · rintro ⟨h1, h2 | ⟨h0, h2⟩⟩
        · exact ⟨⟨fun h => hk (h ▸ h2), h1⟩, Or.inl h2⟩
        · exact ⟨⟨h0, h1⟩, Or.inr h2⟩

/-- The peer keys an accepted network map leaves connected: those of its descriptors that
were connected already or whose connection could be created. -/
theorem Engine.updateNetworkMap_keys (env : EngineEnv) (e : Engine) (networkMap : NetworkMap)
    (hctx : e.ctxDone = false) (hser : e.networkSerial ≤ networkMap.Serial) (k : String) :
    k ∈ GoMap.keys (e.updateNetworkMap env networkMap).1.peerConns ↔
      k ∈ networkMap.RemotePeers.map (fun p => p.WgPubKey) ∧
        (k ∈ GoMap.keys e.peerConns ∨ env.createFails k = false) := by
  unfold Engine.updateNetworkMap
  rw [if_neg (by simp [hctx]), if_neg (Nat.not_lt.2 hser)]
  dsimp only
  rw [updateNetworkMap.remove_keys, updateNetworkMap.addOrModify_keys]
  constructor
  · rintro ⟨h1 | ⟨h1, h2⟩, h3 | h3⟩
    · exact ⟨h3, Or.inl h1⟩
    · exact absurd (Or.inl h1) h3
    · exact ⟨h3, Or.inr h2⟩
    · exact ⟨h1, Or.inr h2⟩
  · rintro ⟨h1, h2 | h2⟩
    · exact ⟨Or.inl h2, Or.inl h1⟩
    · exact ⟨Or.inr ⟨h1, h2⟩, Or.inl h1⟩

end Wiretrustee
namespace Wiretrustee

theorem GoMap.nodup_keys_delete {β : Type} (m : GoMap β) (k : String)
    (h : (GoMap.keys m).Nodup) : (GoMap.keys (m.delete k)).Nodup := by
  unfold GoMap.keys GoMap.delete
  exact List.Nodup.sublist (List.Sublist.map _ (List.filter_sublist m)) h

theorem updateNetworkMap.addOrModify_nodup (env : EngineEnv) (ps : List RemotePeerConfig)
    (m : GoMap PeerConn) (c : List EngineCall) (h : (GoMap.keys m).Nodup) :
    (GoMap.keys (updateNetworkMap.addOrModify env ps m c).1).Nodup := by
  induction ps generalizing m c with
  | nil => simpa [updateNetworkMap.addOrModify] using h
  | cons p rest ih =>
    unfold updateNetworkMap.addOrModify
    cases GoMap.get? m p.WgPubKey with
    | none =>
      by_cases hf : env.createFails p.WgPubKey = true
      · simp only [hf, if_true]
        exact ih _ _ h
      · simp only [hf, if_false]
        exact ih _ _ (GoMap.nodup_keys_set m _ _ h)
    | some conn =>
      by_cases hc : conn.AllowedIps = p.allowedIps
      · simp only [hc, if_true]
        exact ih _ _ h
      · simp only [hc, if_false]
        exact ih _ _ (GoMap.nodup_keys_set m _ _ h)

theorem updateNetworkMap.remove_nodup (desired L : List String) (m : GoMap PeerConn)
    (srv : Option SSHServer) (c : List EngineCall) (h : (GoMap.keys m).Nodup) :
    (GoMap.keys (updateNetworkMap.remove desired L m srv c).1).Nodup := by
  induction L generalizing m srv c with
  | nil => simpa [updateNetworkMap.remove] using h
  | cons key rest ih =>
    unfold updateNetworkMap.remove
    by_cases hk : key ∈ desired
    · simp only [hk, if_true]
      exact ih _ _ _ h
    · simp only [hk, if_false]
      exact ih _ _ _ (GoMap.nodup_keys_delete m key h)

theorem Engine.updateNetworkMap_ctx_of_nil (env : EngineEnv) (e : Engine)
    (networkMap : NetworkMap) (hok : (e.updateNetworkMap env networkMap).2.1 = none) :
    e.ctxDone = false := by
  cases hc : e.ctxDone with
  | false => rfl
  | true => simp [Engine.updateNetworkMap, hc] at hok

/-! ## Exact reconciliation of the peer set -/

/-- C6 as the reconciler has it, a counterexample to the claim as stated: with `peer1`
connected under serial 1, the second map of the test is applied while the creation of the
connection to `peer2` fails. The call succeeds and the serial advances to 2, yet `peer2`,
a key of the map, is not among the connections. -/
theorem updateNetworkMap_exact_fails_on_create_failure :
    ((TestEngine_UpdateNetworkMap.engineBefore EngineEnv.allSucceed 1).updateNetworkMap
      (EngineEnv.createFailsFor TestEngine_UpdateNetworkMap.peer2.WgPubKey)
      TestEngine_UpdateNetworkMap.case2.networkMap).2.1 = none ∧
    (TestEngine_UpdateNetworkMap.engineBefore EngineEnv.allSucceed 1).networkSerial ≤
      TestEngine_UpdateNetworkMap.case2.networkMap.Serial ∧
    ((TestEngine_UpdateNetworkMap.engineBefore EngineEnv.allSucceed 1).updateNetworkMap
      (EngineEnv.createFailsFor TestEngine_UpdateNetworkMap.peer2.WgPubKey)
      TestEngine_UpdateNetworkMap.case2.networkMap).1.networkSerial = 2 ∧
    TestEngine_UpdateNetworkMap.peer2.WgPubKey ∈
      TestEngine_UpdateNetworkMap.case2.networkMap.RemotePeers.map (fun p => p.WgPubKey) ∧
    TestEngine_UpdateNetworkMap.peer2.WgPubKey ∉ GoMap.keys
      ((TestEngine_UpdateNetworkMap.engineBefore EngineEnv.allSucceed 1).updateNetworkMap
        (EngineEnv.createFailsFor TestEngine_UpdateNetworkMap.peer2.WgPubKey)
        TestEngine_UpdateNetworkMap.case2.networkMap).1.peerConns := by
  decide

/-- C6, amended: after a successful `updateNetworkMap` of a map whose serial is not below
the engine's, in which no creation of a connection failed, the keys of the peer-connection
map are exactly the `WgPubKey` values of `RemotePeers`, each once if they were so before (so
the map is empty when `RemotePeers` is, whatever `RemotePeersIsEmpty` says), and
`networkSerial` is the serial of the map. -/
theorem updateNetworkMap_peers_exact (env : EngineEnv) (e : Engine) (networkMap : NetworkMap)
    (hok : (e.updateNetworkMap env networkMap).2.1 = none)
    (hser : e.networkSerial ≤ networkMap.Serial)
    (hcreate : ∀ p ∈ networkMap.RemotePeers, p.WgPubKey ∉ GoMap.keys e.peerConns →
      env.createFails p.WgPubKey = false) :
    (∀ k, k ∈ GoMap.keys (e.updateNetworkMap env networkMap).1.peerConns ↔
      k ∈ networkMap.RemotePeers.map (fun p => p.WgPubKey)) ∧
    (networkMap.RemotePeers = [] → (e.updateNetworkMap env networkMap).1.peerConns = []) ∧
    ((GoMap.keys e.peerConns).Nodup →
      (GoMap.keys (e.updateNetworkMap env networkMap).1.peerConns).Nodup) ∧
    (e.updateNetworkMap env networkMap).1.networkSerial = networkMap.Serial := by
  have hctx := Engine.updateNetworkMap_ctx_of_nil env e networkMap hok
  have hkeys : ∀ k, k ∈ GoMap.keys (e.updateNetworkMap env networkMap).1.peerConns ↔
      k ∈ networkMap.RemotePeers.map (fun p => p.WgPubKey) := by
    intro k
    rw [Engine.updateNetworkMap_keys env e networkMap hctx hser]
    constructor
    · exact fun h => h.1
    · intro h
      refine ⟨h, ?_⟩
      by_cases hk : k ∈ GoMap.keys e.peerConns
      · exact Or.inl hk
      · obtain ⟨p, hp, rfl⟩ := List.mem_map.1 h
        exact Or.inr (hcreate p hp hk)
  refine ⟨hkeys, ?_, ?_, ?_⟩
  · intro hempty
    have hnone : ∀ k, k ∉ GoMap.keys (e.updateNetworkMap env networkMap).1.peerConns := by
      intro k hk
      have := (hkeys k).1 hk
      rw [hempty] at this
      simp at this
    cases hm : (e.updateNetworkMap env networkMap).1.peerConns with
    | nil => rfl
    | cons x rest =>
      exact absurd (by rw [hm]; simp [GoMap.keys]) (hnone x.1)
  · intro hnd
    unfold Engine.updateNetworkMap
    rw [if_neg (by simp [hctx]), if_neg (Nat.not_lt.2 hser)]
    exact updateNetworkMap.remove_nodup _ _ _ _ _
      (updateNetworkMap.addOrModify_nodup env _ _ _ hnd)
  · unfold Engine.updateNetworkMap
    rw [if_neg (by simp [hctx]), if_neg (Nat.not_lt.2 hser)]

/-- C6, amended, on the fourth case of the test: `peer1` leaves and `peer3` joins. -/
theorem updateNetworkMap_peers_exact_witness :
    (∀ k, k ∈ GoMap.keys
        ((TestEngine_UpdateNetworkMap.engineBefore EngineEnv.allSucceed 3).updateNetworkMap
          EngineEnv.allSucceed TestEngine_UpdateNetworkMap.case4.networkMap).1.peerConns ↔
      k ∈ TestEngine_UpdateNetworkMap.case4.networkMap.RemotePeers.map
        (fun p => p.WgPubKey)) ∧
    ((TestEngine_UpdateNetworkMap.engineBefore EngineEnv.allSucceed 3).updateNetworkMap
      EngineEnv.allSucceed TestEngine_UpdateNetworkMap.case4.networkMap).1.networkSerial =
        TestEngine_UpdateNetworkMap.case4.networkMap.Serial :=
  have h := updateNetworkMap_peers_exact EngineEnv.allSucceed
    (TestEngine_UpdateNetworkMap.engineBefore EngineEnv.allSucceed 3)
    TestEngine_UpdateNetworkMap.case4.networkMap (by decide) (by decide) (fun _ _ _ => rfl)
  ⟨h.1, h.2.2.2⟩

end Wiretrustee
namespace Wiretrustee

/-! ## Stale network maps -/

/-- The reconciler passes `TestEngine_UpdateNetworkMap` when its collaborators succeed. -/
theorem TestEngine_UpdateNetworkMap_passes :
    TestEngine_UpdateNetworkMap
      (fun e m => ((e.updateNetworkMap EngineEnv.allSucceed m).1,
        (e.updateNetworkMap EngineEnv.allSucceed m).2.1)) = true := by
  decide

/-- What `TestEngine_UpdateNetworkMap` demands of any reconciler at its third case: the map
of serial 0 arrives when the serial is 2, and the call must return nil and leave two peers
and serial 2. -/
theorem TestEngine_UpdateNetworkMap_stale_nil
    (upd : Engine → NetworkMap → Engine × Option Error)
    (h : TestEngine_UpdateNetworkMap upd = true) :
    TestEngine_UpdateNetworkMap.case3.networkMap.Serial <
      (upd (upd NewEngine TestEngine_UpdateNetworkMap.case1.networkMap).1
        TestEngine_UpdateNetworkMap.case2.networkMap).1.networkSerial ∧
    (upd (upd (upd NewEngine TestEngine_UpdateNetworkMap.case1.networkMap).1
        TestEngine_UpdateNetworkMap.case2.networkMap).1
      TestEngine_UpdateNetworkMap.case3.networkMap).2 = none ∧
    (upd (upd (upd NewEngine TestEngine_UpdateNetworkMap.case1.networkMap).1
        TestEngine_UpdateNetworkMap.case2.networkMap).1
      TestEngine_UpdateNetworkMap.case3.networkMap).1.networkSerial = 2 := by
  simp only [TestEngine_UpdateNetworkMap, TestEngine_UpdateNetworkMap.run,
    TestEngine_UpdateNetworkMap.check, Bool.and_eq_true, decide_eq_true_eq,
    Option.isNone_iff_eq_none] at h
  obtain ⟨-, ⟨⟨⟨-, -⟩, hs2⟩, -⟩, ⟨⟨⟨he3, -⟩, hs3⟩, -⟩, -⟩ := h
  refine ⟨?_, he3, hs3⟩
  rw [hs2]
  decide

/-- C7: a network map whose serial is below the engine's leaves the engine as it was: the
peer-connection map, with every key and every connection's allowed IPs, and `networkSerial`;
no collaborator is called. -/
theorem updateNetworkMap_stale_unchanged (env : EngineEnv) (e : Engine)
    (networkMap : NetworkMap) (hlt : networkMap.Serial < e.networkSerial) :
    (e.updateNetworkMap env networkMap).1.peerConns = e.peerConns ∧
    (e.updateNetworkMap env networkMap).1.networkSerial = e.networkSerial ∧
    (e.updateNetworkMap env networkMap).1 = e ∧
    (e.updateNetworkMap env networkMap).2.2 = [] := by
  unfold Engine.updateNetworkMap
  by_cases hc : e.ctxDone = true
  · simp [hc]
  · simp [hc, hlt]

/-- C7, on the third case of the test: after serial 2 with `peer1` and `peer2`, the map of
serial 0 with three peers leaves two peers and serial 2. -/
theorem updateNetworkMap_stale_unchanged_witness :
    ((TestEngine_UpdateNetworkMap.engineBefore EngineEnv.allSucceed 2).updateNetworkMap
      EngineEnv.allSucceed TestEngine_UpdateNetworkMap.case3.networkMap).1.peerConns =
      [(TestEngine_UpdateNetworkMap.peer1.WgPubKey, { AllowedIps := "100.64.0.10/24" }),
       (TestEngine_UpdateNetworkMap.peer2.WgPubKey, { AllowedIps := "100.64.0.11/24" })] ∧
    ((TestEngine_UpdateNetworkMap.engineBefore EngineEnv.allSucceed 2).updateNetworkMap
      EngineEnv.allSucceed TestEngine_UpdateNetworkMap.case3.networkMap).1.networkSerial = 2 :=
  have h := updateNetworkMap_stale_unchanged EngineEnv.allSucceed
    (TestEngine_UpdateNetworkMap.engineBefore EngineEnv.allSucceed 2)
    TestEngine_UpdateNetworkMap.case3.networkMap (by decide)
  ⟨h.1.trans (by decide), h.2.1.trans (by decide)⟩

/-- C8 as the reconciler has it, a counterexample to the claim as stated: at the third case
of the test the map has serial 0, the engine serial 2, and the call returns nil, not an
error. -/
theorem updateNetworkMap_stale_returns_nil_at_case3 :
    TestEngine_UpdateNetworkMap.case3.networkMap.Serial <
      (TestEngine_UpdateNetworkMap.engineBefore EngineEnv.allSucceed 2).networkSerial ∧
    ((TestEngine_UpdateNetworkMap.engineBefore EngineEnv.allSucceed 2).updateNetworkMap
      EngineEnv.allSucceed TestEngine_UpdateNetworkMap.case3.networkMap).2.1 = none := by
  decide

/-- C8, amended: on an engine whose context is live, a network map whose serial is below the
engine's is ignored: the call returns nil, surfaces no failure to the caller, calls no
collaborator and changes nothing. -/
theorem updateNetworkMap_stale_ignored (env : EngineEnv) (e : Engine)
    (networkMap : NetworkMap) (hctx : e.ctxDone = false)
    (hlt : networkMap.Serial < e.networkSerial) :
    e.updateNetworkMap env networkMap = (e, none, []) := by
  unfold Engine.updateNetworkMap
  simp [hctx, hlt]

/-- C8, amended, on a stale map that differs from the test's: serial 1 when the engine has
reached serial 5. -/
theorem updateNetworkMap_stale_ignored_witness :
    (TestEngine_UpdateNetworkMap.engineBefore EngineEnv.allSucceed 6).updateNetworkMap
        EngineEnv.allSucceed TestEngine_UpdateNetworkMap.case1.networkMap =
      (TestEngine_UpdateNetworkMap.engineBefore EngineEnv.allSucceed 6, none, []) :=
  updateNetworkMap_stale_ignored EngineEnv.allSucceed
    (TestEngine_UpdateNetworkMap.engineBefore EngineEnv.allSucceed 6)
    TestEngine_UpdateNetworkMap.case1.networkMap (by decide) (by decide)

end Wiretrustee
namespace Wiretrustee

/-! ## Lookups after a run of assignments -/

theorem lastWith_cons {α : Type} (f : α → String) (a : α) (rest : List α) (k : String) :
    lastWith f (a :: rest) k =
      match lastWith f rest k with
      | some b => some b
      | none => if f a = k then some a else none := rfl

theorem lastWith_eq_none_iff {α : Type} (f : α → String) (l : List α) (k : String) :
    lastWith f l k = none ↔ k ∉ l.map f := by
  induction l with
  | nil => simp [lastWith]
  | cons a rest ih =>
    unfold lastWith
    cases h : lastWith f rest k with
    | some b =>
      have : k ∈ rest.map f := by
        by_contra hk
        rw [ih.2 hk] at h
        cases h
      simp [this]
    | none =>
      have hk : k ∉ rest.map f := ih.1 h
      by_cases ha : f a = k
      · simp [ha]
      · have ha' : ¬ k = f a := fun h => ha h.symm
        simpa [ha, ha'] using hk

theorem lastWith_some_key {α : Type} (f : α → String) (l : List α) (k : String) (a : α)
    (h : lastWith f l k = some a) : a ∈ l ∧ f a = k := by
  induction l with
  | nil => simp [lastWith] at h
  | cons b rest ih =>
    unfold lastWith at h
    cases hr : lastWith f rest k with
    | some c =>
      rw [hr] at h
      simp only [Option.some.injEq] at h
      subst h
      exact ⟨List.mem_cons_of_mem _ (ih hr).1, (ih hr).2⟩
    | none =>
      rw [hr] at h
      by_cases hb : f b = k
      · simp only [hb, if_true, Option.some.injEq] at h
        subst h
        exact ⟨List.mem_cons_self _ _, hb⟩
      · simp [hb] at h

theorem lastWith_of_nodup {α : Type} (f : α → String) (l : List α) (h : (l.map f).Nodup)
    (a : α) (ha : a ∈ l) : lastWith f l (f a) = some a := by
  induction l with
  | nil => simp at ha
  | cons b rest ih =>
    rw [List.map_cons, List.nodup_cons] at h
    unfold lastWith
    rcases List.mem_cons.1 ha with hab | hab
    · subst hab
      have : lastWith f rest (f a) = none := (lastWith_eq_none_iff f rest (f a)).2 h.1
      simp [this]
    · rw [ih h.2 hab]

theorem GoMap.get?_foldl_set {α β : Type} (f : α → String) (g : α → β) (l : List α)
    (m : GoMap β) (k : String) :
    GoMap.get? (l.foldl (fun m a => GoMap.set m (f a) (g a)) m) k =
      match lastWith f l k with
      | some a => some (g a)
      | none => GoMap.get? m k := by
  induction l generalizing m with
  | nil => simp [lastWith]
  | cons a rest ih =>
    rw [List.foldl_cons, ih, lastWith_cons]
    cases lastWith f rest k with
    | some b => rfl
    | none =>
      by_cases ha : f a = k
      · subst ha
        simp [GoMap.get?_set_self]
      · have ha' : k ≠ f a := fun h => ha h.symm
        simp [ha, GoMap.get?_set_of_ne _ _ _ _ ha']

theorem GoMap.get?_delete_of_ne {β : Type} (m : GoMap β) (k x : String) (hx : x ≠ k) :
    GoMap.get? (m.delete k) x = GoMap.get? m x := by
  induction m with
  | nil => simp [GoMap.delete, GoMap.get?]
  | cons e m ih =>
    obtain ⟨k', v⟩ := e
    unfold GoMap.delete at ih ⊢
    by_cases h : k' = k
    · subst h
      have hne : ¬ k' = x := fun h => hx h.symm
      have hf : List.filter (fun e : String × β => decide (e.1 ≠ k')) ((k', v) :: m) =
          List.filter (fun e : String × β => decide (e.1 ≠ k')) m := by
        simp [List.filter_cons]
      rw [hf, ih]
      simp [GoMap.get?, hne]
    · have hf : List.filter (fun e : String × β => decide (e.1 ≠ k)) ((k', v) :: m) =
          (k', v) :: List.filter (fun e : String × β => decide (e.1 ≠ k)) m := by
        simp [List.filter_cons, h]
      rw [hf]
      by_cases h2 : k' = x
      · simp [GoMap.get?, h2]
      · simp only [GoMap.get?, h2, if_false]
        exact ih

theorem GoMap.get?_foldl_delete {β : Type} (ks : List String) (m : GoMap β) (x : String)
    (hx : x ∉ ks) :
    GoMap.get? (ks.foldl (fun t k => GoMap.delete t k) m) x = GoMap.get? m x := by
  induction ks generalizing m with
  | nil => rfl
  | cons k rest ih =>
    have h1 : x ∉ rest := fun h => hx (List.mem_cons_of_mem _ h)
    have h2 : x ≠ k := fun h => hx (by rw [h]; exact List.mem_cons_self _ _)
    rw [List.foldl_cons, ih _ h1, GoMap.get?_delete_of_ne _ _ _ h2]

end Wiretrustee
namespace Wiretrustee

/-! ## Malformed nameserver groups -/

theorem buildUpstreamHandlerUpdate.loop_error_of_mem (gs : List NameServerGroup)
    (mu : List muxUpdate) (h : ∃ g ∈ gs, ∃ e, g.updates = .error e) :
    ∃ e, buildUpstreamHandlerUpdate.loop gs mu = .error e := by
  induction gs generalizing mu with
  | nil => simp at h
  | cons g rest ih =>
    rw [buildUpstreamHandlerUpdate.loop_cons]
    cases hg : g.updates with
    | error e => exact ⟨e, rfl⟩
    | ok us =>
      obtain ⟨g', hg', e, he⟩ := h
      rcases List.mem_cons.1 hg' with h1 | h1
      · subst h1
        rw [hg] at he
        cases he
      · exact ih (mu ++ us) ⟨g', h1, e, he⟩

/-- What a call does when a build step fails: nothing if the context is cancelled or the
serial is stale, and the listener step alone otherwise. -/
theorem Server.UpdateDNSServer_of_build_error (env : Env) (s : Server) (serial : Nat)
    (update : Update)
    (hfail : (∃ e, buildLocalHandlerUpdate update.CustomZones = .error e) ∨
      (∃ e, buildUpstreamHandlerUpdate update.NameServerGroups = .error e)) :
    (s.ctxDone = true ∨ serial < s.updateSerial →
      ∃ e, s.UpdateDNSServer env serial update = .returned s (some e) []) ∧
    (s.ctxDone = false → s.updateSerial ≤ serial →
      ∃ e, s.UpdateDNSServer env serial update =
        .returned (s.applyServiceEnable env update.ServiceEnable).1 (some e)
          (s.applyServiceEnable env update.ServiceEnable).2) := by
  constructor
  · intro h
    unfold Server.UpdateDNSServer
    by_cases h1 : s.ctxDone = true
    · rw [if_pos h1]
      exact ⟨_, rfl⟩
    · rw [if_neg h1]
      rcases h with h | h
      · exact absurd h h1
      · rw [if_pos h]
        exact ⟨_, rfl⟩
  · intro h1 h2
    unfold Server.UpdateDNSServer
    rw [if_neg (by simp [h1]), if_neg (Nat.not_lt.2 h2)]
    dsimp only
    cases hl : buildLocalHandlerUpdate update.CustomZones with
    | error e => exact ⟨_, rfl⟩
    | ok lr =>
      obtain ⟨lmu, lrec⟩ := lr
      dsimp only
      cases hu : buildUpstreamHandlerUpdate update.NameServerGroups with
      | error e => exact ⟨_, rfl⟩
      | ok umu =>
        rcases hfail with ⟨e, he⟩ | ⟨e, he⟩
        · rw [hl] at he; cases he
        · rw [hu] at he; cases he

theorem Server.UpdateDNSServer_rejected_of_build_error (env : Env) (s : Server)
    (serial : Nat) (update : Update)
    (hfail : (∃ e, buildLocalHandlerUpdate update.CustomZones = .error e) ∨
      (∃ e, buildUpstreamHandlerUpdate update.NameServerGroups = .error e)) :
    ∃ s' e calls, s.UpdateDNSServer env serial update = .returned s' (some e) calls ∧
      s'.updateSerial = s.updateSerial ∧ s'.dnsMuxMap = s.dnsMuxMap ∧
      s'.localResolver = s.localResolver := by
  obtain ⟨h1, h2⟩ := Server.UpdateDNSServer_of_build_error env s serial update hfail
  obtain ⟨-, -, f3, f4, f5⟩ := Server.applyServiceEnable_frame env s update.ServiceEnable
  by_cases hc : s.ctxDone = true
  · obtain ⟨e, he⟩ := h1 (Or.inl hc)
    exact ⟨s, e, [], he, rfl, rfl, rfl⟩
  · by_cases hs : serial < s.updateSerial
    · obtain ⟨e, he⟩ := h1 (Or.inr hs)
      exact ⟨s, e, [], he, rfl, rfl, rfl⟩
    · obtain ⟨e, he⟩ := h2 (by simpa using hc) (Nat.le_of_not_lt hs)
      exact ⟨_, e, _, he, f5, f3, f4⟩

/-- C11 as the code has it, a counterexample to the claim as stated: a non-primary group with
an empty domain list whose one nameserver is not of UDP type is dropped before its domains are
looked at; the update is accepted on a new server and the serial advances from 0 to 1. -/
theorem UpdateDNSServer_accepts_dropped_group_without_domains :
    noUDPNoDomainsGroup ∈ noUDPNoDomainsUpdate.NameServerGroups ∧
    noUDPNoDomainsGroup.Primary = false ∧ noUDPNoDomainsGroup.Domains = [] ∧
    NewServer.updateSerial = 0 ∧
    NewServer.UpdateDNSServer Env.allSucceed 1 noUDPNoDomainsUpdate =
      .returned { NewServer with updateSerial := 1, listenerIsRunning := true } none
        [Call.listenAndServe] := by
  decide

/-- C11, amended: an update in which some non-primary group with an empty domain list has a
UDP nameserver, or no nameserver at all, is rejected with an error whatever the state of the
server, and the serial stays where it was. -/
theorem UpdateDNSServer_rejects_empty_domain_list (env : Env) (s : Server) (serial : Nat)
    (update : Update)
    (h : ∃ g ∈ update.NameServerGroups, g.Primary = false ∧ g.Domains = [] ∧
      (g.NameServers = [] ∨ g.hasUDP = true)) :
    ∃ s' e calls, s.UpdateDNSServer env serial update = .returned s' (some e) calls ∧
      s'.updateSerial = s.updateSerial := by
  obtain ⟨g, hg, hp, hd, hn⟩ := h
  have herr : ∃ e, g.updates = .error e := by
    unfold NameServerGroup.updates
    by_cases h1 : g.NameServers = []
    · rw [if_pos h1]
      exact ⟨_, rfl⟩
    · rcases hn with hn | hn
      · exact absurd hn h1
      · rw [if_neg h1, if_neg (by simp [hn]), if_neg (by simp [hp]), if_pos hd]
        exact ⟨_, rfl⟩
  obtain ⟨s', e, calls, hcall, hser, -, -⟩ :=
    Server.UpdateDNSServer_rejected_of_build_error env s serial update
      (Or.inr (buildUpstreamHandlerUpdate.loop_error_of_mem _ [] ⟨g, hg, herr⟩))
  exact ⟨s', e, calls, hcall, hser⟩

/-- C11, amended, on the sample server: a group with a UDP nameserver and no domains, after a
group that passes. -/
theorem UpdateDNSServer_rejects_empty_domain_list_witness :
    ∃ s' e calls, sampleServer2.UpdateDNSServer Env.allSucceed 3
        { ServiceEnable := true, CustomZones := [],
          NameServerGroups := [noUDPGroup, udpNoDomainsGroup] } =
        .returned s' (some e) calls ∧
      s'.updateSerial = sampleServer2.updateSerial :=
  UpdateDNSServer_rejects_empty_domain_list Env.allSucceed sampleServer2 3 _
    ⟨udpNoDomainsGroup, by decide, rfl, rfl, Or.inr rfl⟩

/-- C12 as the code has it, a counterexample to the claim as stated: a primary group with a
UDP nameserver and the empty string among its domains is registered under the root pattern
without a look at its domains; the update is accepted. -/
theorem UpdateDNSServer_accepts_primary_with_empty_domain :
    primaryEmptyDomainGroup ∈ primaryEmptyDomainUpdate.NameServerGroups ∧
    "" ∈ primaryEmptyDomainGroup.Domains ∧
    NewServer.UpdateDNSServer Env.allSucceed 1 primaryEmptyDomainUpdate =
      .returned
        { NewServer with
          dnsMux := [(".", Handler.upstreamResolver ["8.8.8.8:53"])]
          dnsMuxMap := [(".", ())]
          updateSerial := 1
          listenerIsRunning := true } none
        [Call.listenAndServe, Call.handle "." (Handler.upstreamResolver ["8.8.8.8:53"])] := by
  decide

/-- C12, amended: an update in which some non-primary group with the empty string among its
domains has a UDP nameserver, or no nameserver at all, is rejected with an error whatever the
state of the server, and the serial stays where it was. -/
theorem UpdateDNSServer_rejects_empty_domain_element (env : Env) (s : Server) (serial : Nat)
    (update : Update)
    (h : ∃ g ∈ update.NameServerGroups, g.Primary = false ∧ "" ∈ g.Domains ∧
      (g.NameServers = [] ∨ g.hasUDP = true)) :
    ∃ s' e calls, s.UpdateDNSServer env serial update = .returned s' (some e) calls ∧
      s'.updateSerial = s.updateSerial := by
  obtain ⟨g, hg, hp, hd, hn⟩ := h
  have herr : ∃ e, g.updates = .error e := by
    unfold NameServerGroup.updates
    by_cases h1 : g.NameServers = []
    · rw [if_pos h1]
      exact ⟨_, rfl⟩
    · rcases hn with hn | hn
      · exact absurd hn h1
      · by_cases h2 : g.Domains = []
        · rw [if_neg h1, if_neg (by simp [hn]), if_neg (by simp [hp]), if_pos h2]
          exact ⟨_, rfl⟩
        · rw [if_neg h1, if_neg (by simp [hn]), if_neg (by simp [hp]), if_neg h2, if_pos hd]
          exact ⟨_, rfl⟩
  obtain ⟨s', e, calls, hcall, hser, -, -⟩ :=
    Server.UpdateDNSServer_rejected_of_build_error env s serial update
      (Or.inr (buildUpstreamHandlerUpdate.loop_error_of_mem _ [] ⟨g, hg, herr⟩))
  exact ⟨s', e, calls, hcall, hser⟩

/-- C12, amended, on the sample server: a group with a UDP nameserver and the empty string as
its second domain. -/
theorem UpdateDNSServer_rejects_empty_domain_element_witness :
    ∃ s' e calls, sampleServer2.UpdateDNSServer Env.allSucceed 3
        { ServiceEnable := true, CustomZones := [],
          NameServerGroups := [udpEmptyDomainGroup] } =
        .returned s' (some e) calls ∧
      s'.updateSerial = sampleServer2.updateSerial :=
  UpdateDNSServer_rejects_empty_domain_element Env.allSucceed sampleServer2 3 _
    ⟨udpEmptyDomainGroup, by decide, rfl, by decide, Or.inr rfl⟩

end Wiretrustee
namespace Wiretrustee

/-! ## The local build step -/

/-- C13: `buildLocalHandlerUpdate` returns an error exactly when some custom zone has no
records; when it succeeds, its registrations are one per zone in input order, with the zone's
domain and the local resolver as handler; and an update with a zero-record custom zone is
answered with an error by `UpdateDNSServer`, with the serial left where it was. -/
theorem buildLocalHandlerUpdate_error_iff (zs : List CustomZone) :
    ((∃ e, buildLocalHandlerUpdate zs = .error e) ↔ ∃ z ∈ zs, z.Records = []) ∧
    (∀ lmu lrec, buildLocalHandlerUpdate zs = .ok (lmu, lrec) →
      lmu = zs.map (fun z => { domain := z.Domain, handler := Handler.localResolver })) ∧
    ((∃ z ∈ zs, z.Records = []) →
      ∀ (env : Env) (s : Server) (serial : Nat) (enable : Bool)
        (groups : List NameServerGroup),
        ∃ s' e calls, s.UpdateDNSServer env serial
            { ServiceEnable := enable, CustomZones := zs, NameServerGroups := groups } =
            .returned s' (some e) calls ∧
          s'.updateSerial = s.updateSerial) := by
  have hiff : (∃ e, buildLocalHandlerUpdate zs = .error e) ↔ ∃ z ∈ zs, z.Records = [] := by
    constructor
    · rintro ⟨e, he⟩
      by_contra hne
      push_neg at hne
      rw [buildLocalHandlerUpdate, buildLocalHandlerUpdate.loop_ok zs [] [] hne] at he
      cases he
    · intro h
      exact ⟨_, buildLocalHandlerUpdate.loop_error zs [] [] h⟩
  refine ⟨hiff, ?_, ?_⟩
  · intro lmu lrec h
    exact (buildLocalHandlerUpdate_domains zs lmu lrec h).1
  · intro h env s serial enable groups
    obtain ⟨s', e, calls, hcall, hser, -, -⟩ :=
      Server.UpdateDNSServer_rejected_of_build_error env s serial
        { ServiceEnable := enable, CustomZones := zs, NameServerGroups := groups }
        (Or.inl (hiff.2 h))
    exact ⟨s', e, calls, hcall, hser⟩

/-- C13, on the zones of the malformed sample snapshot, whose second zone has no records. -/
theorem buildLocalHandlerUpdate_error_iff_witness :
    (∃ e, buildLocalHandlerUpdate malformedUpdate.CustomZones = .error e) ∧
    ∃ s' e calls, sampleServer2.UpdateDNSServer Env.allSucceed 3
        { ServiceEnable := false, CustomZones := malformedUpdate.CustomZones,
          NameServerGroups := [] } = .returned s' (some e) calls ∧
      s'.updateSerial = sampleServer2.updateSerial :=
  have h := buildLocalHandlerUpdate_error_iff malformedUpdate.CustomZones
  have hz : ∃ z ∈ malformedUpdate.CustomZones, z.Records = [] :=
    ⟨{ Domain := "empty.internal", Records := [] }, by decide, rfl⟩
  ⟨h.1.2 hz, h.2.2 hz Env.allSucceed sampleServer2 3 false []⟩

/-! ## The listener and rejected updates -/

theorem Server.applyServiceEnable_listener (env : Env) (s : Server) (b : Bool) :
    (env.listenFails = false → env.shutdownFails = false →
      (s.applyServiceEnable env b).1.listenerIsRunning = b) ∧
    (s.listenerIsRunning = b → (s.applyServiceEnable env b).1 = s ∧
      (s.applyServiceEnable env b).2 = []) ∧
    (env.listenFails = false → env.shutdownFails = false →
      (Call.listenAndServe ∈ (s.applyServiceEnable env b).2 ↔
        b = true ∧ s.listenerIsRunning = false) ∧
      (Call.shutdown ∈ (s.applyServiceEnable env b).2 ↔
        b = false ∧ s.listenerIsRunning = true)) := by
  obtain ⟨l, sh, r⟩ := env
  obtain ⟨a1, a2, a3, a4, a5, sr⟩ := s
  cases b <;> cases sr <;> cases l <;> cases sh <;>
    simp [Server.applyServiceEnable, Server.stopListener, Server.Start]

/-- C15 as the code has it, a counterexample to the claim as stated: on a new server, whose
listener is not running, an update with a zero-record custom zone and the service enabled is
rejected by the build step, and the listener has been started by then. -/
theorem UpdateDNSServer_rejected_update_starts_listener :
    NewServer.listenerIsRunning = false ∧
    (∃ e, buildLocalHandlerUpdate malformedUpdate.CustomZones = .error e) ∧
    NewServer.UpdateDNSServer Env.allSucceed 1 malformedUpdate =
      .returned { NewServer with listenerIsRunning := true }
        (some (Error.errorf
          "not applying dns update, error: received an empty list of records"))
        [Call.listenAndServe] :=
  ⟨rfl, ⟨_, rfl⟩, by decide⟩

/-- C15, amended: an update rejected because a build step fails leaves the listener as it
was only if the rejection comes first (cancelled context, stale serial) or if the listener
already was as `ServiceEnable` asks; otherwise the listener step has run before the build
steps, and with start and stop succeeding the listener is running after the call exactly when
`ServiceEnable` is set. -/
theorem UpdateDNSServer_rejected_listener (env : Env) (s : Server) (serial : Nat)
    (update : Update)
    (hfail : (∃ e, buildLocalHandlerUpdate update.CustomZones = .error e) ∨
      (∃ e, buildUpstreamHandlerUpdate update.NameServerGroups = .error e)) :
    ∃ s' e calls, s.UpdateDNSServer env serial update = .returned s' (some e) calls ∧
      (s.ctxDone = true ∨ serial < s.updateSerial →
        s'.listenerIsRunning = s.listenerIsRunning) ∧
      (s.listenerIsRunning = update.ServiceEnable →
        s'.listenerIsRunning = s.listenerIsRunning) ∧
      (s.ctxDone = false → s.updateSerial ≤ serial →
        env.listenFails = false → env.shutdownFails = false →
        s'.listenerIsRunning = update.ServiceEnable) := by
  obtain ⟨h1, h2⟩ := Server.UpdateDNSServer_of_build_error env s serial update hfail
  obtain ⟨l1, l2, -⟩ := Server.applyServiceEnable_listener env s update.ServiceEnable
  by_cases hc : s.ctxDone = true
  · obtain ⟨e, he⟩ := h1 (Or.inl hc)
    exact ⟨s, e, [], he, fun _ => rfl, fun _ => rfl, fun h => by simp [hc] at h⟩
  · by_cases hs : serial < s.updateSerial
    · obtain ⟨e, he⟩ := h1 (Or.inr hs)
      exact ⟨s, e, [], he, fun _ => rfl, fun _ => rfl,
        fun _ h => absurd hs (Nat.not_lt.2 h)⟩
    · obtain ⟨e, he⟩ := h2 (by simpa using hc) (Nat.le_of_not_lt hs)
      refine ⟨_, e, _, he, ?_, ?_, ?_⟩
      · rintro (h | h)
        · exact absurd h hc
        · exact absurd h hs
      · intro h
        rw [(l2 h).1]
      · intro _ _ hl hsh
        exact l1 hl hsh

/-- C15, amended, on the sample server, whose listener is running: a malformed update with
the service disabled stops the listener although it is rejected. -/
theorem UpdateDNSServer_rejected_listener_witness :
    ∃ s' e calls, sampleServer2.UpdateDNSServer Env.allSucceed 3
        { ServiceEnable := false, CustomZones := malformedUpdate.CustomZones,
          NameServerGroups := [] } = .returned s' (some e) calls ∧
      s'.listenerIsRunning = false :=
  have h := UpdateDNSServer_rejected_listener Env.allSucceed sampleServer2 3
    { ServiceEnable := false, CustomZones := malformedUpdate.CustomZones,
      NameServerGroups := [] }
    (Or.inl ⟨Error.errorf "received an empty list of records", rfl⟩)
  match h with
  | ⟨s', e, calls, hcall, _, _, h3⟩ => ⟨s', e, calls, hcall, h3 rfl (by decide) rfl rfl⟩

end Wiretrustee
namespace Wiretrustee

/-! ## The record map of the local build step -/

theorem localRecordsOf_eq (zs : List CustomZone) :
    localRecordsOf zs =
      (allRecords zs).foldl (fun m record => GoMap.set m record.Name record) [] := by
  have key : ∀ (m : GoMap SimpleRecord),
      zs.foldl (fun m z =>
          z.Records.foldl (fun m record => GoMap.set m record.Name record) m) m =
        (allRecords zs).foldl (fun m record => GoMap.set m record.Name record) m := by
    induction zs with
    | nil => intro m; rfl
    | cons z rest ih =>
      intro m
      rw [List.foldl_cons, ih]
      simp only [allRecords, List.flatMap_cons, List.foldl_append]
  exact key []

/-- C16: for custom zones that all have records, `buildLocalHandlerUpdate` succeeds, and the
record map it returns has as keys exactly the record names occurring in the zones, each once,
and maps every name to the last record of that name, zones taken in input order and records
in their order within a zone. -/
theorem buildLocalHandlerUpdate_records (zs : List CustomZone)
    (h : ∀ z ∈ zs, z.Records ≠ []) :
    ∃ lmu lrec, buildLocalHandlerUpdate zs = .ok (lmu, lrec) ∧
      (∀ n, n ∈ GoMap.keys lrec ↔ n ∈ (allRecords zs).map (fun r => r.Name)) ∧
      (GoMap.keys lrec).Nodup ∧
      (∀ n, GoMap.get? lrec n = lastWith (fun r => r.Name) (allRecords zs) n) := by
  refine ⟨_, _, buildLocalHandlerUpdate.loop_ok zs [] [] h, ?_, ?_, ?_⟩
  · intro n
    show n ∈ GoMap.keys (localRecordsOf zs) ↔ _
    rw [mem_keys_localRecordsOf, allRecords, List.map_flatMap]
  · show (GoMap.keys (localRecordsOf zs)).Nodup
    rw [localRecordsOf_eq]
    exact GoMap.nodup_keys_foldl_set (fun r : SimpleRecord => r.Name) (fun r => r) _ []
      (by simp [GoMap.keys])
  · intro n
    show GoMap.get? (localRecordsOf zs) n = _
    rw [localRecordsOf_eq,
      GoMap.get?_foldl_set (fun r : SimpleRecord => r.Name) (fun r => r)]
    cases lastWith (fun r : SimpleRecord => r.Name) (allRecords zs) n <;> rfl

/-- C16, on two zones that carry three records of one name: the record of the second zone
is the one the map keeps. -/
theorem buildLocalHandlerUpdate_records_witness :
    ∃ lmu lrec, buildLocalHandlerUpdate duplicateNameZones = .ok (lmu, lrec) ∧
      (∀ n, n ∈ GoMap.keys lrec ↔
        n ∈ (allRecords duplicateNameZones).map (fun r => r.Name)) ∧
      (GoMap.keys lrec).Nodup ∧
      (∀ n, GoMap.get? lrec n = lastWith (fun r => r.Name) (allRecords duplicateNameZones) n) :=
  buildLocalHandlerUpdate_records duplicateNameZones (by decide)

end Wiretrustee
namespace Wiretrustee

/-! ## The handler a pattern ends up with -/

theorem lastWith_append {α : Type} (f : α → String) (l1 l2 : List α) (k : String) :
    lastWith f (l1 ++ l2) k =
      match lastWith f l2 k with
      | some b => some b
      | none => lastWith f l1 k := by
  induction l1 with
  | nil =>
    simp only [List.nil_append, lastWith]
    cases lastWith f l2 k <;> rfl
  | cons a rest ih =>
    rw [List.cons_append, lastWith_cons, ih, lastWith_cons]
    cases lastWith f l2 k <;> rfl

theorem NameServerGroup.updates_handler (g : NameServerGroup) (us : List muxUpdate)
    (h : g.updates = .ok us) : ∀ u ∈ us, u.handler = g.handler := by
  unfold NameServerGroup.updates at h
  split_ifs at h with h1 h2 h3 h4 h5
  · cases h; simp
  · cases h; simp
  · cases h
    intro u hu
    obtain ⟨d, -, rfl⟩ := List.mem_map.1 hu
    rfl

theorem buildUpstreamHandlerUpdate.loop_handlers (gs : List NameServerGroup)
    (mu r : List muxUpdate) (h : buildUpstreamHandlerUpdate.loop gs mu = .ok r) :
    ∀ u ∈ r, u ∈ mu ∨ ∃ g ∈ gs, u.handler = g.handler := by
  induction gs generalizing mu with
  | nil =>
    simp only [buildUpstreamHandlerUpdate.loop, Except.ok.injEq] at h
    subst h
    exact fun u hu => Or.inl hu
  | cons g rest ih =>
    rw [buildUpstreamHandlerUpdate.loop_cons] at h
    cases hg : g.updates with
    | error e => rw [hg] at h; cases h
    | ok us =>
      rw [hg] at h
      intro u hu
      rcases ih (mu ++ us) h u hu with h1 | ⟨g', hg', h1⟩
      · rcases List.mem_append.1 h1 with h2 | h2
        · exact Or.inl h2
        · exact Or.inr ⟨g, List.mem_cons_self _ _, g.updates_handler us hg u h2⟩
      · exact Or.inr ⟨g', List.mem_cons_of_mem _ hg', h1⟩

/-- The dispatch table after an accepted update: every target pattern carries the handler of
the last registration made for it. -/
theorem Server.UpdateDNSServer_nil_dnsMux (env : Env) (s s' : Server) (serial : Nat)
    (update : Update) (calls : List Call)
    (h : s.UpdateDNSServer env serial update = .returned s' none calls) :
    ∃ lmu lrec umu,
      buildLocalHandlerUpdate update.CustomZones = .ok (lmu, lrec) ∧
      buildUpstreamHandlerUpdate update.NameServerGroups = .ok umu ∧
      ∀ d ∈ (lmu ++ umu).map (fun u => u.domain),
        GoMap.get? s'.dnsMux d =
          (lastWith (fun u => u.domain) (lmu ++ umu) d).map (fun u => u.handler) := by
  obtain ⟨-, -, lmu, lrec, umu, s1, calls1, hl, hu, hm, hs, -⟩ :=
    Server.UpdateDNSServer_nil env s s' serial update calls h
  refine ⟨lmu, lrec, umu, hl, hu, ?_⟩
  rw [Server.updateMux_eq] at hm
  split_ifs at hm with hp
  simp only [MayPanic.ok.injEq, Prod.mk.injEq] at hm
  intro d hd
  have hmux : s'.dnsMux = s1.dnsMux := by
    rw [hs]
    exact (Server.updateLocalResolver_frame env s1 lrec).2.1
  have hnot : d ∉ staleKeys (s.applyServiceEnable env update.ServiceEnable).1 (lmu ++ umu) :=
    fun hmem => ((mem_staleKeys _ _ _).1 hmem).2 hd
  rw [hmux, ← hm.1]
  show GoMap.get? (List.foldl _ _ _) d = _
  rw [GoMap.get?_foldl_delete _ _ _ hnot,
    GoMap.get?_foldl_set (fun u : muxUpdate => u.domain) (fun u => u.handler)]
  cases hlast : lastWith (fun u : muxUpdate => u.domain) (lmu ++ umu) d with
  | some u => rfl
  | none => exact absurd hd ((lastWith_eq_none_iff _ _ _).1 hlast)

/-- C14 as the code has it, a counterexample to the claim as stated: the first custom zone's
domain is also a domain of a non-primary group, the second one's is the root pattern a
primary group claims. The update is accepted, and both patterns carry the upstream resolver
of the group, which was registered after the local resolver. -/
theorem UpdateDNSServer_zone_handler_replaced :
    ∃ s' calls, NewServer.UpdateDNSServer Env.allSucceed 1 shadowedZoneUpdate =
        .returned s' none calls ∧
      GoMap.get? s'.dnsMux "corp.internal" =
        some (Handler.upstreamResolver ["1.1.1.1:53"]) ∧
      GoMap.get? s'.dnsMux RootZone = some (Handler.upstreamResolver ["8.8.8.8:53"]) ∧
      (∃ z ∈ shadowedZoneUpdate.CustomZones, z.Domain = "corp.internal") ∧
      (∃ z ∈ shadowedZoneUpdate.CustomZones, z.Domain = RootZone) :=
  ⟨_, _, rfl, by decide, by decide, ⟨_, List.mem_cons_self _ _, rfl⟩,
    ⟨_, List.mem_cons_of_mem _ (List.mem_cons_self _ _), rfl⟩⟩

/-! ### The dispatch table under another keying -/

theorem ServeMux.after_append (canon : String → String) (a b : List Call)
    (z : GoMap Handler) :
    ServeMux.after canon (a ++ b) z = ServeMux.after canon b (ServeMux.after canon a z) := by
  unfold ServeMux.after
  rw [List.foldl_append]

/-- Calls that are neither `Handle` nor `HandleRemove` leave the table alone. -/
theorem ServeMux.after_of_not_mux (canon : String → String) (calls : List Call)
    (h : ∀ c ∈ calls, ∀ z, ServeMux.step canon z c = z) (z : GoMap Handler) :
    ServeMux.after canon calls z = z := by
  unfold ServeMux.after
  induction calls generalizing z with
  | nil => rfl
  | cons c rest ih =>
    rw [List.foldl_cons, h c (List.mem_cons_self _ _)]
    exact ih (fun c hc => h c (List.mem_cons_of_mem _ hc)) z

/-- The table after a run of registrations. -/
theorem ServeMux.after_handles (canon : String → String) (us : List muxUpdate)
    (z : GoMap Handler) :
    ServeMux.after canon (us.map (fun u => Call.handle u.domain u.handler)) z =
      us.foldl (fun m u => GoMap.set m (canon u.domain) u.handler) z := by
  unfold ServeMux.after
  rw [List.foldl_map]
  rfl

/-- The table after a run of deregistrations. -/
theorem ServeMux.after_handleRemoves (canon : String → String) (ks : List String)
    (z : GoMap Handler) :
    ServeMux.after canon (ks.map Call.handleRemove) z =
      (ks.map canon).foldl (fun t k => GoMap.delete t k) z := by
  unfold ServeMux.after
  rw [List.foldl_map, List.foldl_map]
  rfl

/-- The table after an accepted update, under any keying: a key that no deregistered pattern
shares holds the handler of the last registration made under it. -/
theorem Server.UpdateDNSServer_nil_table (canon : String → String) (env : Env)
    (s s' : Server) (serial : Nat) (update : Update) (calls : List Call)
    (h : s.UpdateDNSServer env serial update = .returned s' none calls) :
    ∃ lmu lrec umu,
      buildLocalHandlerUpdate update.CustomZones = .ok (lmu, lrec) ∧
      buildUpstreamHandlerUpdate update.NameServerGroups = .ok umu ∧
      ∀ (c : String) (table : GoMap Handler),
        (∀ k ∈ GoMap.keys s.dnsMuxMap, k ∉ (lmu ++ umu).map (fun u => u.domain) →
          canon k ≠ c) →
        ∀ u, lastWith (fun u : muxUpdate => canon u.domain) (lmu ++ umu) c = some u →
          GoMap.get? (ServeMux.after canon calls table) c = some u.handler := by
  obtain ⟨-, -, lmu, lrec, umu, s1, calls1, hl, hu, hm, -, hcalls⟩ :=
    Server.UpdateDNSServer_nil env s s' serial update calls h
  refine ⟨lmu, lrec, umu, hl, hu, ?_⟩
  rw [Server.updateMux_eq] at hm
  split_ifs at hm with hp
  simp only [MayPanic.ok.injEq, Prod.mk.injEq] at hm
  intro c table hstale u hlast
  have hA : ServeMux.after canon (s.applyServiceEnable env update.ServiceEnable).2 table =
      table := by
    apply ServeMux.after_of_not_mux
    intro x hx z
    rcases Server.applyServiceEnable_calls env s update.ServiceEnable x hx with rfl | rfl <;> rfl
  have hR : ∀ z, ServeMux.after canon (s1.updateLocalResolver env lrec).2 z = z := by
    intro z
    apply ServeMux.after_of_not_mux
    intro x hx z
    rw [Server.updateLocalResolver_calls, List.mem_append] at hx
    rcases hx with hx | hx
    · obtain ⟨k, -, rfl⟩ := List.mem_map.1 hx
      rfl
    · obtain ⟨e, -, rfl⟩ := List.mem_map.1 hx
      rfl
  have hnot : c ∉ (staleKeys (s.applyServiceEnable env update.ServiceEnable).1
      (lmu ++ umu)).map canon := by
    intro hmem
    obtain ⟨k, hk, hkc⟩ := List.mem_map.1 hmem
    rw [mem_staleKeys, (Server.applyServiceEnable_frame env s _).2.2.1] at hk
    exact hstale k hk.1 hk.2 hkc
  rw [hcalls, ← hm.2, ServeMux.after_append, ServeMux.after_append, ServeMux.after_append, hR,
    hA, ServeMux.after_handles, ServeMux.after_handleRemoves,
    GoMap.get?_foldl_delete _ _ _ hnot,
    GoMap.get?_foldl_set (fun u : muxUpdate => canon u.domain) (fun u => u.handler), hlast]

/-- C14, amended: after every successful `UpdateDNSServer`, whatever name the dispatch table
keys a pattern by, a custom zone's domain carries the local resolver in the table unless a
nameserver group of the same update claims a pattern of the same key (as a domain of a
non-primary group with a UDP nameserver, or as the root pattern of a primary group with
one); then it carries the upstream resolver of a group, whose registration came later. This
is for a zone whose key is not the key of a tracked pattern that the update drops: the
deregistration of that pattern comes last and would empty the entry. -/
theorem UpdateDNSServer_zone_handler (canon : String → String) (env : Env) (s s' : Server)
    (serial : Nat) (update : Update) (calls : List Call)
    (h : s.UpdateDNSServer env serial update = .returned s' none calls) :
    ∀ z ∈ update.CustomZones,
      (∀ k ∈ GoMap.keys s.dnsMuxMap, ¬ update.implies k → canon k ≠ canon z.Domain) →
      ∀ table : GoMap Handler,
        ((∀ d, update.upstreamClaims d → canon d ≠ canon z.Domain) →
          GoMap.get? (ServeMux.after canon calls table) (canon z.Domain) =
            some Handler.localResolver) ∧
        ((∃ d, update.upstreamClaims d ∧ canon d = canon z.Domain) →
          ∃ g ∈ update.NameServerGroups,
            GoMap.get? (ServeMux.after canon calls table) (canon z.Domain) =
              some g.handler) := by
  obtain ⟨lmu, lrec, umu, hl, hu, hget⟩ :=
    Server.UpdateDNSServer_nil_table canon env s s' serial update calls h
  have hlmu := (buildLocalHandlerUpdate_domains _ _ _ hl).1
  have hclaims : ∀ d, d ∈ umu.map (fun u => u.domain) ↔ update.upstreamClaims d := by
    intro d
    rw [buildUpstreamHandlerUpdate.loop_domains update.NameServerGroups [] umu hu d]
    simp [Update.upstreamClaims]
  intro z hz hstale table
  have hzl : canon z.Domain ∈ lmu.map (fun u => canon u.domain) := by
    rw [hlmu]
    simp only [List.map_map, List.mem_map, Function.comp_apply]
    exact ⟨z, hz, rfl⟩
  have hstale' : ∀ k ∈ GoMap.keys s.dnsMuxMap, k ∉ (lmu ++ umu).map (fun u => u.domain) →
      canon k ≠ canon z.Domain := by
    intro k hk hnot
    apply hstale k hk
    intro himp
    apply hnot
    rw [List.map_append, List.mem_append]
    rcases himp with ⟨z', hz', rfl⟩ | himp
    · left
      rw [hlmu]
      simp only [List.map_map, List.mem_map, Function.comp_apply]
      exact ⟨z', hz', rfl⟩
    · right
      exact (hclaims k).2 himp
  constructor
  · intro hno
    have hnone : lastWith (fun u : muxUpdate => canon u.domain) umu (canon z.Domain) =
        none := by
      rw [lastWith_eq_none_iff]
      intro hmem
      obtain ⟨u, hu', hcu⟩ := List.mem_map.1 hmem
      exact hno u.domain ((hclaims _).1 (List.mem_map_of_mem _ hu')) hcu
    cases hlast : lastWith (fun u : muxUpdate => canon u.domain) lmu (canon z.Domain) with
    | none => exact absurd hzl ((lastWith_eq_none_iff _ _ _).1 hlast)
    | some u =>
      have hmem := (lastWith_some_key _ _ _ _ hlast).1
      have hall : lastWith (fun u : muxUpdate => canon u.domain) (lmu ++ umu)
          (canon z.Domain) = some u := by
        rw [lastWith_append, hnone]
        exact hlast
      rw [hget _ table hstale' u hall]
      rw [hlmu] at hmem
      obtain ⟨z', -, rfl⟩ := List.mem_map.1 hmem
      rfl
  · rintro ⟨d, hd, hcd⟩
    cases hlast : lastWith (fun u : muxUpdate => canon u.domain) umu (canon z.Domain) with
    | none =>
      have hmem : canon z.Domain ∈ umu.map (fun u => canon u.domain) := by
        obtain ⟨u, hu', hud⟩ := List.mem_map.1 ((hclaims d).2 hd)
        exact List.mem_map.2 ⟨u, hu', by rw [hud, hcd]⟩
      exact absurd hmem ((lastWith_eq_none_iff _ _ _).1 hlast)
    | some u =>
      have hmem := (lastWith_some_key _ _ _ _ hlast).1
      have hall : lastWith (fun u : muxUpdate => canon u.domain) (lmu ++ umu)
          (canon z.Domain) = some u := by
        rw [lastWith_append, hlast]
      rw [hget _ table hstale' u hall]
      rcases buildUpstreamHandlerUpdate.loop_handlers _ [] umu hu u hmem with h1 | ⟨g, hg, h1⟩
      · simp at h1
      · exact ⟨g, hg, by rw [h1]⟩

/-- C14, amended, on the sample snapshots, with the keying of the library: the zone of the
second one has the key `corp.internal.`, which no group claims and no dropped pattern
shares, and carries the local resolver. -/
theorem UpdateDNSServer_zone_handler_witness :
    sampleServer1.UpdateDNSServer Env.allSucceed 2 sampleUpdate2 =
      .returned sampleServer2 none sampleCalls2 ∧
    CanonicalName "corp.internal" = "corp.internal." ∧
    GoMap.get? (ServeMux.after CanonicalName sampleCalls2 [])
      (CanonicalName "corp.internal") = some Handler.localResolver := by
  have hcall : sampleServer1.UpdateDNSServer Env.allSucceed 2 sampleUpdate2 =
      .returned sampleServer2 none sampleCalls2 := by decide
  have hstale : ∀ k ∈ GoMap.keys sampleServer1.dnsMuxMap, ¬ sampleUpdate2.implies k →
      CanonicalName k ≠ CanonicalName "corp.internal" := by
    intro k hk hnot
    have hkeys : GoMap.keys sampleServer1.dnsMuxMap =
        ["corp.internal", "lab.internal", "a.example", "b.example"] := by decide
    rw [hkeys] at hk
    simp only [List.mem_cons, List.mem_singleton, List.not_mem_nil, or_false] at hk
    rcases hk with rfl | rfl | rfl | rfl
    · exact absurd (Or.inl ⟨_, List.mem_cons_self _ _, rfl⟩) hnot
    · decide
    · decide
    · decide
  have hno : ∀ d, sampleUpdate2.upstreamClaims d →
      CanonicalName d ≠ CanonicalName "corp.internal" := by
    intro d hd
    have hd' : d = "a.example" ∨ d = RootZone := by
      rcases hd with ⟨g, hg, hp, hu', hd⟩ | ⟨rfl, -⟩
      · simp only [sampleUpdate2, List.mem_cons, List.mem_singleton, List.not_mem_nil,
          or_false] at hg
        rcases hg with rfl | rfl | rfl
        · simp at hp
        · exact absurd hu' (by decide)
        · simp at hd
          exact Or.inl hd
      · exact Or.inr rfl
    rcases hd' with rfl | rfl <;> decide
  exact ⟨hcall, by decide,
    ((UpdateDNSServer_zone_handler CanonicalName Env.allSucceed sampleServer1 sampleServer2 2
      sampleUpdate2 sampleCalls2 hcall
      { Domain := "corp.internal", Records := [sampleRecord] } (by decide) hstale []).1 hno)⟩

/-- The two ways in which the keying of the library takes the local resolver from a zone.
A group with a UDP nameserver over `Corp.Internal.` shares the key of the zone
`corp.internal`, and the table ends with the group's resolver under it. A server that tracks
the pattern `Corp.Internal.` and receives the zone `corp.internal` registers the zone and
then deregisters the dropped pattern, which has the same key: the table ends with no entry
for the zone. -/
theorem UpdateDNSServer_zone_handler_canonical_clash :
    (∃ s' calls, NewServer.UpdateDNSServer Env.allSucceed 1 canonicalClashUpdate =
        .returned s' none calls ∧
      GoMap.get? (ServeMux.after CanonicalName calls []) (CanonicalName "corp.internal") =
        some (Handler.upstreamResolver ["1.1.1.1:53"])) ∧
    (∃ s1 calls1 s2 calls2,
      NewServer.UpdateDNSServer Env.allSucceed 1 upperZoneUpdate = .returned s1 none calls1 ∧
      s1.UpdateDNSServer Env.allSucceed 2 lowerZoneUpdate = .returned s2 none calls2 ∧
      calls2 = [Call.handle "corp.internal" Handler.localResolver,
        Call.handleRemove "Corp.Internal.", Call.registerRecord sampleRecord] ∧
      GoMap.get? (ServeMux.after CanonicalName (calls1 ++ calls2) [])
        (CanonicalName "corp.internal") = none) :=
  ⟨⟨_, _, rfl, by decide⟩, ⟨_, _, _, _, rfl, rfl, by decide, by decide⟩⟩

end Wiretrustee
namespace Wiretrustee

/-! ## Failing record registrations -/

/-- C17: whatever records `registerRecord` returns an error for, `updateLocalResolver` calls
it for every record of the target map, and the `UpdateDNSServer` call around it (live
context, serial not stale, both build steps passed, registrations diffed) returns nil with the
serial advanced. -/
theorem UpdateDNSServer_tolerates_register_failures (env : Env) (s s1 : Server)
    (serial : Nat) (update : Update) (lmu umu : List muxUpdate) (lrec : GoMap SimpleRecord)
    (calls1 : List Call) (hctx : s.ctxDone = false) (hser : s.updateSerial ≤ serial)
    (hbl : buildLocalHandlerUpdate update.CustomZones = .ok (lmu, lrec))
    (hbu : buildUpstreamHandlerUpdate update.NameServerGroups = .ok umu)
    (hmux : (s.applyServiceEnable env update.ServiceEnable).1.updateMux (lmu ++ umu) =
      .ok (s1, calls1)) :
    (∀ e ∈ lrec, Call.registerRecord e.2 ∈ (s1.updateLocalResolver env lrec).2) ∧
    ∃ s' calls, s.UpdateDNSServer env serial update = .returned s' none calls ∧
      s'.updateSerial = serial ∧
      (∀ e ∈ lrec, Call.registerRecord e.2 ∈ calls) ∧
      (∀ n, n ∈ GoMap.keys s'.localResolver.registeredMap ↔ n ∈ GoMap.keys lrec) := by
  have hreg : ∀ e ∈ lrec, Call.registerRecord e.2 ∈ (s1.updateLocalResolver env lrec).2 := by
    intro e he
    rw [Server.updateLocalResolver_calls]
    exact List.mem_append_right _ (List.mem_map.2 ⟨e, he, rfl⟩)
  refine ⟨hreg, ?_⟩
  unfold Server.UpdateDNSServer
  rw [if_neg (by simp [hctx]), if_neg (Nat.not_lt.2 hser)]
  simp only [hbl, hbu, hmux]
  refine ⟨_, _, rfl, rfl, ?_, ?_⟩
  · intro e he
    exact List.mem_append_right _ (hreg e he)
  · intro n
    show n ∈ GoMap.keys (s1.updateLocalResolver env lrec).1.localResolver.registeredMap ↔ _
    rw [Server.updateLocalResolver_registeredMap, mem_keys_registered]

/-- C17, on the sample snapshots, with every record registration failing. -/
theorem UpdateDNSServer_tolerates_register_failures_witness :
    ∃ s' calls, sampleServer1.UpdateDNSServer Env.noRecordRegisters 2 sampleUpdate2 =
        .returned s' none calls ∧
      s'.updateSerial = 2 ∧
      (∀ e ∈ [("db.corp.internal", sampleRecord)], Call.registerRecord e.2 ∈ calls) ∧
      (∀ n, n ∈ GoMap.keys s'.localResolver.registeredMap ↔
        n ∈ GoMap.keys [("db.corp.internal", sampleRecord)]) :=
  (UpdateDNSServer_tolerates_register_failures Env.noRecordRegisters sampleServer1
    { sampleServer1 with dnsMux := sampleServer2.dnsMux, dnsMuxMap := sampleServer2.dnsMuxMap }
    2 sampleUpdate2
    [{ domain := "corp.internal", handler := Handler.localResolver }]
    [{ domain := ".", handler := Handler.upstreamResolver ["8.8.8.8:53"] },
     { domain := "a.example", handler := Handler.upstreamResolver ["1.0.0.1:5353"] }]
    [("db.corp.internal", sampleRecord)]
    [Call.handle "corp.internal" Handler.localResolver,
     Call.handle "." (Handler.upstreamResolver ["8.8.8.8:53"]),
     Call.handle "a.example" (Handler.upstreamResolver ["1.0.0.1:5353"]),
     Call.handleRemove "lab.internal", Call.handleRemove "b.example"]
    rfl (by decide) rfl rfl rfl).2

end Wiretrustee
namespace Wiretrustee

/-! ## The service lifecycle -/

theorem Outcome.returned_of_isNil (o : Outcome) (h : o.isNil = true) :
    ∃ s calls, o = .returned s none calls := by
  cases o with
  | panicked msg => simp [Outcome.isNil] at h
  | returned s err calls =>
    cases err with
    | none => exact ⟨s, calls, rfl⟩
    | some e => simp [Outcome.isNil] at h

theorem Outcome.returned_of_isErr (o : Outcome) (h : o.isErr = true) :
    ∃ s e calls, o = .returned s (some e) calls := by
  cases o with
  | panicked msg => simp [Outcome.isErr] at h
  | returned s err calls =>
    cases err with
    | none => simp [Outcome.isErr] at h
    | some e => exact ⟨s, e, calls, rfl⟩

/-- On a live server and for a serial that is not stale, a call that returns has left the
listener as the listener step left it, and has called the listener in that step only. -/
theorem Server.UpdateDNSServer_returned_listener (env : Env) (s s' : Server) (serial : Nat)
    (update : Update) (err : Option Error) (calls : List Call)
    (hctx : s.ctxDone = false) (hser : s.updateSerial ≤ serial)
    (h : s.UpdateDNSServer env serial update = .returned s' err calls) :
    s'.listenerIsRunning =
      (s.applyServiceEnable env update.ServiceEnable).1.listenerIsRunning ∧
    (Call.listenAndServe ∈ calls ↔
      Call.listenAndServe ∈ (s.applyServiceEnable env update.ServiceEnable).2) ∧
    (Call.shutdown ∈ calls ↔
      Call.shutdown ∈ (s.applyServiceEnable env update.ServiceEnable).2) := by
  unfold Server.UpdateDNSServer at h
  rw [if_neg (by simp [hctx]), if_neg (Nat.not_lt.2 hser)] at h
  revert h
  dsimp only
  cases hl : buildLocalHandlerUpdate update.CustomZones with
  | error e =>
    intro h
    simp only [Outcome.returned.injEq] at h
    obtain ⟨h1, -, h3⟩ := h
    subst h1 h3
    exact ⟨rfl, Iff.rfl, Iff.rfl⟩
  | ok lr =>
    obtain ⟨lmu, lrec⟩ := lr
    dsimp only
    cases hu : buildUpstreamHandlerUpdate update.NameServerGroups with
    | error e =>
      intro h
      simp only [Outcome.returned.injEq] at h
      obtain ⟨h1, -, h3⟩ := h
      subst h1 h3
      exact ⟨rfl, Iff.rfl, Iff.rfl⟩
    | ok umu =>
      dsimp only
      rw [Server.updateMux_eq]
      split_ifs with hp
      · intro h; cases h
      · intro h
        simp only [Outcome.returned.injEq] at h
        obtain ⟨h1, -, h3⟩ := h
        subst h1 h3
        refine ⟨(Server.updateLocalResolver_frame env _ lrec).2.2.2.2, ?_, ?_⟩
        · rw [Server.updateLocalResolver_calls]
          simp [staleRecords]
        · rw [Server.updateLocalResolver_calls]
          simp [staleRecords]

theorem Server.UpdateDNSServer_nil_reconciled (env : Env) (s s' : Server) (serial : Nat)
    (update : Update) (calls : List Call)
    (h : s.UpdateDNSServer env serial update = .returned s' none calls) :
    (∀ d, d ∈ GoMap.keys s'.dnsMuxMap ↔ update.implies d) ∧
    (∀ n, n ∈ GoMap.keys s'.localResolver.registeredMap ↔ n ∈ update.recordNames) := by
  constructor
  · obtain ⟨lmu, lrec, umu, hl, hu, hmap⟩ :=
      Server.UpdateDNSServer_nil_dnsMuxMap env s s' serial update calls h
    intro d
    rw [hmap, mem_keys_targetMap, List.map_append, List.mem_append,
      (buildLocalHandlerUpdate_domains _ _ _ hl).1,
      buildUpstreamHandlerUpdate.loop_domains update.NameServerGroups [] umu hu d]
    unfold Update.implies
    simp only [List.map_map, List.mem_map, Function.comp_apply, List.map_nil,
      List.not_mem_nil, false_or]
  · obtain ⟨-, -, lmu, lrec, umu, s1, calls1, hl, -, -, hs, -⟩ :=
      Server.UpdateDNSServer_nil env s s' serial update calls h
    intro n
    rw [hs]
    show n ∈ GoMap.keys (s1.updateLocalResolver env lrec).1.localResolver.registeredMap ↔ _
    rw [Server.updateLocalResolver_registeredMap, mem_keys_registered,
      (buildLocalHandlerUpdate_domains _ _ _ hl).2, mem_keys_localRecordsOf]
    rfl

/-- C18: with listener start and stop succeeding, on a live server and for a serial that is
not stale, the listener step leaves the listener running exactly when `ServiceEnable` is set,
and so does every call that returns; `stopListener` on a stopped listener returns nil and
changes nothing; `ListenAndServe` is called exactly when the service is enabled and the
listener was not running, `Shutdown` exactly when it is disabled and the listener was running;
the call returns unless an empty pattern reaches the dispatch table; and with `ServiceEnable`
false an accepted update still leaves exactly the registrations and record names it implies. -/
theorem UpdateDNSServer_service_lifecycle (env : Env) (s : Server) (serial : Nat)
    (update : Update) (hl : env.listenFails = false) (hsh : env.shutdownFails = false)
    (hctx : s.ctxDone = false) (hser : s.updateSerial ≤ serial) :
    (s.applyServiceEnable env update.ServiceEnable).1.listenerIsRunning =
      update.ServiceEnable ∧
    (s.listenerIsRunning = false → s.stopListener env = (s, none, [])) ∧
    (∀ s' err calls, s.UpdateDNSServer env serial update = .returned s' err calls →
      s'.listenerIsRunning = update.ServiceEnable ∧
      (Call.listenAndServe ∈ calls ↔
        update.ServiceEnable = true ∧ s.listenerIsRunning = false) ∧
      (Call.shutdown ∈ calls ↔
        update.ServiceEnable = false ∧ s.listenerIsRunning = true)) ∧
    ((∀ z ∈ update.CustomZones, z.Domain ≠ "") → "" ∉ GoMap.keys s.dnsMuxMap →
      ∃ s' err calls, s.UpdateDNSServer env serial update = .returned s' err calls) ∧
    (update.ServiceEnable = false →
      ∀ s' calls, s.UpdateDNSServer env serial update = .returned s' none calls →
        (∀ d, d ∈ GoMap.keys s'.dnsMuxMap ↔ update.implies d) ∧
        (∀ n, n ∈ GoMap.keys s'.localResolver.registeredMap ↔ n ∈ update.recordNames)) := by
  obtain ⟨l1, -, l3⟩ := Server.applyServiceEnable_listener env s update.ServiceEnable
  refine ⟨l1 hl hsh, ?_, ?_, ?_, ?_⟩
  · intro h
    simp [Server.stopListener, h]
  · intro s' err calls h
    obtain ⟨r1, r2, r3⟩ :=
      Server.UpdateDNSServer_returned_listener env s s' serial update err calls hctx hser h
    exact ⟨r1.trans (l1 hl hsh), r2.trans (l3 hl hsh).1, r3.trans (l3 hl hsh).2⟩
  · intro hz hwf
    obtain ⟨-, -, h3⟩ := UpdateDNSServer_nil_iff env s serial update hwf hz
    cases hn : (s.UpdateDNSServer env serial update).isNil with
    | true =>
      obtain ⟨s', calls, ho⟩ := Outcome.returned_of_isNil _ hn
      exact ⟨s', none, calls, ho⟩
    | false =>
      obtain ⟨s', e, calls, ho⟩ := Outcome.returned_of_isErr _ (h3 hn)
      exact ⟨s', some e, calls, ho⟩
  · intro _ s' calls h
    exact Server.UpdateDNSServer_nil_reconciled env s s' serial update calls h

/-- C18, on the sample server, whose listener is running: the second sample snapshot with
the service disabled stops the listener and still reconciles registrations and records. -/
theorem UpdateDNSServer_service_lifecycle_witness :
    ∃ s' calls, sampleServer1.UpdateDNSServer Env.allSucceed 2
        { sampleUpdate2 with ServiceEnable := false } = .returned s' none calls ∧
      s'.listenerIsRunning = false ∧ Call.shutdown ∈ calls ∧
      Call.listenAndServe ∉ calls ∧
      (∀ d, d ∈ GoMap.keys s'.dnsMuxMap ↔
        Update.implies { sampleUpdate2 with ServiceEnable := false } d) :=
  have h := UpdateDNSServer_service_lifecycle Env.allSucceed sampleServer1 2
    { sampleUpdate2 with ServiceEnable := false } rfl rfl rfl (by decide)
  have hcall : sampleServer1.UpdateDNSServer Env.allSucceed 2
      { sampleUpdate2 with ServiceEnable := false } =
      .returned { sampleServer2 with listenerIsRunning := false } none
        (Call.shutdown :: sampleCalls2) := by decide
  ⟨_, _, hcall, (h.2.2.1 _ _ _ hcall).1, ((h.2.2.1 _ _ _ hcall).2.2).2 ⟨rfl, rfl⟩,
    fun hmem => by simpa using ((h.2.2.1 _ _ _ hcall).2.1).1 hmem,
    (h.2.2.2.2 rfl _ _ hcall).1⟩

/-! ## After teardown -/

/-- C19: `Stop` cancels the context; from then on every `UpdateDNSServer` call, whatever its
serial and update, returns the context's error, calls no collaborator, so does not start the
listener, and leaves the server as it is, so that after any sequence of calls the server is
the one `Stop` left, with `dnsMuxMap`, the local records and `updateSerial` untouched and the
listener not running once its shutdown succeeded. -/
theorem UpdateDNSServer_after_Stop (env : Env) (s : Server) :
    (s.Stop env).1.ctxDone = true ∧
    (env.shutdownFails = false → (s.Stop env).1.listenerIsRunning = false) ∧
    (∀ t : Server, t.ctxDone = true → ∀ (env' : Env) (serial : Nat) (update : Update),
      t.UpdateDNSServer env' serial update = .returned t (some Error.contextCanceled) []) ∧
    (∀ us : List (Env × Nat × Update), (s.Stop env).1.updates us = some (s.Stop env).1) := by
  have h1 : (s.Stop env).1.ctxDone = true := by
    unfold Server.Stop Server.stopListener
    cases s.listenerIsRunning <;> cases env.shutdownFails <;> simp
  have h3 : ∀ t : Server, t.ctxDone = true → ∀ (env' : Env) (serial : Nat) (update : Update),
      t.UpdateDNSServer env' serial update = .returned t (some Error.contextCanceled) [] := by
    intro t ht env' serial update
    unfold Server.UpdateDNSServer
    rw [if_pos ht]
  refine ⟨h1, ?_, h3, ?_⟩
  · intro hsh
    unfold Server.Stop Server.stopListener
    cases hr : s.listenerIsRunning <;> simp [hsh, hr]
  · intro us
    induction us with
    | nil => rfl
    | cons u rest ih =>
      obtain ⟨env', serial, update⟩ := u
      unfold Server.updates
      rw [h3 _ h1]
      exact ih

end Wiretrustee
namespace Wiretrustee

/-- C19, on the sample server: after `Stop`, the first sample snapshot under a fresh serial is
answered with the context's error and changes nothing. -/
theorem UpdateDNSServer_after_Stop_witness :
    (sampleServer2.Stop Env.allSucceed).1.UpdateDNSServer Env.allSucceed 5 sampleUpdate1 =
      .returned (sampleServer2.Stop Env.allSucceed).1 (some Error.contextCanceled) [] ∧
    (sampleServer2.Stop Env.allSucceed).1.listenerIsRunning = false :=
  have h := UpdateDNSServer_after_Stop Env.allSucceed sampleServer2
  ⟨h.2.2.1 _ h.1 Env.allSucceed 5 sampleUpdate1, h.2.1 rfl⟩

/-! ## The configuration of a connection -/

theorem GoMap.get?_delete_self {β : Type} (m : GoMap β) (k : String) :
    GoMap.get? (m.delete k) k = none := by
  rw [GoMap.get?_eq_none_iff, GoMap.mem_keys_delete]
  exact fun h => h.1 rfl

theorem updateNetworkMap.addOrModify_get (env : EngineEnv) (ps : List RemotePeerConfig)
    (m : GoMap PeerConn) (c : List EngineCall) (k : String) (conn : PeerConn)
    (h : GoMap.get? (updateNetworkMap.addOrModify env ps m c).1 k = some conn) :
    (∀ q, lastWith (fun p => p.WgPubKey) ps k = some q → conn.AllowedIps = q.allowedIps) ∧
    (lastWith (fun p => p.WgPubKey) ps k = none → GoMap.get? m k = some conn) := by
  induction ps generalizing m c with
  | nil =>
    refine ⟨fun q hq => ?_, fun _ => ?_⟩
    · simp [lastWith] at hq
    · simpa [updateNetworkMap.addOrModify] using h
  | cons p rest ih =>
    unfold updateNetworkMap.addOrModify at h
    -- the map after the descriptor `p` has been handled
    have key : ∀ (m' : GoMap PeerConn) (c' : List EngineCall),
        GoMap.get? (updateNetworkMap.addOrModify env rest m' c').1 k = some conn →
        (p.WgPubKey = k → ∀ conn', GoMap.get? m' k = some conn' →
          conn'.AllowedIps = p.allowedIps) →
        (p.WgPubKey ≠ k → GoMap.get? m' k = GoMap.get? m k) →
        (∀ q, lastWith (fun p => p.WgPubKey) (p :: rest) k = some q →
          conn.AllowedIps = q.allowedIps) ∧
        (lastWith (fun p => p.WgPubKey) (p :: rest) k = none →
          GoMap.get? m k = some conn) := by
      intro m' c' h' hsame hother
      have hrest := ih m' c' h'
      constructor
      · intro q hq
        rw [lastWith_cons] at hq
        cases hl : lastWith (fun p => p.WgPubKey) rest k with
        | some b =>
          rw [hl] at hq
          simp only [Option.some.injEq] at hq
          subst hq
          exact hrest.1 b hl
        | none =>
          rw [hl] at hq
          by_cases hk : p.WgPubKey = k
          · simp only [hk, if_true, Option.some.injEq] at hq
            subst hq
            exact hsame hk conn (hrest.2 hl)
          · simp [hk] at hq
      · intro hn
        rw [lastWith_cons] at hn
        cases hl : lastWith (fun p => p.WgPubKey) rest k with
        | some b =>
          rw [hl] at hn
          cases hn
        | none =>
          rw [hl] at hn
          by_cases hk : p.WgPubKey = k
          · simp [hk] at hn
          · rw [← hother hk]
            exact hrest.2 hl
    cases hg : GoMap.get? m p.WgPubKey with
    | none =>
      rw [hg] at h
      by_cases hf : env.createFails p.WgPubKey = true
      · simp only [hf, if_true] at h
        refine key _ _ h ?_ (fun _ => rfl)
        intro hk conn' hc'
        rw [← hk, hg] at hc'
        cases hc'
      · simp only [hf, if_false] at h
        refine key _ _ h ?_ ?_
        · intro hk conn' hc'
          rw [← hk, GoMap.get?_set_self] at hc'
          cases hc'
          rfl
        · intro hk
          exact GoMap.get?_set_of_ne _ _ _ _ (fun h => hk h.symm)
    | some conn0 =>
      rw [hg] at h
      by_cases hc : conn0.AllowedIps = p.allowedIps
      · simp only [hc, if_true] at h
        refine key _ _ h ?_ (fun _ => rfl)
        intro hk conn' hc'
        rw [← hk, hg] at hc'
        cases hc'
        exact hc
      · simp only [hc, if_false] at h
        refine key _ _ h ?_ ?_
        · intro hk conn' hc'
          rw [← hk, GoMap.get?_set_self] at hc'
          cases hc'
          rfl
        · intro hk
          exact GoMap.get?_set_of_ne _ _ _ _ (fun h => hk h.symm)

theorem updateNetworkMap.remove_get (desired L : List String) (m : GoMap PeerConn)
    (srv : Option SSHServer) (c : List EngineCall) (k : String) (conn : PeerConn)
    (h : GoMap.get? (updateNetworkMap.remove desired L m srv c).1 k = some conn) :
    GoMap.get? m k = some conn := by
  induction L generalizing m srv c with
  | nil => simpa [updateNetworkMap.remove] using h
  | cons key rest ih =>
    unfold updateNetworkMap.remove at h
    by_cases hk : key ∈ desired
    · simp only [hk, if_true] at h
      exact ih _ _ _ h
    · simp only [hk, if_false] at h
      have h' := ih _ _ _ h
      by_cases hkk : k = key
      · rw [hkk, GoMap.get?_delete_self] at h'
        cases h'
      · rwa [GoMap.get?_delete_of_ne _ _ _ hkk] at h'

/-- The allowed IPs a connection reports after an accepted network map are those of the last
descriptor of the map that carries its key. -/
theorem Engine.updateNetworkMap_get (env : EngineEnv) (e : Engine) (networkMap : NetworkMap)
    (hctx : e.ctxDone = false) (hser : e.networkSerial ≤ networkMap.Serial) (k : String)
    (conn : PeerConn)
    (h : GoMap.get? (e.updateNetworkMap env networkMap).1.peerConns k = some conn) :
    ∃ p, lastWith (fun p => p.WgPubKey) networkMap.RemotePeers k = some p ∧
      conn.AllowedIps = p.allowedIps := by
  have hmem : k ∈ GoMap.keys (e.updateNetworkMap env networkMap).1.peerConns := by
    rw [← GoMap.get?_isSome_iff, h]
    rfl
  have hdes := ((Engine.updateNetworkMap_keys env e networkMap hctx hser k).1 hmem).1
  unfold Engine.updateNetworkMap at h
  rw [if_neg (by simp [hctx]), if_neg (Nat.not_lt.2 hser)] at h
  have h1 := updateNetworkMap.addOrModify_get env _ _ _ k conn
    (updateNetworkMap.remove_get _ _ _ _ _ k conn h)
  cases hl : lastWith (fun p => p.WgPubKey) networkMap.RemotePeers k with
  | none => exact absurd hdes ((lastWith_eq_none_iff _ _ _).1 hl)
  | some p => exact ⟨p, rfl, h1.1 p hl⟩

/-- C20: after a network map whose serial is not below the engine's, the current serial
included, every connection reports the comma-joined `AllowedIps` of the descriptor of its key
in the map (the last one, should the key occur twice): a peer that was connected with other
allowed IPs reports the new ones, and every other peer of the map reports those of its own
descriptor. -/
theorem updateNetworkMap_allowedIps (env : EngineEnv) (e : Engine) (networkMap : NetworkMap)
    (hctx : e.ctxDone = false) (hser : e.networkSerial ≤ networkMap.Serial) :
    (∀ k ∈ networkMap.RemotePeers.map (fun p => p.WgPubKey), k ∈ GoMap.keys e.peerConns →
      ∃ p, lastWith (fun p => p.WgPubKey) networkMap.RemotePeers k = some p ∧
        GoMap.get? (e.updateNetworkMap env networkMap).1.peerConns k =
          some { AllowedIps := p.allowedIps }) ∧
    (∀ k conn, GoMap.get? (e.updateNetworkMap env networkMap).1.peerConns k = some conn →
      ∃ p, lastWith (fun p => p.WgPubKey) networkMap.RemotePeers k = some p ∧
        conn.AllowedIps = p.allowedIps) ∧
    ((networkMap.RemotePeers.map (fun p => p.WgPubKey)).Nodup →
      ∀ p ∈ networkMap.RemotePeers,
        (p.WgPubKey ∈ GoMap.keys e.peerConns →
          GoMap.get? (e.updateNetworkMap env networkMap).1.peerConns p.WgPubKey =
            some { AllowedIps := p.allowedIps }) ∧
        (∀ conn,
          GoMap.get? (e.updateNetworkMap env networkMap).1.peerConns p.WgPubKey = some conn →
          conn.AllowedIps = p.allowedIps)) := by
  have h2 := Engine.updateNetworkMap_get env e networkMap hctx hser
  have h1 : ∀ k ∈ networkMap.RemotePeers.map (fun p => p.WgPubKey),
      k ∈ GoMap.keys e.peerConns →
      ∃ p, lastWith (fun p => p.WgPubKey) networkMap.RemotePeers k = some p ∧
        GoMap.get? (e.updateNetworkMap env networkMap).1.peerConns k =
          some { AllowedIps := p.allowedIps } := by
    intro k hk hconn
    have hmem : k ∈ GoMap.keys (e.updateNetworkMap env networkMap).1.peerConns :=
      (Engine.updateNetworkMap_keys env e networkMap hctx hser k).2 ⟨hk, Or.inl hconn⟩
    rw [← GoMap.get?_isSome_iff] at hmem
    cases hg : GoMap.get? (e.updateNetworkMap env networkMap).1.peerConns k with
    | none => rw [hg] at hmem; cases hmem
    | some conn =>
      obtain ⟨p, hp, hips⟩ := h2 k conn hg
      refine ⟨p, hp, ?_⟩
      cases conn
      simp only at hips
      rw [hips]
  refine ⟨h1, h2, ?_⟩
  intro hnd p hp
  have hlast := lastWith_of_nodup (fun p : RemotePeerConfig => p.WgPubKey) _ hnd p hp
  constructor
  · intro hconn
    obtain ⟨q, hq, hget⟩ := h1 p.WgPubKey (List.mem_map.2 ⟨p, hp, rfl⟩) hconn
    rw [hlast] at hq
    cases hq
    exact hget
  · intro conn hget
    obtain ⟨q, hq, hips⟩ := h2 p.WgPubKey conn hget
    rw [hlast] at hq
    cases hq
    exact hips

/-- C20, on the fifth case of the test: serial 4 is applied again with the allowed IPs of
`peer3` changed from 100.64.0.12/24 to 100.64.0.20/24, and `peer2` keeps its own. -/
theorem updateNetworkMap_allowedIps_witness :
    GoMap.get?
        ((TestEngine_UpdateNetworkMap.engineBefore EngineEnv.allSucceed 4).updateNetworkMap
          EngineEnv.allSucceed TestEngine_UpdateNetworkMap.case5.networkMap).1.peerConns
        TestEngine_UpdateNetworkMap.modifiedPeer3.WgPubKey =
      some { AllowedIps := "100.64.0.20/24" } ∧
    GoMap.get?
        ((TestEngine_UpdateNetworkMap.engineBefore EngineEnv.allSucceed 4).updateNetworkMap
          EngineEnv.allSucceed TestEngine_UpdateNetworkMap.case5.networkMap).1.peerConns
        TestEngine_UpdateNetworkMap.peer2.WgPubKey =
      some { AllowedIps := "100.64.0.11/24" } :=
  have h := (updateNetworkMap_allowedIps EngineEnv.allSucceed
    (TestEngine_UpdateNetworkMap.engineBefore EngineEnv.allSucceed 4)
    TestEngine_UpdateNetworkMap.case5.networkMap (by decide) (by decide)).2.2 (by decide)
  ⟨(h TestEngine_UpdateNetworkMap.modifiedPeer3 (by decide)).1 (by decide),
    (h TestEngine_UpdateNetworkMap.peer2 (by decide)).1 (by decide)⟩

end Wiretrustee
namespace Wiretrustee

/-! ## Add, then remove the extras -/

theorem GoMap.mem_keys_foldl_delete {β : Type} (ks : List String) (m : GoMap β) (x : String) :
    x ∈ GoMap.keys (ks.foldl (fun t k => GoMap.delete t k) m) ↔
      x ∈ GoMap.keys m ∧ x ∉ ks := by
  induction ks generalizing m with
  | nil => simp
  | cons k rest ih =>
    rw [List.foldl_cons, ih, GoMap.mem_keys_delete, List.mem_cons, not_or]
    constructor
    · rintro ⟨⟨h1, h2⟩, h3⟩
      exact ⟨h2, h1, h3⟩
    · rintro ⟨h2, h1, h3⟩
      exact ⟨⟨h1, h2⟩, h3⟩

theorem Server.updateMux_ok (s s' : Server) (us : List muxUpdate) (calls : List Call)
    (h : s.updateMux us = .ok (s', calls)) :
    s' = { s with
        dnsMux := (staleKeys s us).foldl (fun t k => t.delete k)
          (us.foldl (fun t u => t.set u.domain u.handler) s.dnsMux)
        dnsMuxMap := targetMap us } ∧
    calls = us.map (fun u => Call.handle u.domain u.handler) ++
      (staleKeys s us).map Call.handleRemove := by
  rw [Server.updateMux_eq] at h
  split_ifs at h with hp
  simp only [MayPanic.ok.injEq, Prod.mk.injEq] at h
  exact ⟨h.1.symm, h.2.symm⟩

theorem Server.updateMux_ok_keys (s s' : Server) (us : List muxUpdate) (calls : List Call)
    (h : s.updateMux us = .ok (s', calls)) (k : String) :
    k ∈ GoMap.keys s'.dnsMux ↔
      (k ∈ GoMap.keys s.dnsMux ∨ k ∈ us.map (fun u => u.domain)) ∧ k ∉ staleKeys s us := by
  rw [(Server.updateMux_ok s s' us calls h).1]
  show k ∈ GoMap.keys (List.foldl _ _ _) ↔ _
  rw [GoMap.mem_keys_foldl_delete,
    GoMap.mem_keys_foldl_set (fun u : muxUpdate => u.domain) (fun u => u.handler)]

/-- C25: in an `updateMux` call that completes, the calls to the dispatch table are the
registrations of the target patterns, in order, followed by the deregistrations, and the
patterns deregistered are exactly the tracked ones the target set lacks. A pattern tracked
before and wanted after is not deregistered at any point, every target pattern is in the
table afterwards, and a pattern leaves the table only by such a deregistration. -/
theorem updateMux_add_then_remove (s s' : Server) (us : List muxUpdate) (calls : List Call)
    (h : s.updateMux us = .ok (s', calls)) :
    calls = us.map (fun u => Call.handle u.domain u.handler) ++
      (staleKeys s us).map Call.handleRemove ∧
    (∀ k, Call.handleRemove k ∈ calls ↔
      k ∈ GoMap.keys s.dnsMuxMap ∧ k ∉ us.map (fun u => u.domain)) ∧
    (∀ k ∈ GoMap.keys s.dnsMuxMap, k ∈ us.map (fun u => u.domain) →
      Call.handleRemove k ∉ calls) ∧
    (∀ k ∈ us.map (fun u => u.domain), k ∈ GoMap.keys s'.dnsMux) ∧
    (∀ k ∈ GoMap.keys s.dnsMux, Call.handleRemove k ∉ calls → k ∈ GoMap.keys s'.dnsMux) := by
  obtain ⟨-, hc⟩ := Server.updateMux_ok s s' us calls h
  have hrem : ∀ k, Call.handleRemove k ∈ calls ↔
      k ∈ GoMap.keys s.dnsMuxMap ∧ k ∉ us.map (fun u => u.domain) := by
    intro k
    rw [hc, ← mem_staleKeys]
    simp
  refine ⟨hc, hrem, ?_, ?_, ?_⟩
  · intro k _ hk hmem
    exact ((hrem k).1 hmem).2 hk
  · intro k hk
    rw [Server.updateMux_ok_keys s s' us calls h]
    exact ⟨Or.inr hk, fun hst => ((mem_staleKeys _ _ _).1 hst).2 hk⟩
  · intro k hk hno
    rw [Server.updateMux_ok_keys s s' us calls h]
    exact ⟨Or.inl hk, fun hst => hno ((hrem k).2 ((mem_staleKeys _ _ _).1 hst))⟩

/-- C25, on the sample server: the registrations of the second sample snapshot replace
`lab.internal` and `b.example`, which are removed after the three target patterns have been
registered. -/
theorem updateMux_add_then_remove_witness :
    [Call.handle "corp.internal" Handler.localResolver,
     Call.handle "." (Handler.upstreamResolver ["8.8.8.8:53"]),
     Call.handle "a.example" (Handler.upstreamResolver ["1.0.0.1:5353"]),
     Call.handleRemove "lab.internal", Call.handleRemove "b.example"] =
      [{ domain := "corp.internal", handler := Handler.localResolver },
       { domain := ".", handler := Handler.upstreamResolver ["8.8.8.8:53"] },
       { domain := "a.example", handler := Handler.upstreamResolver ["1.0.0.1:5353"] }].map
        (fun u : muxUpdate => Call.handle u.domain u.handler) ++
      (staleKeys sampleServer1
        [{ domain := "corp.internal", handler := Handler.localResolver },
         { domain := ".", handler := Handler.upstreamResolver ["8.8.8.8:53"] },
         { domain := "a.example", handler := Handler.upstreamResolver ["1.0.0.1:5353"] }]).map
        Call.handleRemove :=
  (updateMux_add_then_remove sampleServer1
    { sampleServer1 with dnsMux := sampleServer2.dnsMux, dnsMuxMap := sampleServer2.dnsMuxMap }
    [{ domain := "corp.internal", handler := Handler.localResolver },
     { domain := ".", handler := Handler.upstreamResolver ["8.8.8.8:53"] },
     { domain := "a.example", handler := Handler.upstreamResolver ["1.0.0.1:5353"] }]
    _ rfl).1

end Wiretrustee
namespace Wiretrustee

/-! ## The dispatch table and the tracked registrations -/

/-- A call that returns an error has left the dispatch table and the tracked registrations
alone. -/
theorem Server.UpdateDNSServer_err_frame (env : Env) (s s' : Server) (serial : Nat)
    (update : Update) (e : Error) (calls : List Call)
    (h : s.UpdateDNSServer env serial update = .returned s' (some e) calls) :
    s'.dnsMux = s.dnsMux ∧ s'.dnsMuxMap = s.dnsMuxMap := by
  obtain ⟨-, f2, f3, -, -⟩ := Server.applyServiceEnable_frame env s update.ServiceEnable
  unfold Server.UpdateDNSServer at h
  by_cases h1 : s.ctxDone = true
  · rw [if_pos h1] at h
    simp only [Outcome.returned.injEq] at h
    rw [← h.1]
    exact ⟨rfl, rfl⟩
  rw [if_neg h1] at h
  by_cases h2 : serial < s.updateSerial
  · rw [if_pos h2] at h
    simp only [Outcome.returned.injEq] at h
    rw [← h.1]
    exact ⟨rfl, rfl⟩
  rw [if_neg h2] at h
  revert h
  dsimp only
  cases hl : buildLocalHandlerUpdate update.CustomZones with
  | error e' =>
    intro h
    simp only [Outcome.returned.injEq] at h
    rw [← h.1]
    exact ⟨f2, f3⟩
  | ok lr =>
    obtain ⟨lmu, lrec⟩ := lr
    dsimp only
    cases hu : buildUpstreamHandlerUpdate update.NameServerGroups with
    | error e' =>
      intro h
      simp only [Outcome.returned.injEq] at h
      rw [← h.1]
      exact ⟨f2, f3⟩
    | ok umu =>
      dsimp only
      cases hm : (s.applyServiceEnable env update.ServiceEnable).1.updateMux (lmu ++ umu) with
      | panic msg => intro h; cases h
      | ok r =>
        obtain ⟨s1, calls1⟩ := r
        intro h
        simp at h

/-- C27: in every state reachable from `NewServer` by `UpdateDNSServer` calls that return,
successfully or with an error, the patterns registered in the dispatch table are exactly the
keys of `dnsMuxMap`. -/
theorem reachable_dnsMux_eq_dnsMuxMap (s : Server) (h : Reachable s) :
    ∀ k, k ∈ GoMap.keys s.dnsMux ↔ k ∈ GoMap.keys s.dnsMuxMap := by
  induction h with
  | init => intro k; simp [NewServer, GoMap.keys]
  | @step s s' env serial update err calls _ hcall ih =>
    intro k
    cases err with
    | some e =>
      obtain ⟨h1, h2⟩ := Server.UpdateDNSServer_err_frame env s s' serial update e calls hcall
      rw [h1, h2]
      exact ih k
    | none =>
      obtain ⟨-, -, lmu, lrec, umu, s1, calls1, -, -, hm, hs, -⟩ :=
        Server.UpdateDNSServer_nil env s s' serial update calls hcall
      obtain ⟨-, f2, f3, -, -⟩ := Server.applyServiceEnable_frame env s update.ServiceEnable
      have hmux : s'.dnsMux = s1.dnsMux := by
        rw [hs]
        exact (Server.updateLocalResolver_frame env s1 lrec).2.1
      have hmap : s'.dnsMuxMap = targetMap (lmu ++ umu) := by
        rw [hs]
        show (s1.updateLocalResolver env lrec).1.dnsMuxMap = _
        rw [(Server.updateLocalResolver_frame env s1 lrec).2.2.1,
          (Server.updateMux_ok _ _ _ _ hm).1]
      rw [hmux, hmap, Server.updateMux_ok_keys _ _ _ _ hm, mem_staleKeys, f2, f3,
        mem_keys_targetMap, ih k]
      constructor
      · rintro ⟨h1 | h1, h2⟩
        · by_contra hk
          exact h2 ⟨h1, hk⟩
        · exact h1
      · intro hk
        exact ⟨Or.inr hk, fun h2 => h2.2 hk⟩

theorem sampleServer2_reachable : Reachable sampleServer2 :=
  Reachable.step
    (Reachable.step Reachable.init
      (show NewServer.UpdateDNSServer Env.allSucceed 1 sampleUpdate1 =
        .returned sampleServer1 none
          [Call.listenAndServe, Call.handle "corp.internal" Handler.localResolver,
           Call.handle "lab.internal" Handler.localResolver,
           Call.handle "a.example" (Handler.upstreamResolver ["1.1.1.1:53"]),
           Call.handle "b.example" (Handler.upstreamResolver ["1.1.1.1:53"]),
           Call.registerRecord sampleRecord, Call.registerRecord sampleRecord2] by decide))
    (show sampleServer1.UpdateDNSServer Env.allSucceed 2 sampleUpdate2 =
      .returned sampleServer2 none sampleCalls2 by decide)

/-- C27, on the sample server, reached from `NewServer` by the two sample snapshots. -/
theorem reachable_dnsMux_eq_dnsMuxMap_witness :
    GoMap.keys sampleServer2.dnsMux = ["corp.internal", "a.example", "."] ∧
    GoMap.keys sampleServer2.dnsMuxMap = ["corp.internal", ".", "a.example"] ∧
    ("a.example" ∈ GoMap.keys sampleServer2.dnsMux ↔
      "a.example" ∈ GoMap.keys sampleServer2.dnsMuxMap) :=
  ⟨rfl, rfl, reachable_dnsMux_eq_dnsMuxMap sampleServer2 sampleServer2_reachable "a.example"⟩

/-! ## Empty patterns -/

/-- C28 at its failing input: for a custom zone with records and the empty domain both build
steps succeed, the local build step hands on a registration with the empty pattern, and
`registerMux` is called with it, which makes the dispatch table panic. -/
theorem UpdateDNSServer_registers_empty_zone_domain :
    buildLocalHandlerUpdate emptyDomainUpdate.CustomZones =
      .ok ([{ domain := "", handler := Handler.localResolver }],
        [(sampleRecord.Name, sampleRecord)]) ∧
    buildUpstreamHandlerUpdate emptyDomainUpdate.NameServerGroups = .ok [] ∧
    NewServer.registerMux "" Handler.localResolver = .panic "dns: invalid pattern " ∧
    (NewServer.applyServiceEnable Env.allSucceed true).1.updateMux
        [{ domain := "", handler := Handler.localResolver }] =
      .panic "dns: invalid pattern " ∧
    NewServer.UpdateDNSServer Env.allSucceed 1 emptyDomainUpdate =
      .panicked "dns: invalid pattern " :=
  ⟨rfl, rfl, rfl, rfl, by decide⟩

/-- The part of C28 that holds: the patterns that come from nameserver groups, the root
pattern included, are never empty. -/
theorem buildUpstreamHandlerUpdate_patterns_nonempty (gs : List NameServerGroup)
    (umu : List muxUpdate) (h : buildUpstreamHandlerUpdate gs = .ok umu) :
    ∀ u ∈ umu, u.domain ≠ "" := by
  intro u hu heq
  exact buildUpstreamHandlerUpdate.loop_nonempty gs [] umu h (by simp)
    (List.mem_map.2 ⟨u, hu, heq⟩)

end Wiretrustee
namespace Wiretrustee

/-! ## The handler of a nameserver group -/

theorem buildUpstreamHandlerUpdate.loop_acc (gs : List NameServerGroup) (mu : List muxUpdate) :
    buildUpstreamHandlerUpdate.loop gs mu =
      match buildUpstreamHandlerUpdate.loop gs [] with
      | .error e => .error e
      | .ok r => .ok (mu ++ r) := by
  induction gs generalizing mu with
  | nil => simp [buildUpstreamHandlerUpdate.loop]
  | cons g rest ih =>
    rw [buildUpstreamHandlerUpdate.loop_cons, buildUpstreamHandlerUpdate.loop_cons]
    cases g.updates with
    | error e => rfl
    | ok us =>
      dsimp only
      rw [ih (mu ++ us), ih ([] ++ us)]
      cases buildUpstreamHandlerUpdate.loop rest [] with
      | error e => rfl
      | ok r => simp

/-- What a list of groups with the group `g` in it builds: what the groups before `g` build,
then what `g` adds, then what the groups after it build. -/
theorem buildUpstreamHandlerUpdate_split (pre post : List NameServerGroup)
    (g : NameServerGroup) (r : List muxUpdate)
    (h : buildUpstreamHandlerUpdate (pre ++ g :: post) = .ok r) :
    ∃ r1 us r2, r = r1 ++ us ++ r2 ∧ buildUpstreamHandlerUpdate pre = .ok r1 ∧
      g.updates = .ok us ∧ buildUpstreamHandlerUpdate post = .ok r2 := by
  unfold buildUpstreamHandlerUpdate at h ⊢
  rw [buildUpstreamHandlerUpdate.loop_append] at h
  cases h1 : buildUpstreamHandlerUpdate.loop pre [] with
  | error e => rw [h1] at h; cases h
  | ok r1 =>
    rw [h1] at h
    dsimp only at h
    rw [buildUpstreamHandlerUpdate.loop_cons] at h
    cases h2 : g.updates with
    | error e => rw [h2] at h; cases h
    | ok us =>
      rw [h2] at h
      dsimp only at h
      rw [buildUpstreamHandlerUpdate.loop_acc] at h
      cases h3 : buildUpstreamHandlerUpdate.loop post [] with
      | error e => rw [h3] at h; cases h
      | ok r2 =>
        rw [h3] at h
        simp only [Except.ok.injEq] at h
        exact ⟨r1, us, r2, h.symm, rfl, rfl, rfl⟩

theorem NameServerGroup.updates_domains_eq (g : NameServerGroup) (us : List muxUpdate)
    (h : g.updates = .ok us) :
    us.map (fun u => u.domain) =
      if g.hasUDP = true then (if g.Primary = true then [RootZone] else g.Domains) else [] := by
  unfold NameServerGroup.updates at h
  split_ifs at h with h1 h2 h3 h4 h5
  · cases h; simp [h2]
  · cases h
    have h2' : g.hasUDP = true := by simpa using h2
    simp [h2', h3]
  · cases h
    have h2' : g.hasUDP = true := by simpa using h2
    simp [h2', h3, List.map_map, Function.comp_def]

theorem NameServerGroup.updates_filter (g : NameServerGroup) (h : g.hasUDP = true) :
    NameServerGroup.updates { g with NameServers := g.NameServers.filter NameServer.usable } =
      g.updates := by
  have hne : g.NameServers ≠ [] := by
    intro hnil
    simp [NameServerGroup.hasUDP, hnil] at h
  have hf : g.NameServers.filter NameServer.usable ≠ [] := by
    intro hnil
    rw [List.filter_eq_nil_iff] at hnil
    simp only [NameServerGroup.hasUDP, List.any_eq_true] at h
    obtain ⟨ns, hns, hu⟩ := h
    exact hnil ns hns hu
  have hu : NameServerGroup.hasUDP
      { g with NameServers := g.NameServers.filter NameServer.usable } = true := by
    simp only [NameServerGroup.hasUDP, List.any_eq_true] at h ⊢
    obtain ⟨ns, hns, hu⟩ := h
    exact ⟨ns, List.mem_filter.2 ⟨hns, hu⟩, hu⟩
  unfold NameServerGroup.updates
  simp only [hne, hf, hu, h, NameServerGroup.handler, List.filter_filter, Bool.and_self,
    if_false]

/-- C26: for a group that yields registrations, all of them carry one handler, an upstream
resolver whose servers are the `ip:port` strings of the group's nameservers of UDP type in
the group's order; there is one registration per domain of the group, or the one of the root
pattern for a primary group; and the nameservers of another type are left out without any
effect on the outcome of the build step. -/
theorem buildUpstreamHandlerUpdate_group_handler (pre post : List NameServerGroup)
    (g : NameServerGroup) (r : List muxUpdate)
    (h : buildUpstreamHandlerUpdate (pre ++ g :: post) = .ok r) :
    (∃ r1 us r2, r = r1 ++ us ++ r2 ∧ buildUpstreamHandlerUpdate pre = .ok r1 ∧
      buildUpstreamHandlerUpdate post = .ok r2 ∧
      (∀ u ∈ us, u.handler = Handler.upstreamResolver
        ((g.NameServers.filter (fun ns => decide (ns.NSType = UDPNameServerType))).map
          (fun ns => ns.IP ++ ":" ++ toString ns.Port))) ∧
      us.map (fun u => u.domain) =
        if g.hasUDP = true then (if g.Primary = true then [RootZone] else g.Domains)
        else []) ∧
    (g.hasUDP = true →
      buildUpstreamHandlerUpdate
          (pre ++ { g with NameServers := g.NameServers.filter NameServer.usable } :: post) =
        buildUpstreamHandlerUpdate (pre ++ g :: post)) := by
  constructor
  · obtain ⟨r1, us, r2, hr, h1, h2, h3⟩ := buildUpstreamHandlerUpdate_split pre post g r h
    exact ⟨r1, us, r2, hr, h1, h3, g.updates_handler us h2, g.updates_domains_eq us h2⟩
  · intro hu
    unfold buildUpstreamHandlerUpdate
    rw [buildUpstreamHandlerUpdate.loop_append, buildUpstreamHandlerUpdate.loop_append]
    cases buildUpstreamHandlerUpdate.loop pre [] with
    | error e => rfl
    | ok r1 =>
      dsimp only
      rw [buildUpstreamHandlerUpdate.loop_cons, buildUpstreamHandlerUpdate.loop_cons,
        g.updates_filter hu]

/-- C26, on the groups of the second sample snapshot: its third group has a TCP-typed and a
UDP-typed nameserver, and its one registration carries the UDP one alone. -/
theorem buildUpstreamHandlerUpdate_group_handler_witness :
    ∃ r1 us r2,
      [{ domain := ".", handler := Handler.upstreamResolver ["8.8.8.8:53"] },
       { domain := "a.example", handler := Handler.upstreamResolver ["1.0.0.1:5353"] }] =
        r1 ++ us ++ r2 ∧
      buildUpstreamHandlerUpdate (sampleUpdate2.NameServerGroups.take 2) = .ok r1 ∧
      buildUpstreamHandlerUpdate [] = .ok r2 ∧
      (∀ u ∈ us, u.handler = Handler.upstreamResolver ["1.0.0.1:5353"]) ∧
      us.map (fun u => u.domain) = ["a.example"] :=
  (buildUpstreamHandlerUpdate_group_handler (sampleUpdate2.NameServerGroups.take 2) []
    { NameServers := [{ IP := "1.1.1.1", NSType := 2, Port := 53 },
                      { IP := "1.0.0.1", NSType := 1, Port := 5353 }], Primary := false,
      Domains := ["a.example"] }
    [{ domain := ".", handler := Handler.upstreamResolver ["8.8.8.8:53"] },
     { domain := "a.example", handler := Handler.upstreamResolver ["1.0.0.1:5353"] }]
    rfl).1

end Wiretrustee
namespace Wiretrustee

/-! ## The dispatch between gRPC and HTTP -/

theorem HasPrefix_grpc_of_proto (s : String)
    (h : HasPrefix s "application/grpc+proto" = true) :
    HasPrefix s "application/grpc" = true := by
  unfold HasPrefix at h ⊢
  rw [List.isPrefixOf_iff_prefix] at h ⊢
  have hp : "application/grpc".data <+: "application/grpc+proto".data :=
    ⟨"+proto".data, by decide⟩
  exact hp.trans h

/-- C30: `handlerFunc` passes a request to exactly one handler, the gRPC handler exactly when
`ProtoMajor` is 2 and the content type starts with `application/grpc`, the HTTP handler
otherwise; the test for the prefix `application/grpc+proto` changes nothing. -/
theorem handlerFunc_dispatch (request : HttpRequest) :
    (handlerFunc request = Served.gRPCHandler ↔
      request.ProtoMajor = 2 ∧ HasPrefix request.ContentType "application/grpc" = true) ∧
    (handlerFunc request = Served.httpHandler ↔
      ¬ (request.ProtoMajor = 2 ∧ HasPrefix request.ContentType "application/grpc" = true)) ∧
    handlerFunc request =
      (if request.ProtoMajor = 2 && HasPrefix request.ContentType "application/grpc"
        then Served.gRPCHandler else Served.httpHandler) := by
  have hor : (HasPrefix request.ContentType "application/grpc" ||
      HasPrefix request.ContentType "application/grpc+proto") =
      HasPrefix request.ContentType "application/grpc" := by
    cases h1 : HasPrefix request.ContentType "application/grpc" with
    | true => rfl
    | false =>
      cases h2 : HasPrefix request.ContentType "application/grpc+proto" with
      | false => rfl
      | true => rw [HasPrefix_grpc_of_proto _ h2] at h1; cases h1
  unfold handlerFunc
  simp only [hor]
  by_cases hp : request.ProtoMajor = 2
  · cases hg : HasPrefix request.ContentType "application/grpc" <;> simp [hp]
  · simp [hp]

end Wiretrustee
namespace Wiretrustee

/-! ## The two TLS decisions of the management command -/

/-- C29 at its failing input: no flag is given and the configuration file names a Let's
Encrypt domain. `PreRunE` looks at the flag, finds TLS disabled and picks port 80; `RunE`
looks at the loaded configuration and serves with TLS. -/
theorem PreRunE_RunE_tls_disagree :
    PreRunE (MgmtEnv.withFile letsEncryptFileConfig) noFlags "management.json" =
      .ok { config := letsEncryptFileConfig, mgmtPort := 80, tlsEnabled := false } ∧
    RunE.tls (MgmtEnv.withFile letsEncryptFileConfig) letsEncryptFileConfig =
      .ok (Credentials.certManager "mgmt.example.com", true) :=
  ⟨rfl, rfl⟩

/-- Where the two TLS decisions agree: whenever the Let's Encrypt flag is set exactly when
the loaded configuration names a Let's Encrypt domain, `RunE` finds TLS enabled exactly when
`PreRunE` did, and the default port of `PreRunE` is 443 with TLS and 80 without. -/
theorem PreRunE_RunE_tls_agree (env : MgmtEnv) (flags : Flags) (mgmtConfig : String)
    (p : PreRun) (c : Credentials) (t : Bool)
    (hp : PreRunE env flags mgmtConfig = .ok p) (hr : RunE.tls env p.config = .ok (c, t))
    (hle : flags.mgmtLetsencryptDomain ≠ "" ↔ p.config.HttpConfig.LetsEncryptDomain ≠ "") :
    t = p.tlsEnabled ∧
    (flags.userPort = false → p.mgmtPort = if p.tlsEnabled then 443 else 80) ∧
    (flags.userPort = true → p.mgmtPort = flags.mgmtPort) := by
  unfold PreRunE at hp
  cases hl : loadMgmtConfig env flags mgmtConfig with
  | error e => rw [hl] at hp; cases hp
  | ok config =>
    rw [hl] at hp
    simp only [Except.ok.injEq] at hp
    subst hp
    simp only at hle hr ⊢
    refine ⟨?_, ?_, ?_⟩
    · unfold RunE.tls at hr
      by_cases h1 : config.HttpConfig.LetsEncryptDomain ≠ ""
      · rw [if_pos h1] at hr
        cases hc : env.createCertManagerFails
        · rw [hc] at hr
          simp only [Bool.false_eq_true, if_false, Except.ok.injEq, Prod.mk.injEq] at hr
          rw [← hr.2, if_pos (Or.inl (hle.2 h1))]
        · rw [hc] at hr
          simp at hr
      · rw [if_neg h1] at hr
        have h1' : ¬ flags.mgmtLetsencryptDomain ≠ "" := fun h => h1 (hle.1 h)
        by_cases h2 : config.HttpConfig.CertFile ≠ "" ∧ config.HttpConfig.CertKey ≠ ""
        · rw [if_pos h2] at hr
          cases ht : env.loadTLSConfigFails
          · rw [ht] at hr
            simp only [Bool.false_eq_true, if_false, Except.ok.injEq, Prod.mk.injEq] at hr
            rw [← hr.2, if_pos (Or.inr h2)]
          · rw [ht] at hr
            simp at hr
        · rw [if_neg h2] at hr
          simp only [Except.ok.injEq, Prod.mk.injEq] at hr
          rw [← hr.2, if_neg (not_or.2 ⟨h1', h2⟩)]
    · intro hu
      simp [hu]
    · intro hu
      simp [hu]

end Wiretrustee
namespace Wiretrustee

/-! ## The name server group patch handler -/

/-- The operation the loop appends for a valid patch: its type is the one of the patch's
path, its values are the patch's value. -/
theorem PatchNameserverGroupHandler.loop_cons_valid (patch : NameserverGroupPatchOperation)
    (rest : List NameserverGroupPatchOperation) (operations : List NameServerGroupUpdateOperation)
    (h : patch.valid) :
    ∃ t, pathType patch.Path = some t ∧
      PatchNameserverGroupHandler.loop (patch :: rest) operations =
        PatchNameserverGroupHandler.loop rest
          (operations ++ [{ Type_ := t, Values := patch.Value }]) := by
  obtain ⟨hop, hpath⟩ := h
  rw [PatchNameserverGroupHandler.loop]
  simp only [NameserverGroupPatchOperationOpReplace, NameserverGroupPatchOperationPathName,
    NameserverGroupPatchOperationPathDescription, NameserverGroupPatchOperationPathNameservers,
    NameserverGroupPatchOperationPathGroups, NameserverGroupPatchOperationPathEnabled]
  rw [if_neg (not_not.2 hop)]
  rcases hpath with h | h | h | h | h <;> rw [h] <;> exact ⟨_, rfl, rfl⟩

/-- The loop leaves with a 400 response at an invalid patch. -/
theorem PatchNameserverGroupHandler.loop_cons_invalid (patch : NameserverGroupPatchOperation)
    (rest : List NameserverGroupPatchOperation) (operations : List NameServerGroupUpdateOperation)
    (h : ¬ patch.valid) :
    ∃ msg, PatchNameserverGroupHandler.loop (patch :: rest) operations =
      .error (HttpResponse.error msg StatusBadRequest) := by
  rw [PatchNameserverGroupHandler.loop]
  simp only [NameserverGroupPatchOperationOpReplace, NameserverGroupPatchOperationPathName,
    NameserverGroupPatchOperationPathDescription, NameserverGroupPatchOperationPathNameservers,
    NameserverGroupPatchOperationPathGroups, NameserverGroupPatchOperationPathEnabled]
  by_cases hop : patch.Op = "replace"
  · rw [if_neg (not_not.2 hop)]
    have hp : ¬ (patch.Path = "name" ∨ patch.Path = "description" ∨
        patch.Path = "nameservers" ∨ patch.Path = "groups" ∨ patch.Path = "enabled") :=
      fun hp => h ⟨hop, hp⟩
    simp only [not_or] at hp
    obtain ⟨h1, h2, h3, h4, h5⟩ := hp
    rw [if_neg h1, if_neg h2, if_neg h3, if_neg h4, if_neg h5]
    exact ⟨_, rfl⟩
  · rw [if_pos hop]
    exact ⟨_, rfl⟩

/-- When every patch is valid the loop returns the operations it was given followed by one
operation per patch, in order. -/
theorem PatchNameserverGroupHandler.loop_all_valid (patches : List NameserverGroupPatchOperation) :
    ∀ operations : List NameServerGroupUpdateOperation, (∀ p ∈ patches, p.valid) →
      ∃ ops, PatchNameserverGroupHandler.loop patches operations = .ok (operations ++ ops) ∧
        List.Forall₂ (fun p o => pathType p.Path = some o.Type_ ∧ o.Values = p.Value)
          patches ops := by
  induction patches with
  | nil =>
    intro operations _
    exact ⟨[], by rw [PatchNameserverGroupHandler.loop, List.append_nil], List.Forall₂.nil⟩
  | cons patch rest ih =>
    intro operations h
    obtain ⟨t, ht, heq⟩ := PatchNameserverGroupHandler.loop_cons_valid patch rest operations
      (h patch (List.mem_cons_self _ _))
    obtain ⟨ops, hops, hall⟩ := ih (operations ++ [{ Type_ := t, Values := patch.Value }])
      (fun p hp => h p (List.mem_cons_of_mem _ hp))
    refine ⟨{ Type_ := t, Values := patch.Value } :: ops, ?_, List.Forall₂.cons ⟨ht, rfl⟩ hall⟩
    rw [heq, hops, List.append_assoc, List.singleton_append]

/-- When some patch is invalid the loop leaves with a 400 response, whatever came before. -/
theorem PatchNameserverGroupHandler.loop_some_invalid (patches : List NameserverGroupPatchOperation) :
    ∀ operations : List NameServerGroupUpdateOperation, ¬ (∀ p ∈ patches, p.valid) →
      ∃ msg, PatchNameserverGroupHandler.loop patches operations =
        .error (HttpResponse.error msg StatusBadRequest) := by
  induction patches with
  | nil => intro _ h; exact absurd (fun p hp => absurd hp (List.not_mem_nil p)) h
  | cons patch rest ih =>
    intro operations h
    by_cases hv : patch.valid
    · obtain ⟨t, _, heq⟩ := PatchNameserverGroupHandler.loop_cons_valid patch rest operations hv
      rw [heq]
      refine ih _ (fun hall => h ?_)
      intro p hp
      rcases List.mem_cons.1 hp with rfl | hp
      · exact hv
      · exact hall p hp
    · exact PatchNameserverGroupHandler.loop_cons_invalid patch rest operations hv

/-- C24: for an authenticated request with a non-empty group ID and a decodable body,
`PatchNameserverGroupHandler` calls the account manager's `UpdateNameServerGroup` if and
only if every patch has op replace and a path among name, description, nameservers, groups,
enabled. When every patch is valid it issues exactly one call, for this account and group,
whose operations are one per patch in request order, each with the type of the patch's path
and the patch's value as `Values`. When some patch is invalid it issues no call at all, so
none of the patches is applied, and answers 400 Bad Request. -/
theorem PatchNameserverGroupHandler_all_or_nothing (accountManager : AccountManager)
    (accountId nsGroupID : String) (patches : List NameserverGroupPatchOperation)
    (hid : nsGroupID ≠ "") :
    ((∀ p ∈ patches, p.valid) →
      ∃ ops, (PatchNameserverGroupHandler accountManager
          { account := .ok accountId, id := nsGroupID, body := .ok patches }).2 =
            [AccountCall.UpdateNameServerGroup accountId nsGroupID ops] ∧
        List.Forall₂ (fun p o => pathType p.Path = some o.Type_ ∧ o.Values = p.Value)
          patches ops) ∧
    (¬ (∀ p ∈ patches, p.valid) →
      (PatchNameserverGroupHandler accountManager
          { account := .ok accountId, id := nsGroupID, body := .ok patches }).2 = [] ∧
      ∃ msg, (PatchNameserverGroupHandler accountManager
          { account := .ok accountId, id := nsGroupID, body := .ok patches }).1 =
            HttpResponse.error msg 400) := by
  have hlen : ¬ nsGroupID.length = 0 := by
    intro h
    apply hid
    cases nsGroupID with
    | mk data =>
      cases data with
      | nil => rfl
      | cons c cs => simp [String.length] at h
  constructor
  · intro hall
    obtain ⟨ops, hops, hrel⟩ := PatchNameserverGroupHandler.loop_all_valid patches [] hall
    rw [List.nil_append] at hops
    refine ⟨ops, ?_, hrel⟩
    unfold PatchNameserverGroupHandler
    simp only [hlen, if_false, hops]
    cases accountManager.UpdateNameServerGroup accountId nsGroupID ops <;> rfl
  · intro hnot
    obtain ⟨msg, hmsg⟩ := PatchNameserverGroupHandler.loop_some_invalid patches [] hnot
    unfold PatchNameserverGroupHandler
    simp only [hlen, if_false, hmsg]
    exact ⟨trivial, msg, rfl⟩

/-- The handler at two sample requests: three valid patches are forwarded as three operations
in request order; a request whose second patch is not a replace is answered 400 with no call,
the valid first patch included. -/
theorem PatchNameserverGroupHandler_samples :
    (PatchNameserverGroupHandler AccountManager.accepting
        { account := .ok "acc1", id := "nsg1", body := .ok samplePatches }).2 =
      [AccountCall.UpdateNameServerGroup "acc1" "nsg1"
        [ { Type_ := .UpdateNameServerGroupName, Values := ["office"] },
          { Type_ := .UpdateNameServerGroupNameServers,
            Values := ["udp://1.1.1.1:53", "udp://8.8.8.8:53"] },
          { Type_ := .UpdateNameServerGroupEnabled, Values := ["true"] } ]] ∧
    (PatchNameserverGroupHandler AccountManager.accepting
        { account := .ok "acc1", id := "nsg1", body := .ok samplePatchesBadOp }).2 = [] := by
  constructor <;> decide

/-- C24 at a sample request of three valid patches for group nsg1 of account acc1. -/
theorem PatchNameserverGroupHandler_all_or_nothing_witness :
    "nsg1" ≠ "" ∧ (∀ p ∈ samplePatches, p.valid) ∧
    ((∀ p ∈ samplePatches, p.valid) →
      ∃ ops, (PatchNameserverGroupHandler AccountManager.accepting
          { account := .ok "acc1", id := "nsg1", body := .ok samplePatches }).2 =
            [AccountCall.UpdateNameServerGroup "acc1" "nsg1" ops] ∧
        List.Forall₂ (fun p o => pathType p.Path = some o.Type_ ∧ o.Values = p.Value)
          samplePatches ops) ∧
    (¬ (∀ p ∈ samplePatches, p.valid) →
      (PatchNameserverGroupHandler AccountManager.accepting
          { account := .ok "acc1", id := "nsg1", body := .ok samplePatches }).2 = [] ∧
      ∃ msg, (PatchNameserverGroupHandler AccountManager.accepting
          { account := .ok "acc1", id := "nsg1", body := .ok samplePatches }).1 =
            HttpResponse.error msg 400) :=
  ⟨by decide, by decide,
    PatchNameserverGroupHandler_all_or_nothing AccountManager.accepting "acc1" "nsg1"
      samplePatches (by decide)⟩

end Wiretrustee
namespace Wiretrustee

/-! ## The call trace of the network-map reconciler -/

/-- The first half of the peer diff issues only connection calls: calls of any other kind
are the ones it was handed. -/
theorem updateNetworkMap.addOrModify_filter (env : EngineEnv) (P : EngineCall → Bool)
    (hP : ∀ c, c.isConn = true → P c = false) (peers : List RemotePeerConfig) :
    ∀ (peerConns : GoMap PeerConn) (calls : List EngineCall),
      (updateNetworkMap.addOrModify env peers peerConns calls).2.filter P = calls.filter P := by
  induction peers with
  | nil => intro _ _; rfl
  | cons p rest ih =>
    intro peerConns calls
    rw [updateNetworkMap.addOrModify]
    cases hg : GoMap.get? peerConns p.WgPubKey with
    | none =>
      simp only
      by_cases hf : env.createFails p.WgPubKey = true
      · rw [if_pos hf, ih, List.filter_append]
        simp [List.filter_cons, hP (EngineCall.createConn p.WgPubKey p.allowedIps) rfl]
      · rw [if_neg hf, ih, List.filter_append]
        simp [List.filter_cons, hP (EngineCall.createConn p.WgPubKey p.allowedIps) rfl]
    | some conn =>
      simp only
      by_cases hc : conn.AllowedIps = p.allowedIps
      · rw [if_pos hc, ih]
      · rw [if_neg hc, ih, List.filter_append]
        simp [List.filter_cons, hP (EngineCall.updateConfig p.WgPubKey p.allowedIps) rfl]

/-- The calls of the removal of connections, and the server it leaves: the calls handed in
followed by `removeCalls`, and a server exactly if there was one. -/
theorem updateNetworkMap.remove_calls (desired : List String) (keys : List String) :
    ∀ (peerConns : GoMap PeerConn) (sshServer : Option SSHServer) (calls : List EngineCall),
      (updateNetworkMap.remove desired keys peerConns sshServer calls).2.2 =
          calls ++ removeCalls desired sshServer.isSome keys ∧
      (updateNetworkMap.remove desired keys peerConns sshServer calls).2.1.isSome =
          sshServer.isSome := by
  induction keys with
  | nil => intro _ _ calls; simp [updateNetworkMap.remove, removeCalls]
  | cons key rest ih =>
    intro peerConns sshServer calls
    rw [updateNetworkMap.remove, removeCalls]
    by_cases hk : key ∈ desired
    · rw [if_pos hk, if_pos hk]
      exact ih _ _ _
    · rw [if_neg hk, if_neg hk]
      cases sshServer with
      | none =>
        obtain ⟨h1, h2⟩ := ih (GoMap.delete peerConns key) none
          (calls ++ [EngineCall.closeConn key] ++ [])
        simp only [updateNetworkMap.revoke]
        rw [h1, h2]
        simp
      | some srv =>
        obtain ⟨h1, h2⟩ := ih (GoMap.delete peerConns key)
          (some { authorizedKeys := GoMap.delete srv.authorizedKeys key })
          (calls ++ [EngineCall.closeConn key] ++ [EngineCall.removeAuthorizedKey key])
        simp only [updateNetworkMap.revoke]
        rw [h1, h2]
        simp

/-- The calls of the SSH evaluation: the start and stop calls of `sshLifecycleCalls`. -/
theorem updateNetworkMap.updateSSH_calls (env : EngineEnv) (self : Option PeerConfig)
    (sshServer : Option SSHServer) :
    (updateNetworkMap.updateSSH env self sshServer).2 =
      sshLifecycleCalls self sshServer.isSome := by
  cases self with
  | none => rfl
  | some conf =>
    obtain ⟨addr, sc⟩ := conf
    unfold updateNetworkMap.updateSSH sshLifecycleCalls PeerConfig.sshEnabled
    cases sc with
    | none => cases sshServer <;> rfl
    | some c =>
      obtain ⟨en, key⟩ := c
      cases en <;> cases sshServer <;> cases hf : env.sshStartFails <;> simp [hf]

/-- The server the SSH evaluation leaves: one runs exactly as `sshRunningAfter` says. -/
theorem updateNetworkMap.updateSSH_isSome (env : EngineEnv) (self : Option PeerConfig)
    (sshServer : Option SSHServer) :
    (updateNetworkMap.updateSSH env self sshServer).1.isSome =
      sshRunningAfter env self sshServer.isSome := by
  cases self with
  | none => rfl
  | some conf =>
    obtain ⟨addr, sc⟩ := conf
    unfold updateNetworkMap.updateSSH sshRunningAfter PeerConfig.sshEnabled
    cases sc with
    | none => cases sshServer <;> rfl
    | some c =>
      obtain ⟨en, key⟩ := c
      cases en <;> cases sshServer <;> cases hf : env.sshStartFails <;> simp [hf]

/-- The calls of the authorization of a peer list: the calls handed in followed by
`authorizeCalls`. -/
theorem updateNetworkMap.authorize_calls (peers : List RemotePeerConfig) :
    ∀ (srv : SSHServer) (calls : List EngineCall),
      (updateNetworkMap.authorize peers srv calls).2 = calls ++ authorizeCalls peers := by
  induction peers with
  | nil => intro _ calls; simp [updateNetworkMap.authorize, authorizeCalls]
  | cons p rest ih =>
    intro srv calls
    rw [updateNetworkMap.authorize]
    cases hk : p.sshPubKey? with
    | none =>
      simp only
      rw [ih]
      simp [authorizeCalls, List.filterMap_cons, hk]
    | some key =>
      simp only
      rw [ih]
      simp [authorizeCalls, List.filterMap_cons, hk]

/-- The trace of an accepted call of `updateNetworkMap`: the connection calls of the first
half of the peer diff, the removals, the one route update, the SSH start or stop, and the
authorizations if a server runs; the call returns nil and a server runs afterwards exactly
as `sshRunningAfter` says. -/
theorem Engine.updateNetworkMap_trace (env : EngineEnv) (e : Engine) (S : NetworkMap)
    (hctx : e.ctxDone = false) (hserial : e.networkSerial ≤ S.Serial) :
    (e.updateNetworkMap env S).2.2 =
      (updateNetworkMap.addOrModify env S.RemotePeers e.peerConns []).2 ++
      removeCalls (S.RemotePeers.map (fun p => p.WgPubKey)) e.sshServer.isSome
        (GoMap.keys (updateNetworkMap.addOrModify env S.RemotePeers e.peerConns []).1) ++
      [EngineCall.updateRoutes S.Serial (S.Routes.getD [])] ++
      sshLifecycleCalls S.PeerConfig e.sshServer.isSome ++
      (if sshRunningAfter env S.PeerConfig e.sshServer.isSome = true
        then authorizeCalls S.RemotePeers else []) ∧
    (e.updateNetworkMap env S).1.sshServer.isSome =
      sshRunningAfter env S.PeerConfig e.sshServer.isSome ∧
    (e.updateNetworkMap env S).2.1 = none := by
  have hs : ¬ S.Serial < e.networkSerial := Nat.not_lt.2 hserial
  unfold Engine.updateNetworkMap
  rw [hctx]
  simp only [Bool.false_eq_true, if_false, hs]
  obtain ⟨hr1, hr2⟩ := updateNetworkMap.remove_calls (S.RemotePeers.map (fun p => p.WgPubKey))
    (GoMap.keys (updateNetworkMap.addOrModify env S.RemotePeers e.peerConns []).1)
    (updateNetworkMap.addOrModify env S.RemotePeers e.peerConns []).1 e.sshServer
    (updateNetworkMap.addOrModify env S.RemotePeers e.peerConns []).2
  have hroutes : (match S.Routes with | none => [] | some rs => rs) = S.Routes.getD [] := by
    cases S.Routes <;> rfl
  have hc := updateNetworkMap.updateSSH_calls env S.PeerConfig
    (updateNetworkMap.remove (S.RemotePeers.map (fun p => p.WgPubKey))
      (GoMap.keys (updateNetworkMap.addOrModify env S.RemotePeers e.peerConns []).1)
      (updateNetworkMap.addOrModify env S.RemotePeers e.peerConns []).1 e.sshServer
      (updateNetworkMap.addOrModify env S.RemotePeers e.peerConns []).2).2.1
  have hi := updateNetworkMap.updateSSH_isSome env S.PeerConfig
    (updateNetworkMap.remove (S.RemotePeers.map (fun p => p.WgPubKey))
      (GoMap.keys (updateNetworkMap.addOrModify env S.RemotePeers e.peerConns []).1)
      (updateNetworkMap.addOrModify env S.RemotePeers e.peerConns []).1 e.sshServer
      (updateNetworkMap.addOrModify env S.RemotePeers e.peerConns []).2).2.1
  rw [hr2] at hc hi
  rw [hroutes, hr1, hc, ← hi]
  cases hu : (updateNetworkMap.updateSSH env S.PeerConfig
    (updateNetworkMap.remove (S.RemotePeers.map (fun p => p.WgPubKey))
      (GoMap.keys (updateNetworkMap.addOrModify env S.RemotePeers e.peerConns []).1)
      (updateNetworkMap.addOrModify env S.RemotePeers e.peerConns []).1 e.sshServer
      (updateNetworkMap.addOrModify env S.RemotePeers e.peerConns []).2).2.1).1 with
  | none => simp
  | some srv => simp [updateNetworkMap.authorize_calls]

end Wiretrustee
namespace Wiretrustee

/-! ## Kinds of calls in the trace of the network-map reconciler -/

/-- The removal calls are of two kinds only: a filter that rejects both leaves none. -/
theorem removeCalls_filter (P : EngineCall → Bool)
    (h1 : ∀ k, P (EngineCall.closeConn k) = false)
    (h2 : ∀ k, P (EngineCall.removeAuthorizedKey k) = false)
    (desired : List String) (active : Bool) (keys : List String) :
    (removeCalls desired active keys).filter P = [] := by
  induction keys with
  | nil => rfl
  | cons key rest ih =>
    rw [removeCalls]
    by_cases hk : key ∈ desired
    · rw [if_pos hk]; exact ih
    · rw [if_neg hk, List.filter_append, ih]
      cases active <;> simp [List.filter_cons, h1, h2]

/-- The authorization calls are of one kind only: a filter that rejects it leaves none. -/
theorem authorizeCalls_filter (P : EngineCall → Bool)
    (h : ∀ p k, P (EngineCall.addAuthorizedKey p k) = false) (peers : List RemotePeerConfig) :
    (authorizeCalls peers).filter P = [] := by
  induction peers with
  | nil => rfl
  | cons p rest ih =>
    unfold authorizeCalls at ih ⊢
    rw [List.filterMap_cons]
    cases hk : p.sshPubKey? with
    | none => simpa [hk] using ih
    | some key =>
      simp only [hk, Option.map_some']
      rw [List.filter_cons, h, ih]
      simp

/-- The authorization calls all pass the filter of their own kind. -/
theorem authorizeCalls_filter_self (peers : List RemotePeerConfig) :
    (authorizeCalls peers).filter EngineCall.isAddAuthorizedKey = authorizeCalls peers := by
  rw [List.filter_eq_self]
  intro c hc
  unfold authorizeCalls at hc
  rw [List.mem_filterMap] at hc
  obtain ⟨p, _, hp⟩ := hc
  cases hk : p.sshPubKey? with
  | none => rw [hk] at hp; cases hp
  | some key => rw [hk] at hp; cases hp; rfl

/-- The authorization calls of a peer list: one for each descriptor that carries a key. -/
theorem mem_authorizeCalls (peers : List RemotePeerConfig) (peer key : String) :
    EngineCall.addAuthorizedKey peer key ∈ authorizeCalls peers ↔
      ∃ p ∈ peers, p.WgPubKey = peer ∧ p.sshPubKey? = some key := by
  unfold authorizeCalls
  rw [List.mem_filterMap]
  constructor
  · rintro ⟨p, hp, h⟩
    cases hk : p.sshPubKey? with
    | none => rw [hk] at h; cases h
    | some k =>
      rw [hk] at h
      simp only [Option.map_some', Option.some.injEq, EngineCall.addAuthorizedKey.injEq] at h
      exact ⟨p, hp, h.1, by rw [hk, h.2]⟩
  · rintro ⟨p, hp, h1, h2⟩
    exact ⟨p, hp, by rw [h2, ← h1]; rfl⟩

/-- The start and stop calls are rejected by a filter that rejects both kinds. -/
theorem sshLifecycleCalls_filter (P : EngineCall → Bool)
    (h1 : ∀ a, P (EngineCall.sshStart a) = false) (h2 : P EngineCall.sshStop = false)
    (self : Option PeerConfig) (running : Bool) :
    (sshLifecycleCalls self running).filter P = [] := by
  cases self with
  | none => rfl
  | some conf =>
    unfold sshLifecycleCalls
    cases conf.sshEnabled <;> cases running <;> simp [List.filter_cons, h1, h2]

/-- The start and stop calls all pass the filter of their own kind. -/
theorem sshLifecycleCalls_filter_self (self : Option PeerConfig) (running : Bool) :
    (sshLifecycleCalls self running).filter EngineCall.isSSHLifecycle =
      sshLifecycleCalls self running := by
  cases self with
  | none => rfl
  | some conf =>
    unfold sshLifecycleCalls
    cases conf.sshEnabled <;> cases running <;>
      simp [List.filter_cons, EngineCall.isSSHLifecycle]

/-- A removed peer that was connected is revoked when a server is active. -/
theorem mem_removeCalls (desired : List String) (keys : List String) (peer : String)
    (hin : peer ∈ keys) (hnot : peer ∉ desired) :
    EngineCall.removeAuthorizedKey peer ∈ removeCalls desired true keys := by
  induction keys with
  | nil => cases hin
  | cons key rest ih =>
    rw [removeCalls]
    by_cases hk : key ∈ desired
    · rw [if_pos hk]
      rcases List.mem_cons.1 hin with h | h
      · exact absurd (h ▸ hk) hnot
      · exact ih h
    · rw [if_neg hk]
      rcases List.mem_cons.1 hin with h | h
      · subst h
        simp
      · exact List.mem_append_right _ (ih h)

/-- The route updates in the trace of an accepted call: exactly one, with the serial and the
routes of the map. -/
theorem Engine.updateNetworkMap_filter_updateRoutes (env : EngineEnv) (e : Engine)
    (S : NetworkMap) (hctx : e.ctxDone = false) (hserial : e.networkSerial ≤ S.Serial) :
    (e.updateNetworkMap env S).2.2.filter EngineCall.isUpdateRoutes =
      [EngineCall.updateRoutes S.Serial (S.Routes.getD [])] := by
  rw [(Engine.updateNetworkMap_trace env e S hctx hserial).1]
  simp only [List.filter_append]
  rw [updateNetworkMap.addOrModify_filter env _ (by intro c hc; cases c <;> first | rfl | cases hc),
    removeCalls_filter _ (fun _ => rfl) (fun _ => rfl),
    sshLifecycleCalls_filter _ (fun _ => rfl) rfl]
  by_cases hr : sshRunningAfter env S.PeerConfig e.sshServer.isSome = true
  · rw [if_pos hr, authorizeCalls_filter _ (fun _ _ => rfl)]; rfl
  · rw [if_neg hr]; rfl

/-- The start and stop calls in the trace of an accepted call: those of
`sshLifecycleCalls`. -/
theorem Engine.updateNetworkMap_filter_lifecycle (env : EngineEnv) (e : Engine)
    (S : NetworkMap) (hctx : e.ctxDone = false) (hserial : e.networkSerial ≤ S.Serial) :
    (e.updateNetworkMap env S).2.2.filter EngineCall.isSSHLifecycle =
      sshLifecycleCalls S.PeerConfig e.sshServer.isSome := by
  rw [(Engine.updateNetworkMap_trace env e S hctx hserial).1]
  simp only [List.filter_append]
  rw [updateNetworkMap.addOrModify_filter env _ (by intro c hc; cases c <;> first | rfl | cases hc),
    removeCalls_filter _ (fun _ => rfl) (fun _ => rfl), sshLifecycleCalls_filter_self]
  by_cases hr : sshRunningAfter env S.PeerConfig e.sshServer.isSome = true
  · rw [if_pos hr, authorizeCalls_filter _ (fun _ _ => rfl)]
    simp [List.filter_cons, EngineCall.isSSHLifecycle]
  · rw [if_neg hr]
    simp [List.filter_cons, EngineCall.isSSHLifecycle]

/-- The authorization calls in the trace of an accepted call: those of the map's peers if a
server runs after the SSH evaluation, none otherwise. -/
theorem Engine.updateNetworkMap_filter_authorize (env : EngineEnv) (e : Engine)
    (S : NetworkMap) (hctx : e.ctxDone = false) (hserial : e.networkSerial ≤ S.Serial) :
    (e.updateNetworkMap env S).2.2.filter EngineCall.isAddAuthorizedKey =
      if sshRunningAfter env S.PeerConfig e.sshServer.isSome = true
        then authorizeCalls S.RemotePeers else [] := by
  rw [(Engine.updateNetworkMap_trace env e S hctx hserial).1]
  simp only [List.filter_append]
  rw [updateNetworkMap.addOrModify_filter env _ (by intro c hc; cases c <;> first | rfl | cases hc),
    removeCalls_filter _ (fun _ => rfl) (fun _ => rfl),
    sshLifecycleCalls_filter _ (fun _ => rfl) rfl]
  by_cases hr : sshRunningAfter env S.PeerConfig e.sshServer.isSome = true
  · simp only [if_pos hr]
    rw [authorizeCalls_filter_self]
    simp [List.filter_cons, EngineCall.isAddAuthorizedKey]
  · simp only [if_neg hr]
    simp [List.filter_cons, EngineCall.isAddAuthorizedKey]

/-- The first half of the peer diff reads only the creation failures of its collaborators. -/
theorem updateNetworkMap.addOrModify_congr (env env1 : EngineEnv)
    (h : env.createFails = env1.createFails) (peers : List RemotePeerConfig) :
    ∀ (peerConns : GoMap PeerConn) (calls : List EngineCall),
      updateNetworkMap.addOrModify env peers peerConns calls =
        updateNetworkMap.addOrModify env1 peers peerConns calls := by
  induction peers with
  | nil => intro _ _; rfl
  | cons p rest ih =>
    intro peerConns calls
    rw [updateNetworkMap.addOrModify, updateNetworkMap.addOrModify, h]
    simp only [ih]

/-- The reconciler never reads what the route manager returned: two runs whose collaborators
differ in that alone give the same engine, the same result and the same trace. -/
theorem Engine.updateNetworkMap_routes_error_unread (env : EngineEnv) (e : Engine)
    (S : NetworkMap) (b : Bool) :
    e.updateNetworkMap { env with updateRoutesFails := b } S = e.updateNetworkMap env S := by
  unfold Engine.updateNetworkMap
  rw [updateNetworkMap.addOrModify_congr { env with updateRoutesFails := b } env rfl]
  rfl

end Wiretrustee
namespace Wiretrustee

/-! ## Routes and SSH: the properties -/

/-- The modelled reconciler passes `TestEngine_UpdateNetworkMapWithRoutes`, the case in which
the route manager returns an error included. -/
theorem TestEngine_UpdateNetworkMapWithRoutes_passes :
    TestEngine_UpdateNetworkMapWithRoutes Engine.updateNetworkMap = true := by
  decide

/-- The modelled reconciler passes `TestEngine_SSH`. -/
theorem TestEngine_SSH_passes :
    TestEngine_SSH (Engine.updateNetworkMap EngineEnv.allSucceed) = true := by
  decide

/-- C21: for every network map `S` that is not stale, applied to an engine whose context is
live, `updateNetworkMap` calls the route manager's `UpdateRoutes` exactly once, with the
serial of `S` and the routes of `S` in their order (the empty list when `S` carries no route
list); it returns nil; and what the route manager returns changes neither the result, nor
the engine, nor the trace. -/
theorem updateNetworkMap_routes_forwarded (env : EngineEnv) (e : Engine) (S : NetworkMap)
    (hctx : e.ctxDone = false) (hserial : e.networkSerial ≤ S.Serial) :
    (e.updateNetworkMap env S).2.2.filter EngineCall.isUpdateRoutes =
      [EngineCall.updateRoutes S.Serial (S.Routes.getD [])] ∧
    (e.updateNetworkMap env S).2.1 = none ∧
    (∀ b, e.updateNetworkMap { env with updateRoutesFails := b } S =
      e.updateNetworkMap env S) :=
  ⟨Engine.updateNetworkMap_filter_updateRoutes env e S hctx hserial,
    (Engine.updateNetworkMap_trace env e S hctx hserial).2.2,
    Engine.updateNetworkMap_routes_error_unread env e S⟩

/-- C21 at the first case of `TestEngine_UpdateNetworkMapWithRoutes`, with a route manager
that returns an error: the two routes are passed under serial 1 and the call returns nil. -/
theorem updateNetworkMap_routes_forwarded_witness :
    NewEngine.ctxDone = false ∧
    NewEngine.networkSerial ≤ TestEngine_UpdateNetworkMapWithRoutes.case1.networkMap.Serial ∧
    (NewEngine.updateNetworkMap EngineEnv.routesFail
        TestEngine_UpdateNetworkMapWithRoutes.case1.networkMap).2.2.filter
          EngineCall.isUpdateRoutes =
      [EngineCall.updateRoutes 1
        [TestEngine_UpdateNetworkMapWithRoutes.routeA,
          TestEngine_UpdateNetworkMapWithRoutes.routeB]] ∧
    (NewEngine.updateNetworkMap EngineEnv.routesFail
        TestEngine_UpdateNetworkMapWithRoutes.case1.networkMap).2.1 = none :=
  ⟨rfl, by decide,
    (updateNetworkMap_routes_forwarded EngineEnv.routesFail NewEngine
      TestEngine_UpdateNetworkMapWithRoutes.case1.networkMap rfl (by decide)).1,
    (updateNetworkMap_routes_forwarded EngineEnv.routesFail NewEngine
      TestEngine_UpdateNetworkMapWithRoutes.case1.networkMap rfl (by decide)).2.1⟩

/-- C22: the SSH server after an accepted `updateNetworkMap(S)` (live context, serial not
stale). If `S` carries a self config then, provided the start of the server does not fail,
a server runs afterwards if and only if `SshEnabled` is true, and the start and stop calls
of the trace are: one start, at the node's address, when SSH is enabled and no server ran;
one stop when it is disabled and a server ran; none when the server is already in the
desired state. If `S` carries no self config, a server runs afterwards exactly if one ran
before, no start or stop is issued, and when none ran no remote peer's key is authorized. -/
theorem updateNetworkMap_ssh_server_state (env : EngineEnv) (e : Engine) (S : NetworkMap)
    (hctx : e.ctxDone = false) (hserial : e.networkSerial ≤ S.Serial) :
    (∀ conf, S.PeerConfig = some conf →
      (env.sshStartFails = false →
        ((e.updateNetworkMap env S).1.sshServer.isSome = true ↔ conf.sshEnabled = true)) ∧
      (e.updateNetworkMap env S).2.2.filter EngineCall.isSSHLifecycle =
        (if conf.sshEnabled = true ∧ e.sshServer.isSome = false then
          [EngineCall.sshStart conf.Address]
        else if conf.sshEnabled = false ∧ e.sshServer.isSome = true then [EngineCall.sshStop]
        else [])) ∧
    (S.PeerConfig = none →
      (e.updateNetworkMap env S).1.sshServer.isSome = e.sshServer.isSome ∧
      (e.updateNetworkMap env S).2.2.filter EngineCall.isSSHLifecycle = [] ∧
      (e.sshServer = none →
        (e.updateNetworkMap env S).2.2.filter EngineCall.isAddAuthorizedKey = [])) := by
  obtain ⟨_, hsome, _⟩ := Engine.updateNetworkMap_trace env e S hctx hserial
  have hlife := Engine.updateNetworkMap_filter_lifecycle env e S hctx hserial
  have hauth := Engine.updateNetworkMap_filter_authorize env e S hctx hserial
  refine ⟨fun conf hconf => ⟨fun hstart => ?_, ?_⟩, fun hnone => ⟨?_, ?_, fun hsrv => ?_⟩⟩
  · rw [hsome, hconf]
    cases hen : conf.sshEnabled <;> simp [sshRunningAfter, hen, hstart]
  · rw [hlife, hconf]
    cases hen : conf.sshEnabled <;> cases hrun : e.sshServer.isSome <;>
      simp [sshLifecycleCalls, hen]
  · rw [hsome, hnone]; rfl
  · rw [hlife, hnone]; rfl
  · rw [hauth, hnone, hsrv]; rfl

/-- C22 at the second map of `TestEngine_SSH` (serial 7, SSH enabled), applied to the engine
the first map left: a server runs afterwards and exactly one start was issued, at the
node's address. -/
theorem updateNetworkMap_ssh_server_state_witness :
    (TestEngine_SSH.engineAfter 1).ctxDone = false ∧
    (TestEngine_SSH.engineAfter 1).networkSerial ≤ TestEngine_SSH.networkMap7.Serial ∧
    ((TestEngine_SSH.engineAfter 1).updateNetworkMap EngineEnv.allSucceed
        TestEngine_SSH.networkMap7).1.sshServer.isSome = true ∧
    ((TestEngine_SSH.engineAfter 1).updateNetworkMap EngineEnv.allSucceed
        TestEngine_SSH.networkMap7).2.2.filter EngineCall.isSSHLifecycle =
      [EngineCall.sshStart "100.64.0.1/24"] :=
  ⟨by decide, by decide,
    (((updateNetworkMap_ssh_server_state EngineEnv.allSucceed (TestEngine_SSH.engineAfter 1)
      TestEngine_SSH.networkMap7 (by decide) (by decide)).1 _ rfl).1 rfl).2 rfl,
    ((updateNetworkMap_ssh_server_state EngineEnv.allSucceed (TestEngine_SSH.engineAfter 1)
      TestEngine_SSH.networkMap7 (by decide) (by decide)).1 _ rfl).2.trans (by decide)⟩

/-- C23: SSH authorization follows the peer set, in an accepted `updateNetworkMap(S)` (live
context, serial not stale). When `S` enables SSH and a server runs or starts, every remote
peer of `S` whose SSH part holds a non-empty public key has that key passed to
`AddAuthorizedKey`, under the peer's public key. When a connected peer is absent from `S`
while a server is active, `RemoveAuthorizedKey` is called with that peer's public key, and
the server is stopped only if `S` itself carries a self config that disables SSH: otherwise
one still runs afterwards. Every `AddAuthorizedKey` call stems from a descriptor of `S`
whose SSH part holds this key, so a descriptor without an SSH key causes none. -/
theorem updateNetworkMap_ssh_authorization (env : EngineEnv) (e : Engine) (S : NetworkMap)
    (hctx : e.ctxDone = false) (hserial : e.networkSerial ≤ S.Serial) :
    (∀ conf, S.PeerConfig = some conf → conf.sshEnabled = true →
      (e.sshServer.isSome = true ∨ env.sshStartFails = false) →
      ∀ p ∈ S.RemotePeers, ∀ c, p.SshConfig = some c → c.SshPubKey ≠ "" →
        EngineCall.addAuthorizedKey p.WgPubKey c.SshPubKey ∈
          (e.updateNetworkMap env S).2.2) ∧
    (∀ peer, peer ∈ GoMap.keys e.peerConns →
      peer ∉ S.RemotePeers.map (fun p => p.WgPubKey) → e.sshServer.isSome = true →
      EngineCall.removeAuthorizedKey peer ∈ (e.updateNetworkMap env S).2.2 ∧
      (EngineCall.sshStop ∈ (e.updateNetworkMap env S).2.2 ↔
        ∃ conf, S.PeerConfig = some conf ∧ conf.sshEnabled = false) ∧
      ((e.updateNetworkMap env S).1.sshServer.isSome = false ↔
        ∃ conf, S.PeerConfig = some conf ∧ conf.sshEnabled = false)) ∧
    (∀ peer key, EngineCall.addAuthorizedKey peer key ∈ (e.updateNetworkMap env S).2.2 →
      ∃ p ∈ S.RemotePeers, ∃ c, p.WgPubKey = peer ∧ p.SshConfig = some c ∧
        c.SshPubKey = key ∧ key ≠ "") := by
  obtain ⟨htrace, hsome, _⟩ := Engine.updateNetworkMap_trace env e S hctx hserial
  have hlife := Engine.updateNetworkMap_filter_lifecycle env e S hctx hserial
  have hauth := Engine.updateNetworkMap_filter_authorize env e S hctx hserial
  have hmemA : ∀ peer key, EngineCall.addAuthorizedKey peer key ∈
      (e.updateNetworkMap env S).2.2 ↔
      EngineCall.addAuthorizedKey peer key ∈
        (e.updateNetworkMap env S).2.2.filter EngineCall.isAddAuthorizedKey := by
    intro peer key
    rw [List.mem_filter]
    exact ⟨fun h => ⟨h, rfl⟩, fun h => h.1⟩
  have hmemS : EngineCall.sshStop ∈ (e.updateNetworkMap env S).2.2 ↔
      EngineCall.sshStop ∈ (e.updateNetworkMap env S).2.2.filter EngineCall.isSSHLifecycle := by
    rw [List.mem_filter]
    exact ⟨fun h => ⟨h, rfl⟩, fun h => h.1⟩
  refine ⟨?_, ?_, ?_⟩
  · intro conf hconf hen hrun p hp c hc hkey
    rw [hmemA, hauth]
    have hr : sshRunningAfter env S.PeerConfig e.sshServer.isSome = true := by
      rw [hconf]
      rcases hrun with h | h <;> simp [sshRunningAfter, hen, h]
    rw [if_pos hr, mem_authorizeCalls]
    refine ⟨p, hp, rfl, ?_⟩
    unfold RemotePeerConfig.sshPubKey?
    simp only [hc]
    rw [if_neg hkey]
  · intro peer hpeer hnot hsrv
    refine ⟨?_, ?_, ?_⟩
    · rw [htrace, hsrv]
      have hk : peer ∈ GoMap.keys
          (updateNetworkMap.addOrModify env S.RemotePeers e.peerConns []).1 :=
        (updateNetworkMap.addOrModify_keys env S.RemotePeers e.peerConns [] peer).2
          (Or.inl hpeer)
      have hm := mem_removeCalls (S.RemotePeers.map (fun p => p.WgPubKey)) _ peer hk hnot
      simp only [List.mem_append]
      exact Or.inl (Or.inl (Or.inl (Or.inr hm)))
    · rw [hmemS, hlife, hsrv]
      cases hpc : S.PeerConfig with
      | none => simp [sshLifecycleCalls]
      | some conf =>
        cases hen : conf.sshEnabled <;> simp [sshLifecycleCalls, hen]
    · rw [hsome, hsrv]
      cases hpc : S.PeerConfig with
      | none => simp [sshRunningAfter]
      | some conf =>
        cases hen : conf.sshEnabled <;> simp [sshRunningAfter, hen]
  · intro peer key h
    rw [hmemA, hauth] at h
    by_cases hr : sshRunningAfter env S.PeerConfig e.sshServer.isSome = true
    · rw [if_pos hr] at h
      obtain ⟨p, hp, hpeer, hkey⟩ := (mem_authorizeCalls _ _ _).1 h
      unfold RemotePeerConfig.sshPubKey? at hkey
      cases hsc : p.SshConfig with
      | none => simp only [hsc] at hkey; cases hkey
      | some c =>
        simp only [hsc] at hkey
        by_cases hempty : c.SshPubKey = ""
        · rw [if_pos hempty] at hkey; cases hkey
        · rw [if_neg hempty] at hkey
          have hck : c.SshPubKey = key := Option.some.inj hkey
          exact ⟨p, hp, c, hpeer, hsc, hck, hck ▸ hempty⟩
    · rw [if_neg hr] at h
      cases h

/-- C23 on the maps of `TestEngine_SSH`. At the second map (serial 7, SSH enabled,
`peerWithSSH` among the peers), applied to the engine the first map left, the key of
`peerWithSSH` is passed to `AddAuthorizedKey`, the one authorization call. At the third map (serial 8, no peers, no self
config), applied to the engine the second map left, in which the peer is connected and a
server runs, the peer's authorization is revoked, no stop is issued and a server still
runs. -/
theorem updateNetworkMap_ssh_authorization_witness :
    ((TestEngine_SSH.engineAfter 1).ctxDone = false ∧
      (TestEngine_SSH.engineAfter 1).networkSerial ≤ TestEngine_SSH.networkMap7.Serial ∧
      TestEngine_SSH.peerWithSSH ∈ TestEngine_SSH.networkMap7.RemotePeers ∧
      EngineCall.addAuthorizedKey "MNHf3Ma6z6mdLbriAJbqhX7+nM/B71lgw2+91q3LfhU="
          "ssh-ed25519 AAAAC3NzaC1lZDI1NTE5AAAAIFATYCqaQw/9id1Qkq3n16JYhDhXraI6Pc1fgB8ynEfQ" ∈
        ((TestEngine_SSH.engineAfter 1).updateNetworkMap EngineEnv.allSucceed
          TestEngine_SSH.networkMap7).2.2 ∧
      ((TestEngine_SSH.engineAfter 1).updateNetworkMap EngineEnv.allSucceed
          TestEngine_SSH.networkMap7).2.2.filter EngineCall.isAddAuthorizedKey =
        [EngineCall.addAuthorizedKey TestEngine_SSH.peerWithSSH.WgPubKey
          "ssh-ed25519 AAAAC3NzaC1lZDI1NTE5AAAAIFATYCqaQw/9id1Qkq3n16JYhDhXraI6Pc1fgB8ynEfQ"]) ∧
    (TestEngine_SSH.engineAfter 2).ctxDone = false ∧
    (TestEngine_SSH.engineAfter 2).networkSerial ≤ TestEngine_SSH.networkMap8.Serial ∧
    TestEngine_SSH.peerWithSSH.WgPubKey ∈ GoMap.keys (TestEngine_SSH.engineAfter 2).peerConns ∧
    TestEngine_SSH.peerWithSSH.WgPubKey ∉
      TestEngine_SSH.networkMap8.RemotePeers.map (fun p => p.WgPubKey) ∧
    (TestEngine_SSH.engineAfter 2).sshServer.isSome = true ∧
    EngineCall.removeAuthorizedKey TestEngine_SSH.peerWithSSH.WgPubKey ∈
      ((TestEngine_SSH.engineAfter 2).updateNetworkMap EngineEnv.allSucceed
        TestEngine_SSH.networkMap8).2.2 ∧
    (EngineCall.sshStop ∈ ((TestEngine_SSH.engineAfter 2).updateNetworkMap
        EngineEnv.allSucceed TestEngine_SSH.networkMap8).2.2 ↔
      ∃ conf, TestEngine_SSH.networkMap8.PeerConfig = some conf ∧ conf.sshEnabled = false) ∧
    (((TestEngine_SSH.engineAfter 2).updateNetworkMap EngineEnv.allSucceed
        TestEngine_SSH.networkMap8).1.sshServer.isSome = false ↔
      ∃ conf, TestEngine_SSH.networkMap8.PeerConfig = some conf ∧ conf.sshEnabled = false) :=
  ⟨⟨by decide, by decide, by decide,
      (updateNetworkMap_ssh_authorization EngineEnv.allSucceed (TestEngine_SSH.engineAfter 1)
        TestEngine_SSH.networkMap7 (by decide) (by decide)).1 _ rfl (by decide) (Or.inr rfl)
          TestEngine_SSH.peerWithSSH (by decide) _ rfl (by decide),
      by decide⟩,
    by decide, by decide, by decide, by decide, by decide,
    (updateNetworkMap_ssh_authorization EngineEnv.allSucceed (TestEngine_SSH.engineAfter 2)
      TestEngine_SSH.networkMap8 (by decide) (by decide)).2.1
        TestEngine_SSH.peerWithSSH.WgPubKey (by decide) (by decide) (by decide)⟩

/-- The authorization at the second map of `TestEngine_SSH`: the key of `peerWithSSH` is
passed to `AddAuthorizedKey`, and it is the only authorization. -/
theorem TestEngine_SSH_authorizes_peerWithSSH :
    ((TestEngine_SSH.engineAfter 1).updateNetworkMap EngineEnv.allSucceed
        TestEngine_SSH.networkMap7).2.2.filter EngineCall.isAddAuthorizedKey =
      [EngineCall.addAuthorizedKey "MNHf3Ma6z6mdLbriAJbqhX7+nM/B71lgw2+91q3LfhU="
        "ssh-ed25519 AAAAC3NzaC1lZDI1NTE5AAAAIFATYCqaQw/9id1Qkq3n16JYhDhXraI6Pc1fgB8ynEfQ"] := by
  decide

end Wiretrustee
